import Mathlib

/-!
# raylib-web: squares, bouncing balls and touch gestures

A shallow embedding of `src/examples/squareballpinchpoliaudio/main.c`.

* C `float` is modelled by an arbitrary linearly ordered field `K` with exact
  arithmetic (instantiated at `ℝ` for closed statements); C `int` by `Int`.
* The C library functions the program calls (`sqrtf`, `cosf`, `sinf`, `atan2f`,
  `hypotf`) are passed in as a record `Libm K`; `Libm.Exact` states that they
  compute the mathematical functions.
* Pointer out-parameters become returned values; the raylib input queries of a
  frame become a record of that frame's inputs; `GetRandomValue` becomes a
  function of the call number and the requested range.
-/

namespace RaylibWeb

/-! ## Data model -/

/-- raylib `Vector2`. -/
structure Vector2 (K : Type) where
  x : K
  y : K

/-- `typedef struct { float x, y; float half; float angle; } Square;` -/
structure Square (K : Type) where
  x : K
  y : K
  half : K
  angle : K

/-- The libm functions used by the program. -/
structure Libm (K : Type) where
  sqrtf : K → K
  cosf : K → K
  sinf : K → K
  atan2f : K → K → K
  hypotf : K → K → K

section Defs

variable {K : Type} [LinearOrderedField K]

/-- The libm record computes the mathematical functions exactly. -/
structure Libm.Exact (m : Libm K) : Prop where
  sqrt_nonneg : ∀ x, 0 ≤ m.sqrtf x
  sqrt_mul_self : ∀ x, 0 ≤ x → m.sqrtf x * m.sqrtf x = x
  cos_sq_add_sin_sq : ∀ a, m.cosf a * m.cosf a + m.sinf a * m.sinf a = 1
  cos_zero : m.cosf 0 = 1
  sin_zero : m.sinf 0 = 0
  hypot_eq : ∀ x y, m.hypotf x y = m.sqrtf (x * x + y * y)

instance : Inhabited (Vector2 K) := ⟨⟨0, 0⟩⟩

instance : Inhabited (Square K) := ⟨⟨0, 0, 0, 0⟩⟩

/-! ## Tunables -/

/-- `SEP_BIAS = 0.50f` -/
def SEP_BIAS (K : Type) [LinearOrderedField K] : K := 0.50

/-- `SPAWN_MARGIN = 6.0f` -/
def SPAWN_MARGIN (K : Type) [LinearOrderedField K] : K := 6.0

/-- `PI_F = 3.14159265358979323846f`, local constant of several functions. -/
def PI_F (K : Type) [LinearOrderedField K] : K := 3.14159265358979323846

/-! ## Helpers -/

/-- `RotateCS(v, c, s)` -/
def RotateCS (v : Vector2 K) (c s : K) : Vector2 K :=
  ⟨c * v.x - s * v.y, s * v.x + c * v.y⟩

/-- `InvRotateCS(v, c, s)` -/
def InvRotateCS (v : Vector2 K) (c s : K) : Vector2 K :=
  ⟨c * v.x + s * v.y, -s * v.x + c * v.y⟩

/-- `Reflect(v, n)`: `d = v.x*n.x + v.y*n.y; (v.x - 2 d n.x, v.y - 2 d n.y)`. -/
def Reflect (v n : Vector2 K) : Vector2 K :=
  let d := v.x * n.x + v.y * n.y
  ⟨v.x - 2 * d * n.x, v.y - 2 * d * n.y⟩

/-- `ClosestPointOnSquare(p, h)`: each coordinate clamped by the two nested conditionals. -/
def ClosestPointOnSquare (p : Vector2 K) (h : K) : Vector2 K :=
  let cx := if p.x < -h then -h else if p.x > h then h else p.x
  let cy := if p.y < -h then -h else if p.y > h then h else p.y
  ⟨cx, cy⟩

/-- The scalar product, used to state properties of normals and velocities. -/
def dot (a b : Vector2 K) : K := a.x * b.x + a.y * b.y

/-! ## Collision resolver -/

/-- The intermediate values of `ResolveCircleVsSquare`. -/
structure Contact (K : Type) where
  dist2 : K
  dist : K
  nL : Vector2 K
  nW : Vector2 K
  penetration : K

/-- The values `ResolveCircleVsSquare` computes from its arguments before it
moves anything: `dist2`, `dist`, the local normal `nL`, the world normal `nW`
and `penetration`. -/
def ResolveContact (m : Libm K) (sq : Square K) (radius : K) (p v : Vector2 K) : Contact K :=
  let a := sq.angle * (PI_F K / 180)
  let c := m.cosf a
  let s := m.sinf a
  let pW : Vector2 K := ⟨p.x - sq.x, p.y - sq.y⟩
  let pL := InvRotateCS pW c s
  let vL := InvRotateCS v c s
  let qL := ClosestPointOnSquare pL sq.half
  let dx := pL.x - qL.x
  let dy := pL.y - qL.y
  let dist2 := dx * dx + dy * dy
  let dist := if dist2 > 0 then m.sqrtf dist2 else 0
  let nL : Vector2 K :=
    if dist > 1e-6 then ⟨dx / dist, dy / dist⟩
    else if |vL.x| > |vL.y| then ⟨if vL.x > 0 then 1 else -1, 0⟩
    else ⟨0, if vL.y > 0 then 1 else -1⟩
  let pen := (radius - dist) + SEP_BIAS K
  let penetration := if pen < 0 then 0 else pen
  ⟨dist2, dist, nL, RotateCS nL c s, penetration⟩

/-- `ResolveCircleVsSquare(sq, radius, &bx, &by, &vx, &vy)`: returns the new
position and velocity. -/
def ResolveCircleVsSquare (m : Libm K) (sq : Square K) (radius : K) (p v : Vector2 K) :
    Vector2 K × Vector2 K :=
  let k := ResolveContact m sq radius p v
  if k.dist2 ≤ radius * radius then
    let b : Vector2 K := ⟨p.x + k.nW.x * k.penetration, p.y + k.nW.y * k.penetration⟩
    let vRef := Reflect v k.nW
    (⟨b.x + vRef.x * (1 / 8000), b.y + vRef.y * (1 / 8000)⟩, vRef)
  else (p, v)

/-! ## Further tunables -/

/-- `NUM_SQUARES 3` -/
def NUM_SQUARES : Nat := 3

/-- `BALL_RADIUS_MIN = 1.0f` -/
def BALL_RADIUS_MIN (K : Type) [LinearOrderedField K] : K := 1

/-- `BALL_RADIUS_MAX = 60.0f` -/
def BALL_RADIUS_MAX (K : Type) [LinearOrderedField K] : K := 60

/-- `SQUARE_SIZE_DEFAULT = 80.0f` -/
def SQUARE_SIZE_DEFAULT (K : Type) [LinearOrderedField K] : K := 80

/-- `SQUARE_MIN_SIDE = 10.0f` -/
def SQUARE_MIN_SIDE (K : Type) [LinearOrderedField K] : K := 10

/-- `SQUARE_MAX_SIDE = 600.0f` -/
def SQUARE_MAX_SIDE (K : Type) [LinearOrderedField K] : K := 600

/-- `MAX_SUBSTEPS = 2` -/
def MAX_SUBSTEPS : Int := 2

/-- `TOUCH_DELTA_DEADZONE = 0.5f` -/
def TOUCH_DELTA_DEADZONE (K : Type) [LinearOrderedField K] : K := 0.5

/-- raylib `Color`: four `unsigned char` channels. -/
structure Color where
  r : Nat
  g : Nat
  b : Nat
  a : Nat
deriving DecidableEq

/-- raylib `WHITE`. -/
def WHITE : Color := ⟨255, 255, 255, 255⟩

/-- `GRADIENT_STOPS[]` -/
def GRADIENT_STOPS : List Color := [⟨255, 255, 255, 255⟩, ⟨30, 230, 230, 255⟩]

/-- `GRADIENT_COUNT = sizeof(GRADIENT_STOPS)/sizeof(GRADIENT_STOPS[0])` -/
def GRADIENT_COUNT : Int := 2

/-- `typedef struct { float x, y, vx, vy, r; int trappedFrames; Color col; } Ball;` -/
structure Ball (K : Type) where
  x : K
  y : K
  vx : K
  vy : K
  r : K
  trappedFrames : Int
  col : Color

/-- `typedef struct { int id; Vector2 pos; } TrackedTouch;` with id `-1` when empty.
The same record is used for a touch point reported by the device
(`GetTouchPointId(i)`, `GetTouchPosition(i)`). -/
structure TrackedTouch (K : Type) where
  id : Int
  pos : Vector2 K

/-! ## Gradient -/

section Floor

variable [FloorRing K]

/-- The C conversion `(int)x` of a float: truncation towards zero. -/
def truncInt (x : K) : Int := if 0 ≤ x then ⌊x⌋ else ⌈x⌉

/-- The C conversion `(unsigned char)x` of a float. -/
def toUChar (x : K) : Nat := (truncInt x % 256).toNat

/-- `LerpColor(a, b, t)`; `b.r - a.r` is computed in `int`. -/
def LerpColor (a b : Color) (t : K) : Color :=
  let t := if t < 0 then 0 else t
  let t := if t > 1 then 1 else t
  ⟨toUChar ((a.r : K) + (((b.r : Int) - (a.r : Int) : Int) : K) * t),
   toUChar ((a.g : K) + (((b.g : Int) - (a.g : Int) : Int) : K) * t),
   toUChar ((a.b : K) + (((b.b : Int) - (a.b : Int) : Int) : K) * t),
   toUChar ((a.a : K) + (((b.a : Int) - (a.a : Int) : Int) : K) * t)⟩

/-- `GradientSample(stops, count, t)` -/
def GradientSample (stops : List Color) (count : Int) (t : K) : Color :=
  if count ≤ 0 then WHITE
  else if count = 1 then stops.getD 0 WHITE
  else if t ≤ 0 then stops.getD 0 WHITE
  else if t ≥ 1 then stops.getD (count - 1).toNat WHITE
  else
    let seg := t * ((count - 1 : Int) : K)
    let i := truncInt seg
    let ft := seg - (i : K)
    if i ≥ count - 1 then
      LerpColor (stops.getD (count - 2).toNat WHITE) (stops.getD (count - 2 + 1).toNat WHITE) (1 : K)
    else LerpColor (stops.getD i.toNat WHITE) (stops.getD (i + 1).toNat WHITE) ft

end Floor

/-! ## Square queries -/

/-- `PointInRotatedSquare(px, py, sq)` -/
def PointInRotatedSquare (m : Libm K) (px py : K) (sq : Square K) : Bool :=
  let a := sq.angle * (PI_F K / 180)
  let c := m.cosf a
  let s := m.sinf a
  let pl := InvRotateCS ⟨px - sq.x, py - sq.y⟩ c s
  decide (|pl.x| ≤ sq.half) && decide (|pl.y| ≤ sq.half)

/-- `CenterInsideSquare(sq, px, py)` -/
def CenterInsideSquare (m : Libm K) (sq : Square K) (px py : K) : Bool :=
  PointInRotatedSquare m px py sq

/-- `CenterInsideAnySquare(sqs, n, px, py)`; the array and its length are the list. -/
def CenterInsideAnySquare (m : Libm K) (sqs : List (Square K)) (px py : K) : Bool :=
  sqs.any (fun sq => CenterInsideSquare m sq px py)

/-- `PushOutsideSquareHull(sq, r, &bx, &by)`: returns the new point. -/
def PushOutsideSquareHull (m : Libm K) (sq : Square K) (r : K) (b : Vector2 K) : Vector2 K :=
  let dx := b.x - sq.x
  let dy := b.y - sq.y
  let len2 := dx * dx + dy * dy
  let halfDiag := sq.half * 1.41421356237
  let minD := halfDiag + r + SPAWN_MARGIN K
  let minD2 := minD * minD
  let tiny : Prop := len2 < 1e-8
  let dx := if tiny then 1 else dx
  let dy := if tiny then 0 else dy
  let len2 := if tiny then 1 else len2
  if len2 < minD2 then
    let s := minD / m.sqrtf len2
    ⟨sq.x + dx * s, sq.y + dy * s⟩
  else b

/-- `TopSquareAt(px, py, sqs, count)`: the loop `for (i = count-1; i >= 0; --i)`. -/
def TopSquareAt (m : Libm K) (px py : K) (sqs : List (Square K)) : Nat → Int
  | 0 => -1
  | i + 1 =>
    if PointInRotatedSquare m px py (sqs.getD i default) then (i : Int)
    else TopSquareAt m px py sqs i

/-! ## Ball spawner -/

/-- `GetRandomValue(min, max)`: the value returned by the call with the given
number, for the requested range. -/
abbrev Rng := Nat → Int → Int → Int

section Floor

variable [FloorRing K]

/-- `AssignBallKinematicsAndColor(b)`, drawing random values number `k`, `k+1`, `k+2`.
`(int)SPEED_MIN = 1`, `(int)SPEED_MAX = 30`. -/
def AssignBallKinematicsAndColor (m : Libm K) (rnd : Rng) (k : Nat) (b : Ball K) : Ball K :=
  let angle := ((rnd k 0 359 : Int) : K) * (PI_F K / 180)
  let speed := ((rnd (k + 1) 1 30 : Int) : K)
  let t01 := ((rnd (k + 2) 0 1000 : Int) : K) / 1000
  let r := BALL_RADIUS_MIN K + t01 * (BALL_RADIUS_MAX K - BALL_RADIUS_MIN K)
  let col := GradientSample GRADIENT_STOPS GRADIENT_COUNT t01
  let vx := m.cosf angle * speed
  let vy := m.sinf angle * speed
  let slow : Prop := |vx| < 1e-3 ∧ |vy| < 1e-3
  { b with r := r, col := col, vx := if slow then speed else vx, vy := if slow then 0 else vy,
           trappedFrames := 0 }

/-- The `maxHull` loop inside a radial attempt of `RespawnBallOutsideAllSquares`. -/
def respawnMaxHull (m : Libm K) (sqs : List (Square K)) (r seedX seedY : K) : K :=
  sqs.foldl (fun maxHull sq =>
    let dx := seedX - sq.x
    let dy := seedY - sq.y
    let d := m.sqrtf (dx * dx + dy * dy)
    let hull := d + sq.half * 1.41421356237 + r + SPAWN_MARGIN K
    if hull > maxHull then hull else maxHull) 0

/-- The loop `for (i = 0; i < n; ++i) PushOutsideSquareHull(&sqs[i], r, &x, &y)`. -/
def pushOutsideAll (m : Libm K) (sqs : List (Square K)) (r : K) (pt : Vector2 K) : Vector2 K :=
  sqs.foldl (fun q sq => PushOutsideSquareHull m sq r q) pt

/-- The body of one radial attempt (first loop of `RespawnBallOutsideAllSquares`),
up to and including the pushes, for the two random values drawn in it. -/
def respawnCandidate (m : Libm K) (sqs : List (Square K)) (sw sh : Int) (r seedX seedY : K)
    (angRaw extraRaw : Int) : Vector2 K :=
  let ang := (angRaw : K) * (PI_F K / 180)
  let maxHull := respawnMaxHull m sqs r seedX seedY
  let extra := (extraRaw : K)
  let radial := (if maxHull > 0 then maxHull else 200) + extra
  let x := seedX + m.cosf ang * radial
  let y := seedY + m.sinf ang * radial
  let x := if x < r then r else x
  let x := if x > (sw : K) - r then (sw : K) - r else x
  let y := if y < r then r else y
  let y := if y > (sh : K) - r then (sh : K) - r else y
  pushOutsideAll m sqs r ⟨x, y⟩

/-- First loop of `RespawnBallOutsideAllSquares`: `tries` attempts remain, the next
random value drawn is number `k`. Returns the accepted point, if any. -/
def respawnRadialSearch (m : Libm K) (rnd : Rng) (sqs : List (Square K)) (sw sh : Int)
    (r seedX seedY : K) : Nat → Nat → Option (Vector2 K)
  | 0, _ => none
  | tries + 1, k =>
    let c := respawnCandidate m sqs sw sh r seedX seedY (rnd k 0 359) (rnd (k + 1) 0 200)
    if !CenterInsideAnySquare m sqs c.x c.y then some c
    else respawnRadialSearch m rnd sqs sw sh r seedX seedY tries (k + 2)

/-- Second loop of `RespawnBallOutsideAllSquares` (uniform rejection sampling);
`(int)BALL_RADIUS_MIN = 1` and `(int)(sw - BALL_RADIUS_MIN) = sw - 1`. -/
def respawnUniformSearch (m : Libm K) (rnd : Rng) (sqs : List (Square K)) (sw sh : Int) :
    Nat → Nat → Option (Vector2 K)
  | 0, _ => none
  | tries + 1, k =>
    let x := ((rnd k 1 (sw - 1) : Int) : K)
    let y := ((rnd (k + 1) 1 (sh - 1) : Int) : K)
    if !CenterInsideAnySquare m sqs x y then some ⟨x, y⟩
    else respawnUniformSearch m rnd sqs sw sh tries (k + 2)

/-- The final fallback of `RespawnBallOutsideAllSquares`. -/
def respawnFallback (m : Libm K) (sqs : List (Square K)) (sw : Int) (r : K) : Vector2 K :=
  pushOutsideAll m sqs r ⟨(sw : K) * 0.5, BALL_RADIUS_MAX K + SPAWN_MARGIN K⟩

/-- `RespawnBallOutsideAllSquares(b, sqs, n, seedX, seedY)` in a window `sw × sh`,
drawing random values from number `k` on. -/
def RespawnBallOutsideAllSquares (m : Libm K) (rnd : Rng) (k : Nat) (b : Ball K)
    (sqs : List (Square K)) (sw sh : Int) (seedX seedY : K) : Ball K :=
  let b := AssignBallKinematicsAndColor m rnd k b
  match respawnRadialSearch m rnd sqs sw sh b.r seedX seedY 256 (k + 3) with
  | some p => { b with x := p.x, y := p.y }
  | none =>
    match respawnUniformSearch m rnd sqs sw sh 2048 (k + 3 + 512) with
    | some p => { b with x := p.x, y := p.y }
    | none =>
      let p := respawnFallback m sqs sw b.r
      { b with x := p.x, y := p.y }

end Floor

/-! ## Touch tracker -/

/-- `FindTouchById(id, &outPos)` over the touch points of the frame: the position of
the first point with that id, if any. -/
def FindTouchById : List (TrackedTouch K) → Int → Option (Vector2 K)
  | [], _ => none
  | t :: ts, id => if t.id = id then some t.pos else FindTouchById ts id

/-- The fill loop of `UpdateTrackedTouches`:
`for (i = 0; i < count && (t0->id == -1 || t1->id == -1); ++i)`. -/
def fillTrackedTouches :
    List (TrackedTouch K) → TrackedTouch K × TrackedTouch K → TrackedTouch K × TrackedTouch K
  | [], s => s
  | t :: ts, (t0, t1) =>
    if t0.id = -1 ∨ t1.id = -1 then
      if t.id = t0.id ∨ t.id = t1.id then fillTrackedTouches ts (t0, t1)
      else if t0.id = -1 then fillTrackedTouches ts (⟨t.id, t.pos⟩, t1)
      else fillTrackedTouches ts (t0, ⟨t.id, t.pos⟩)
    else (t0, t1)

/-- `UpdateTrackedTouches(&t0, &t1)` for the touch points of the frame. -/
def UpdateTrackedTouches (touches : List (TrackedTouch K)) (t0 t1 : TrackedTouch K) :
    TrackedTouch K × TrackedTouch K :=
  let prev0 := t0
  let prev1 := t1
  let t0 : TrackedTouch K := { t0 with id := -1 }
  let t1 : TrackedTouch K := { t1 with id := -1 }
  if (touches.length : Int) ≤ 0 then (t0, t1)
  else
    let t0 : TrackedTouch K :=
      if prev0.id ≠ -1 then
        match FindTouchById touches prev0.id with
        | some pos => ⟨prev0.id, pos⟩
        | none => t0
      else t0
    let s : TrackedTouch K × TrackedTouch K :=
      if prev1.id ≠ -1 then
        match FindTouchById touches prev1.id with
        | some pos => if t0.id = -1 then (⟨prev1.id, pos⟩, t1) else (t0, ⟨prev1.id, pos⟩)
        | none => (t0, t1)
      else (t0, t1)
    fillTrackedTouches touches s

/-! ## Gesture state machine -/

/-- A call of `PlayTapInForSide(side)` or `PlayTapOutForSide(side)`. -/
inductive Tap (K : Type) where
  | tapIn (side : K)
  | tapOut (side : K)

/-- The variables of `main` that live across frames, with two logs of what the
input code of the current frame did: the tap sounds it played and the indices it
used to access `squares[]` and the per-square pinch arrays. -/
structure MainState (K : Type) where
  squares : List (Square K)
  pinchBaseDist : List K
  pinchBaseSide : List K
  pinchBaseAngleDeg : List K
  pinchStartVecDeg : List K
  t0 : TrackedTouch K
  t1 : TrackedTouch K
  prevTouchCount : Int
  dragMouseSquare : Int
  rotateMouseSquare : Int
  dragTouchSquare : Int
  pinchSquare : Int
  pinchActive : Bool
  taps : List (Tap K)
  used : List Int

/-- What raylib reports during one frame. -/
structure Frame (K : Type) where
  touches : List (TrackedTouch K)
  mpos : Vector2 K
  mdelta : Vector2 K
  wheel : K
  leftPressed : Bool
  leftReleased : Bool
  leftDown : Bool
  rightPressed : Bool
  rightReleased : Bool
  rightDown : Bool
  sw : Int
  sh : Int
  dt : K

/-- Reading `squares[i]`. -/
def readSq (sqs : List (Square K)) (i : Int) : Square K :=
  if 0 ≤ i then sqs.getD i.toNat default else default

/-- Updating `squares[i]` in place. -/
def updSq (sqs : List (Square K)) (i : Int) (f : Square K → Square K) : List (Square K) :=
  if 0 ≤ i then sqs.set i.toNat (f (sqs.getD i.toNat default)) else sqs

/-- Reading `arr[i]` of a per-square float array. -/
def readArr (l : List K) (i : Int) : K :=
  if 0 ≤ i then l.getD i.toNat 0 else 0

/-- Writing `arr[i] = v` of a per-square float array. -/
def writeArr (l : List K) (i : Int) (v : K) : List K :=
  if 0 ≤ i then l.set i.toNat v else l

/-- Records that index `i` is used for an array access. -/
def logIdx (s : MainState K) (i : Int) : MainState K :=
  { s with used := s.used ++ [i] }

/-- `PlayTapInForSide(sidePx)` -/
def PlayTapInForSide (s : MainState K) (side : K) : MainState K :=
  { s with taps := s.taps ++ [Tap.tapIn side] }

/-- `PlayTapOutForSide(sidePx)` -/
def PlayTapOutForSide (s : MainState K) (side : K) : MainState K :=
  { s with taps := s.taps ++ [Tap.tapOut side] }

/-- `if (IsMouseButtonPressed(MOUSE_LEFT_BUTTON)) { ... }` -/
def mouseLeftPress (m : Libm K) (s : MainState K) (f : Frame K) : MainState K :=
  if f.leftPressed then
    let d := TopSquareAt m f.mpos.x f.mpos.y s.squares NUM_SQUARES
    let s := { s with dragMouseSquare := d }
    if d ≠ -1 then PlayTapInForSide (logIdx s d) ((readSq s.squares d).half * 2)
    else PlayTapInForSide s (SQUARE_SIZE_DEFAULT K)
  else s

/-- `if (IsMouseButtonReleased(MOUSE_LEFT_BUTTON)) { ... }` -/
def mouseLeftRelease (m : Libm K) (s : MainState K) (f : Frame K) : MainState K :=
  if f.leftReleased then
    let idx := if s.dragMouseSquare ≠ -1 then s.dragMouseSquare
      else TopSquareAt m f.mpos.x f.mpos.y s.squares NUM_SQUARES
    let idx := if idx < 0 then 0 else idx
    { PlayTapOutForSide (logIdx s idx) ((readSq s.squares idx).half * 2) with
      dragMouseSquare := -1 }
  else s

/-- `if (dragMouseSquare != -1 && IsMouseButtonDown(MOUSE_LEFT_BUTTON)) { ... }` -/
def mouseLeftDrag (s : MainState K) (f : Frame K) : MainState K :=
  if s.dragMouseSquare ≠ -1 ∧ f.leftDown = true then
    let d := f.mdelta
    if |d.x| > TOUCH_DELTA_DEADZONE K ∨ |d.y| > TOUCH_DELTA_DEADZONE K then
      { logIdx s s.dragMouseSquare with
        squares := updSq s.squares s.dragMouseSquare
          (fun q => { q with x := q.x + d.x, y := q.y + d.y }) }
    else s
  else s

/-- `if (IsMouseButtonPressed(MOUSE_RIGHT_BUTTON)) { ... }` -/
def mouseRightPress (m : Libm K) (s : MainState K) (f : Frame K) : MainState K :=
  if f.rightPressed then
    let d := TopSquareAt m f.mpos.x f.mpos.y s.squares NUM_SQUARES
    let s := { s with rotateMouseSquare := d }
    if d ≠ -1 then PlayTapInForSide (logIdx s d) ((readSq s.squares d).half * 2)
    else PlayTapInForSide s (SQUARE_SIZE_DEFAULT K)
  else s

/-- `if (IsMouseButtonReleased(MOUSE_RIGHT_BUTTON)) { ... }` -/
def mouseRightRelease (m : Libm K) (s : MainState K) (f : Frame K) : MainState K :=
  if f.rightReleased then
    let idx := if s.rotateMouseSquare ≠ -1 then s.rotateMouseSquare
      else TopSquareAt m f.mpos.x f.mpos.y s.squares NUM_SQUARES
    let idx := if idx < 0 then 0 else idx
    { PlayTapOutForSide (logIdx s idx) ((readSq s.squares idx).half * 2) with
      rotateMouseSquare := -1 }
  else s

/-- `if (rotateMouseSquare != -1 && IsMouseButtonDown(MOUSE_RIGHT_BUTTON)) { ... }` -/
def mouseRightDrag (s : MainState K) (f : Frame K) : MainState K :=
  if s.rotateMouseSquare ≠ -1 ∧ f.rightDown = true then
    let d := f.mdelta
    if |d.x| > TOUCH_DELTA_DEADZONE K then
      { logIdx s s.rotateMouseSquare with
        squares := updSq s.squares s.rotateMouseSquare
          (fun q => { q with angle := q.angle + d.x * 0.35 }) }
    else s
  else s

/-- The clamp `if (side < SQUARE_MIN_SIDE) ...; if (side > SQUARE_MAX_SIDE) ...`. -/
def clampSide (side : K) : K :=
  let side := if side < SQUARE_MIN_SIDE K then SQUARE_MIN_SIDE K else side
  if side > SQUARE_MAX_SIDE K then SQUARE_MAX_SIDE K else side

/-- `float wheel = GetMouseWheelMove(); if (wheel != 0.0f) { ... }` -/
def mouseWheel (m : Libm K) (s : MainState K) (f : Frame K) : MainState K :=
  if f.wheel ≠ 0 then
    let idx := TopSquareAt m f.mpos.x f.mpos.y s.squares NUM_SQUARES
    let idx := if idx < 0 then (NUM_SQUARES : Int) - 1 else idx
    { logIdx s idx with
      squares := updSq s.squares idx
        (fun q => { q with half := clampSide (q.half * 2 + f.wheel * 8) * 0.5 }) }
  else s

/-- The last line of the `touchCount == 0` branch. -/
def resetTouchState (s : MainState K) : MainState K :=
  { s with t0 := { s.t0 with id := -1 }, t1 := { s.t1 with id := -1 }, prevTouchCount := 0,
           pinchActive := false, dragTouchSquare := -1, pinchSquare := -1 }

/-- The `touchCount == 0` branch of the input code. -/
def mouseBranch (m : Libm K) (s : MainState K) (f : Frame K) : MainState K :=
  let s := mouseLeftPress m s f
  let s := mouseLeftRelease m s f
  let s := mouseLeftDrag s f
  let s := mouseRightPress m s f
  let s := mouseRightRelease m s f
  let s := mouseRightDrag s f
  let s := mouseWheel m s f
  resetTouchState s

/-- `while (delta > 180.0f) delta -= 360.0f;`, at most `fuel` iterations. -/
def wrapDown : Nat → K → K
  | 0, delta => delta
  | fuel + 1, delta => if delta > 180 then wrapDown fuel (delta - 360) else delta

/-- `while (delta < -180.0f) delta += 360.0f;`, at most `fuel` iterations. -/
def wrapUp : Nat → K → K
  | 0, delta => delta
  | fuel + 1, delta => if delta < -180 then wrapUp fuel (delta + 360) else delta

/-- `int effectiveCount = (t0.id != -1) + (t1.id != -1);` -/
def effectiveCount (t0 t1 : TrackedTouch K) : Int :=
  (if t0.id ≠ -1 then 1 else 0) + (if t1.id ≠ -1 then 1 else 0)

/-- `if (prevTouchCount == 0) { dragTouchSquare = TopSquareAt(a->pos...); ... }` in the
`effectiveCount == 1` block, `a` being the tracked touch. -/
def touchPress (m : Libm K) (s : MainState K) (a : TrackedTouch K) : MainState K :=
  if s.prevTouchCount = 0 then
    let d := TopSquareAt m a.pos.x a.pos.y s.squares NUM_SQUARES
    let s := { s with dragTouchSquare := d }
    if d ≠ -1 then PlayTapInForSide (logIdx s d) ((readSq s.squares d).half * 2)
    else PlayTapInForSide s (SQUARE_SIZE_DEFAULT K)
  else s

/-- `if (dragTouchSquare != -1) { Vector2 base = ...; ... }` in the
`effectiveCount == 1` block, `a` being the tracked touch. -/
def touchDrag (s : MainState K) (a prev0 prev1 : TrackedTouch K) : MainState K :=
  if s.dragTouchSquare ≠ -1 then
    let base := if a.id = prev0.id then prev0.pos else prev1.pos
    let d : Vector2 K := ⟨a.pos.x - base.x, a.pos.y - base.y⟩
    if |d.x| > TOUCH_DELTA_DEADZONE K ∨ |d.y| > TOUCH_DELTA_DEADZONE K then
      { logIdx s s.dragTouchSquare with
        squares := updSq s.squares s.dragTouchSquare
          (fun q => { q with x := q.x + d.x, y := q.y + d.y }) }
    else s
  else s

/-- The `effectiveCount == 1` block of the touch branch. -/
def touchSingle (m : Libm K) (s : MainState K) (prev0 prev1 : TrackedTouch K) : MainState K :=
  let a := if s.t0.id ≠ -1 then s.t0 else s.t1
  let s := touchPress m s a
  let s := touchDrag s a prev0 prev1
  { s with pinchActive := false, pinchSquare := -1 }

/-- `if (prevTouchCount < 2 && pinchSquare == -1) { ... }` at the head of the
`effectiveCount >= 2` block. -/
def pinchStart (m : Libm K) (s : MainState K) : MainState K :=
  if s.prevTouchCount < 2 ∧ s.pinchSquare = -1 then
    let c : Vector2 K := ⟨(s.t0.pos.x + s.t1.pos.x) * 0.5, (s.t0.pos.y + s.t1.pos.y) * 0.5⟩
    let sIdx := TopSquareAt m c.x c.y s.squares NUM_SQUARES
    let sIdx :=
      if sIdx < 0 then
        let a := TopSquareAt m s.t0.pos.x s.t0.pos.y s.squares NUM_SQUARES
        let b := TopSquareAt m s.t1.pos.x s.t1.pos.y s.squares NUM_SQUARES
        if a ≥ 0 then a else b
      else sIdx
    let s := { s with pinchSquare := sIdx }
    let s :=
      if sIdx ≠ -1 then PlayTapInForSide (logIdx s sIdx) ((readSq s.squares sIdx).half * 2)
      else PlayTapInForSide s (SQUARE_SIZE_DEFAULT K)
    { s with pinchActive := false }
  else s

section Floor

variable [FloorRing K]

/-- The two `while` loops that normalise the pinch angle delta; the fuel given to
each loop is at least the number of iterations it makes. -/
def wrapDelta (delta : K) : K :=
  let d := wrapDown ⌈delta / 360⌉₊ delta
  wrapUp ⌈-d / 360⌉₊ d

/-- The translation by the midpoint delta at the head of the pinch block
(`curC`, `prvC`, `cd`), applied to `squares[pinchSquare]`. -/
def pinchTranslate (s : MainState K) (prev0 prev1 : TrackedTouch K) : MainState K :=
  let curC : Vector2 K := ⟨(s.t0.pos.x + s.t1.pos.x) * 0.5, (s.t0.pos.y + s.t1.pos.y) * 0.5⟩
  let prvC : Vector2 K :=
    if s.t0.id = prev0.id ∧ s.t1.id = prev1.id then
      ⟨(prev0.pos.x + prev1.pos.x) * 0.5, (prev0.pos.y + prev1.pos.y) * 0.5⟩
    else if s.t0.id = prev1.id ∧ s.t1.id = prev0.id then
      ⟨(prev0.pos.x + prev1.pos.x) * 0.5, (prev0.pos.y + prev1.pos.y) * 0.5⟩
    else curC
  let cd : Vector2 K := ⟨curC.x - prvC.x, curC.y - prvC.y⟩
  if |cd.x| > TOUCH_DELTA_DEADZONE K ∨ |cd.y| > TOUCH_DELTA_DEADZONE K then
    { s with
      squares := updSq s.squares s.pinchSquare
        (fun q => { q with x := q.x + cd.x, y := q.y + cd.y }) }
  else s

/-- The branch `if (!havePrevPair || prevTouchCount < 2)` of the pinch block:
(re)seeding the four baselines of `pinchSquare`. -/
def pinchSeed (s : MainState K) (currDist currAngDeg : K) : MainState K :=
  { s with
    pinchBaseDist := writeArr s.pinchBaseDist s.pinchSquare (if currDist > 0 then currDist else 1),
    pinchBaseSide := writeArr s.pinchBaseSide s.pinchSquare
      ((readSq s.squares s.pinchSquare).half * 2),
    pinchBaseAngleDeg := writeArr s.pinchBaseAngleDeg s.pinchSquare
      (readSq s.squares s.pinchSquare).angle,
    pinchStartVecDeg := writeArr s.pinchStartVecDeg s.pinchSquare currAngDeg,
    pinchActive := true }

/-- The `// Scale` step of the branch `else if (pinchActive)` of the pinch block. -/
def pinchScale (s : MainState K) (currDist : K) : MainState K :=
  if currDist > 0 ∧ readArr s.pinchBaseDist s.pinchSquare > 0 then
    { s with
      squares := updSq s.squares s.pinchSquare (fun q => { q with
        half := clampSide (readArr s.pinchBaseSide s.pinchSquare
                  * (currDist / readArr s.pinchBaseDist s.pinchSquare)) * 0.5 }) }
  else s

/-- The `// Rotation by absolute delta from initial pinch vector` step of the branch
`else if (pinchActive)` of the pinch block. -/
def pinchRotate (s : MainState K) (currAngDeg : K) : MainState K :=
  let delta := wrapDelta (currAngDeg - readArr s.pinchStartVecDeg s.pinchSquare)
  { s with
    squares := updSq s.squares s.pinchSquare
      (fun q => { q with angle := readArr s.pinchBaseAngleDeg s.pinchSquare + delta }) }

/-- `if (pinchSquare != -1) { Square *sq = &squares[pinchSquare]; ... }` -/
def pinchUpdate (m : Libm K) (s : MainState K) (prev0 prev1 : TrackedTouch K) : MainState K :=
  if s.pinchSquare ≠ -1 then
    let s := pinchTranslate (logIdx s s.pinchSquare) prev0 prev1
    let vCurr : Vector2 K := ⟨s.t1.pos.x - s.t0.pos.x, s.t1.pos.y - s.t0.pos.y⟩
    let currDist := m.sqrtf (vCurr.x * vCurr.x + vCurr.y * vCurr.y)
    let currAngDeg := m.atan2f vCurr.y vCurr.x * 57.2957795
    let havePrevPair : Prop :=
      (s.t0.id = prev0.id ∧ s.t1.id = prev1.id) ∨ (s.t0.id = prev1.id ∧ s.t1.id = prev0.id)
    if ¬ havePrevPair ∨ s.prevTouchCount < 2 then pinchSeed s currDist currAngDeg
    else if s.pinchActive = true then pinchRotate (pinchScale s currDist) currAngDeg
    else s
  else s

/-- `if (effectiveCount == 0 && prevTouchCount > 0) { ... }` body: the touch tap-out. -/
def touchRelease (s : MainState K) : MainState K :=
  let idx : Int :=
    if s.dragTouchSquare ≠ -1 then s.dragTouchSquare
    else if s.pinchSquare ≠ -1 then s.pinchSquare
    else -1
  let idx := if idx < 0 then 0 else idx
  PlayTapOutForSide (logIdx s idx) ((readSq s.squares idx).half * 2)

/-- `if (prevTouchCount >= 2 && effectiveCount == 1) { pinchActive = 0; pinchSquare = -1; ... }`
(the two position self-assignments in it have no effect). -/
def touchCancelPinch (s : MainState K) (ec : Int) : MainState K :=
  if s.prevTouchCount ≥ 2 ∧ ec = 1 then { s with pinchActive := false, pinchSquare := -1 }
  else s

/-- `if (prevTouchCount == 0 && effectiveCount >= 1) { if (t.id != -1) prev = t; }` for one
of the two slots: the value of `prev` after it. -/
def touchRebase (s : MainState K) (ec : Int) (t prev : TrackedTouch K) : TrackedTouch K :=
  if s.prevTouchCount = 0 ∧ ec ≥ 1 ∧ t.id ≠ -1 then t else prev

/-- `if (effectiveCount == 1) { ... } else if (effectiveCount >= 2) { ... }` -/
def touchGesture (m : Libm K) (s : MainState K) (ec : Int) (prev0 prev1 : TrackedTouch K) :
    MainState K :=
  if ec = 1 then touchSingle m s prev0 prev1
  else if ec ≥ 2 then pinchUpdate m (pinchStart m s) prev0 prev1
  else s

/-- `if (effectiveCount == 0 && prevTouchCount > 0) { ... }` -/
def touchTapOut (s : MainState K) (ec : Int) : MainState K :=
  if ec = 0 ∧ s.prevTouchCount > 0 then touchRelease s else s

/-- The `else` branch of `if (touchCount == 0)`: the touch input code. -/
def touchBranch (m : Libm K) (s : MainState K) (f : Frame K) : MainState K :=
  let prev0 := s.t0
  let prev1 := s.t1
  let tt := UpdateTrackedTouches f.touches s.t0 s.t1
  let s : MainState K := { s with t0 := tt.1, t1 := tt.2 }
  let ec := effectiveCount s.t0 s.t1
  let s := touchCancelPinch s ec
  let prev0 := touchRebase s ec s.t0 prev0
  let prev1 := touchRebase s ec s.t1 prev1
  let s := touchGesture m s ec prev0 prev1
  let s := touchTapOut s ec
  { s with prevTouchCount := ec }

/-- The input code of one frame (`// ---------- INPUT ----------`), with the two
logs started afresh. -/
def inputStep (m : Libm K) (s : MainState K) (f : Frame K) : MainState K :=
  let s := { s with taps := [], used := [] }
  if (f.touches.length : Int) = 0 then mouseBranch m s f else touchBranch m s f

/-- One iteration of the loop `// Clamp squares inside window`. -/
def clampSquare (q : Square K) (sw sh : Int) : Square K :=
  let x := if q.x < q.half then q.half else q.x
  let y := if q.y < q.half then q.half else q.y
  let x := if x > (sw : K) - q.half then (sw : K) - q.half else x
  let y := if y > (sh : K) - q.half then (sh : K) - q.half else y
  { q with x := x, y := y }

/-- The loop `// Clamp squares inside window` over all squares. -/
def ClampSquares (sqs : List (Square K)) (sw sh : Int) : List (Square K) :=
  sqs.map (fun q => clampSquare q sw sh)

/-- Input code followed by the clamp: what one frame does to the variables of `main`
other than the balls. -/
def frameStep (m : Libm K) (s : MainState K) (f : Frame K) : MainState K :=
  let s := inputStep m s f
  { s with squares := ClampSquares s.squares f.sw f.sh }

/-- The frames of a run, applied in order. -/
def runFrames (m : Libm K) (s : MainState K) (fs : List (Frame K)) : MainState K :=
  fs.foldl (frameStep m) s

end Floor

/-- The variables of `main` when the frame loop is entered, for the window size
`swInit × shInit` read at start-up. -/
def initState (K : Type) [LinearOrderedField K] (swInit shInit : Int) : MainState K :=
  let half : K := SQUARE_SIZE_DEFAULT K * 0.5
  { squares := [⟨(swInit : K) * 0.35, (shInit : K) * 0.5, half, 0⟩,
                ⟨(swInit : K) * 0.65, (shInit : K) * 0.5, half, 0⟩,
                ⟨(swInit : K) * 0.5, (shInit : K) * 0.5, half, 0⟩],
    pinchBaseDist := [0, 0, 0],
    pinchBaseSide := [half * 2, half * 2, half * 2],
    pinchBaseAngleDeg := [0, 0, 0],
    pinchStartVecDeg := [0, 0, 0],
    t0 := ⟨-1, ⟨0, 0⟩⟩,
    t1 := ⟨-1, ⟨0, 0⟩⟩,
    prevTouchCount := 0,
    dragMouseSquare := -1,
    rotateMouseSquare := -1,
    dragTouchSquare := -1,
    pinchSquare := -1,
    pinchActive := false,
    taps := [],
    used := [] }

/-! ## Simulation -/

section Floor

variable [FloorRing K]

/-- The number of sub-steps computed at the head of the per-ball loop. -/
def substepCount (m : Libm K) (b : Ball K) (dt : K) : Int :=
  let spd := m.hypotf b.vx b.vy
  let steps : Int := if spd > 0 then 1 + truncInt ((spd * dt) / max (b.r * 2) 2) else 1
  let steps := if steps > MAX_SUBSTEPS then MAX_SUBSTEPS else steps
  if steps < 1 then 1 else steps

/-- The four window-edge tests of a sub-step. -/
def bounceWindow (b : Ball K) (sw sh : Int) : Ball K :=
  let b := if b.x - b.r < 0 then { b with x := b.r, vx := -b.vx } else b
  let b := if b.x + b.r > (sw : K) then { b with x := (sw : K) - b.r, vx := -b.vx } else b
  let b := if b.y - b.r < 0 then { b with y := b.r, vy := -b.vy } else b
  if b.y + b.r > (sh : K) then { b with y := (sh : K) - b.r, vy := -b.vy } else b

/-- The loop over the squares of a sub-step: broad-phase test, then the resolver. -/
def collideSquares (m : Libm K) (sqs : List (Square K)) (b : Ball K) : Ball K :=
  sqs.foldl (fun b sq =>
    let halfDiag := sq.half * 1.41421356237
    let dx := b.x - sq.x
    let dy := b.y - sq.y
    let maxR := halfDiag + b.r
    if dx * dx + dy * dy ≤ maxR * maxR then
      let pv := ResolveCircleVsSquare m sq b.r ⟨b.x, b.y⟩ ⟨b.vx, b.vy⟩
      { b with x := pv.1.x, y := pv.1.y, vx := pv.2.x, vy := pv.2.y }
    else b) b

/-- One integration sub-step of a ball. -/
def simSubstep (m : Libm K) (sqs : List (Square K)) (sw sh : Int) (sdt : K) (b : Ball K) :
    Ball K :=
  let b := { b with x := b.x + b.vx * sdt, y := b.y + b.vy * sdt }
  collideSquares m sqs (bounceWindow b sw sh)

/-- The loop `for (int s = 0; s < steps; ++s)`. -/
def simSubsteps (m : Libm K) (sqs : List (Square K)) (sw sh : Int) (sdt : K) :
    Nat → Ball K → Ball K
  | 0, b => b
  | n + 1, b => simSubsteps m sqs sw sh sdt n (simSubstep m sqs sw sh sdt b)

/-- The ball after the sub-steps of one frame, before the trapped test. -/
def advanceBall (m : Libm K) (sqs : List (Square K)) (sw sh : Int) (dt : K) (b : Ball K) :
    Ball K :=
  let steps := substepCount m b dt
  let sdt := dt / (steps : K)
  simSubsteps m sqs sw sh sdt steps.toNat b

/-- One iteration of the per-ball loop of `// ---------- Simulation ----------`;
a respawn draws its random values from number `k` on. -/
def SimulateBall (m : Libm K) (rnd : Rng) (k : Nat) (sqs : List (Square K)) (sw sh : Int)
    (dt : K) (b : Ball K) : Ball K :=
  let b := advanceBall m sqs sw sh dt b
  if CenterInsideAnySquare m sqs b.x b.y then
    RespawnBallOutsideAllSquares m rnd k b sqs sw sh ((sw : K) * 0.5) ((sh : K) * 0.5)
  else { b with trappedFrames := 0 }

end Floor

/-! ## Example inputs used in closed statements -/

/-- A frame in a 1024 × 600 window in which raylib reports no touch point, no mouse
button event, no mouse movement and no wheel movement. -/
def idleFrame (K : Type) [LinearOrderedField K] : Frame K :=
  { touches := [], mpos := ⟨0, 0⟩, mdelta := ⟨0, 0⟩, wheel := 0,
    leftPressed := false, leftReleased := false, leftDown := false,
    rightPressed := false, rightReleased := false, rightDown := false,
    sw := 1024, sh := 600, dt := 0 }

/-- A frame whose only input is the given list of touch points. -/
def touchFrame (K : Type) [LinearOrderedField K] (touches : List (TrackedTouch K)) : Frame K :=
  { idleFrame K with touches := touches }

/-- A frame without touch points whose input is the mouse position, the mouse delta
and the state of the two buttons (pressed this frame, held down). -/
def mouseFrame (K : Type) [LinearOrderedField K] (mpos mdelta : Vector2 K)
    (leftPressed leftDown rightPressed rightDown : Bool) : Frame K :=
  { idleFrame K with mpos := mpos, mdelta := mdelta, leftPressed := leftPressed,
                     leftDown := leftDown, rightPressed := rightPressed,
                     rightDown := rightDown }

/-- A random source chosen against `RespawnBallOutsideAllSquares` called with `k = 0`:
call 2 (the radius draw) returns the maximum, the other calls up to number 514 (ball
kinematics and the 256 radial attempts) return the minimum, and the calls of the
uniform search return 740 for x and 183 for y, clamped into the requested range. -/
def adversarialRng : Rng := fun k lo hi =>
  if k = 2 then hi
  else if k < 515 then lo
  else if k % 2 = 1 then max lo (min hi 740)
  else max lo (min hi 183)

/-- Three squares in a 1024 × 600 window, each clamped inside the window, of combined
area 85024 (the window has 614400). -/
def trapLayout (K : Type) [LinearOrderedField K] : List (Square K) :=
  [⟨740, 183, 120, 0⟩, ⟨500, 66, 66, 0⟩, ⟨970, 300, 50, 0⟩]

/-- The state in the middle of a pinch on square 2 in a 1024 × 600 window: the
fingers with ids 3 and 7 are tracked 100 px apart on the horizontal through the
square's centre, and the baselines captured for the square are distance 100,
side 80, angle 0 and vector angle 0. -/
def pinchExample (K : Type) [LinearOrderedField K] : MainState K :=
  { initState K 1024 600 with
    t0 := ⟨3, ⟨462, 300⟩⟩,
    t1 := ⟨7, ⟨562, 300⟩⟩,
    prevTouchCount := 2,
    pinchSquare := 2,
    pinchActive := true,
    pinchBaseDist := [0, 0, 100] }

/-! ## Size to pitch -/

/-- `FREQ_MIN = 320.0f` (Hz when the square is largest) -/
def FREQ_MIN (K : Type) [LinearOrderedField K] : K := 320

/-- `FREQ_MAX = 1600.0f` (Hz when the square is smallest) -/
def FREQ_MAX (K : Type) [LinearOrderedField K] : K := 1600

/-- `SizeToFreq(sidePx)` -/
def SizeToFreq (sidePx : K) : K :=
  let sidePx := if sidePx < SQUARE_MIN_SIDE K then SQUARE_MIN_SIDE K else sidePx
  let sidePx := if sidePx > SQUARE_MAX_SIDE K then SQUARE_MAX_SIDE K else sidePx
  let t := (sidePx - SQUARE_MIN_SIDE K) / (SQUARE_MAX_SIDE K - SQUARE_MIN_SIDE K)
  FREQ_MAX K + (FREQ_MIN K - FREQ_MAX K) * t

/-- Whether a logged call is a call of `PlayTapInForSide`. -/
def isTapIn : Tap K → Bool
  | Tap.tapIn _ => true
  | Tap.tapOut _ => false

/-- The index invariant of the input code: each of the four gesture targets is -1 or
an index of `squares[]`, and every index logged as used for an array access is an
index of `squares[]`. -/
def IndexSafe (s : MainState K) : Prop :=
  (-1 ≤ s.dragMouseSquare ∧ s.dragMouseSquare < (NUM_SQUARES : Int)) ∧
  (-1 ≤ s.rotateMouseSquare ∧ s.rotateMouseSquare < (NUM_SQUARES : Int)) ∧
  (-1 ≤ s.dragTouchSquare ∧ s.dragTouchSquare < (NUM_SQUARES : Int)) ∧
  (-1 ≤ s.pinchSquare ∧ s.pinchSquare < (NUM_SQUARES : Int)) ∧
  ∀ i ∈ s.used, 0 ≤ i ∧ i < (NUM_SQUARES : Int)

/-- The state in a 1024 × 600 window after square 1 was shrunk to side 72 by one
wheel step and then dragged by one finger (id 0) from (665.6, 300) to (512, 300),
where it lies under square 2: the finger is still down and targets square 1. -/
def dragUnderTopExample (K : Type) [LinearOrderedField K] : MainState K :=
  { initState K 1024 600 with
    squares := [⟨358.4, 300, 40, 0⟩, ⟨512, 300, 36, 0⟩, ⟨512, 300, 40, 0⟩],
    t0 := ⟨0, ⟨512, 300⟩⟩,
    prevTouchCount := 1,
    dragTouchSquare := 1,
    used := [1] }

end Defs

/-! ## Theorems -/

section Theorems

set_option linter.unusedSectionVars false

variable {K : Type} [LinearOrderedField K]

/-! ### Geometry lemmas -/

theorem dot_Reflect_of_unit (v n : Vector2 K) (hn : dot n n = 1) :
    dot (Reflect v n) n = - dot v n := by
  simp only [dot, Reflect] at *
  linear_combination (-2 * (v.x * n.x + v.y * n.y)) * hn

theorem dot_RotateCS_self (n : Vector2 K) (c s : K) (hcs : c * c + s * s = 1) :
    dot (RotateCS n c s) (RotateCS n c s) = dot n n := by
  simp only [dot, RotateCS]
  linear_combination (n.x * n.x + n.y * n.y) * hcs

theorem dot_InvRotateCS_left (a b : Vector2 K) (c s : K) :
    dot (InvRotateCS a c s) b = dot a (RotateCS b c s) := by
  simp only [dot, InvRotateCS, RotateCS]
  ring

theorem InvRotateCS_RotateCS (v : Vector2 K) (c s : K) (hcs : c * c + s * s = 1) :
    InvRotateCS (RotateCS v c s) c s = v := by
  cases v with
  | mk vx vy =>
    simp only [InvRotateCS, RotateCS, Vector2.mk.injEq]
    constructor
    · linear_combination vx * hcs
    · linear_combination vy * hcs

theorem sum_sq_eq_zero_of_not_pos (a b : K) (h : ¬ (a * a + b * b > 0)) :
    a * a + b * b = 0 :=
  le_antisymm (not_lt.mp h) (add_nonneg (mul_self_nonneg a) (mul_self_nonneg b))

/-! ### The contact computed by the resolver -/

theorem contact_dist_nonneg (m : Libm K) (hm : m.Exact) (sq : Square K) (radius : K)
    (p v : Vector2 K) : 0 ≤ (ResolveContact m sq radius p v).dist := by
  simp only [ResolveContact]
  split_ifs
  · exact hm.sqrt_nonneg _
  · exact le_refl _

theorem contact_dist_mul_self (m : Libm K) (hm : m.Exact) (sq : Square K) (radius : K)
    (p v : Vector2 K) :
    (ResolveContact m sq radius p v).dist * (ResolveContact m sq radius p v).dist
      = (ResolveContact m sq radius p v).dist2 := by
  simp only [ResolveContact]
  split_ifs with h
  · exact hm.sqrt_mul_self _ (le_of_lt h)
  · rw [sum_sq_eq_zero_of_not_pos _ _ h, mul_zero]

theorem unit_of_div (dx dy d : K) (hd : d * d = dx * dx + dy * dy) (hpos : 0 < d) :
    dx / d * (dx / d) + dy / d * (dy / d) = 1 := by
  have hne : d ≠ 0 := ne_of_gt hpos
  field_simp
  linear_combination -hd

theorem localNormal_unit (m : Libm K) (hm : m.Exact) (dx dy : K) (vL : Vector2 K) :
    dot
      (if (if dx * dx + dy * dy > 0 then m.sqrtf (dx * dx + dy * dy) else 0) > 1e-6 then
          (⟨dx / (if dx * dx + dy * dy > 0 then m.sqrtf (dx * dx + dy * dy) else 0),
            dy / (if dx * dx + dy * dy > 0 then m.sqrtf (dx * dx + dy * dy) else 0)⟩ : Vector2 K)
        else if |vL.x| > |vL.y| then ⟨if vL.x > 0 then 1 else -1, 0⟩
        else ⟨0, if vL.y > 0 then 1 else -1⟩)
      (if (if dx * dx + dy * dy > 0 then m.sqrtf (dx * dx + dy * dy) else 0) > 1e-6 then
          (⟨dx / (if dx * dx + dy * dy > 0 then m.sqrtf (dx * dx + dy * dy) else 0),
            dy / (if dx * dx + dy * dy > 0 then m.sqrtf (dx * dx + dy * dy) else 0)⟩ : Vector2 K)
        else if |vL.x| > |vL.y| then ⟨if vL.x > 0 then 1 else -1, 0⟩
        else ⟨0, if vL.y > 0 then 1 else -1⟩) = 1 := by
  by_cases h1 : dx * dx + dy * dy > 0
  · simp only [h1, if_true]
    by_cases h2 : m.sqrtf (dx * dx + dy * dy) > 1e-6
    · simp only [h2, if_true, dot]
      exact unit_of_div _ _ _ (hm.sqrt_mul_self _ (le_of_lt h1)) (lt_trans (by norm_num) h2)
    · simp only [h2, if_false]
      split_ifs <;> simp [dot]
  · have h0 : ¬ ((0 : K) > 1e-6) := by norm_num
    simp only [h1, if_false, h0]
    split_ifs <;> simp [dot]

theorem contact_nL_unit (m : Libm K) (hm : m.Exact) (sq : Square K) (radius : K)
    (p v : Vector2 K) :
    dot (ResolveContact m sq radius p v).nL (ResolveContact m sq radius p v).nL = 1 :=
  localNormal_unit m hm _ _ _

theorem contact_nW_unit (m : Libm K) (hm : m.Exact) (sq : Square K) (radius : K)
    (p v : Vector2 K) :
    dot (ResolveContact m sq radius p v).nW (ResolveContact m sq radius p v).nW = 1 := by
  have h := contact_nL_unit m hm sq radius p v
  have e : (ResolveContact m sq radius p v).nW
      = RotateCS (ResolveContact m sq radius p v).nL
          (m.cosf (sq.angle * (PI_F K / 180))) (m.sinf (sq.angle * (PI_F K / 180))) := rfl
  rw [e, dot_RotateCS_self _ _ _ (hm.cos_sq_add_sin_sq _), h]


theorem closest_in_box (p : Vector2 K) (h : K) (hh : 0 ≤ h) :
    |(ClosestPointOnSquare p h).x| ≤ h ∧ |(ClosestPointOnSquare p h).y| ≤ h := by
  simp only [ClosestPointOnSquare]
  constructor <;> split_ifs <;> rw [abs_le] <;> constructor <;> linarith

theorem closest_cone (p y : Vector2 K) (h : K) (hyx : |y.x| ≤ h) (hyy : |y.y| ≤ h) :
    0 ≤ ((ClosestPointOnSquare p h).x - y.x) * (p.x - (ClosestPointOnSquare p h).x) ∧
    0 ≤ ((ClosestPointOnSquare p h).y - y.y) * (p.y - (ClosestPointOnSquare p h).y) := by
  rw [abs_le] at hyx hyy
  simp only [ClosestPointOnSquare]
  constructor <;> split_ifs with h1 h2
  · exact mul_nonneg_of_nonpos_of_nonpos (by linarith) (by linarith)
  · exact mul_nonneg (by linarith) (by linarith)
  · simp
  · exact mul_nonneg_of_nonpos_of_nonpos (by linarith) (by linarith)
  · exact mul_nonneg (by linarith) (by linarith)
  · simp

theorem le_of_dot_le (e n : Vector2 K) (T D : K) (hn : dot n n = 1) (hT : T ≤ dot e n)
    (hD0 : 0 ≤ D) (hD : D * D = dot e e) : T ≤ D := by
  by_contra hlt
  push_neg at hlt
  simp only [dot] at hn hT hD
  have hcs : (e.x * n.x + e.y * n.y) * (e.x * n.x + e.y * n.y) ≤ D * D := by
    have h2 : 0 ≤ (e.x * n.y - e.y * n.x) * (e.x * n.y - e.y * n.x) := mul_self_nonneg _
    have h3 : (e.x * n.x + e.y * n.y) * (e.x * n.x + e.y * n.y)
        + (e.x * n.y - e.y * n.x) * (e.x * n.y - e.y * n.x)
        = (e.x * e.x + e.y * e.y) * (n.x * n.x + n.y * n.y) := by ring
    rw [hn, mul_one, ← hD] at h3
    linarith
  have hlt2 : D < e.x * n.x + e.y * n.y := lt_of_lt_of_le hlt hT
  have := mul_self_lt_mul_self hD0 hlt2
  linarith

/-- Core of the separation bound, in the square's local frame. -/
theorem separation_local (h : K) (hh : 0 ≤ h) (pL n w : Vector2 K) (dist pen D : K)
    (hn : dot n n = 1) (hdist : 0 < dist)
    (hdx : n.x * dist = pL.x - (ClosestPointOnSquare pL h).x)
    (hdy : n.y * dist = pL.y - (ClosestPointOnSquare pL h).y)
    (hD0 : 0 ≤ D)
    (hD : D * D =
      ((pL.x + n.x * pen + w.x)
          - (ClosestPointOnSquare ⟨pL.x + n.x * pen + w.x, pL.y + n.y * pen + w.y⟩ h).x)
        * ((pL.x + n.x * pen + w.x)
          - (ClosestPointOnSquare ⟨pL.x + n.x * pen + w.x, pL.y + n.y * pen + w.y⟩ h).x)
      + ((pL.y + n.y * pen + w.y)
          - (ClosestPointOnSquare ⟨pL.x + n.x * pen + w.x, pL.y + n.y * pen + w.y⟩ h).y)
        * ((pL.y + n.y * pen + w.y)
          - (ClosestPointOnSquare ⟨pL.x + n.x * pen + w.x, pL.y + n.y * pen + w.y⟩ h).y)) :
    dist + pen + dot w n ≤ D := by
  obtain ⟨hbx, hby⟩ :=
    closest_in_box ⟨pL.x + n.x * pen + w.x, pL.y + n.y * pen + w.y⟩ h hh
  obtain ⟨hcx, hcy⟩ := closest_cone pL
    (ClosestPointOnSquare ⟨pL.x + n.x * pen + w.x, pL.y + n.y * pen + w.y⟩ h) h hbx hby
  generalize ClosestPointOnSquare ⟨pL.x + n.x * pen + w.x, pL.y + n.y * pen + w.y⟩ h = q'
    at hD hcx hcy
  generalize ClosestPointOnSquare pL h = q at hdx hdy hcx hcy
  refine le_of_dot_le ⟨pL.x + n.x * pen + w.x - q'.x, pL.y + n.y * pen + w.y - q'.y⟩ n _ D hn
    ?_ hD0 (by simpa only [dot] using hD)
  simp only [dot] at hn ⊢
  rw [← hdx] at hcx
  rw [← hdy] at hcy
  have h1 : 0 ≤ (q.x - q'.x) * n.x := by
    have : (q.x - q'.x) * (n.x * dist) = ((q.x - q'.x) * n.x) * dist := by ring
    rw [this] at hcx
    exact nonneg_of_mul_nonneg_left hcx hdist
  have h2 : 0 ≤ (q.y - q'.y) * n.y := by
    have : (q.y - q'.y) * (n.y * dist) = ((q.y - q'.y) * n.y) * dist := by ring
    rw [this] at hcy
    exact nonneg_of_mul_nonneg_left hcy hdist
  have e1 : pL.x = n.x * dist + q.x := by linarith
  have e2 : pL.y = n.y * dist + q.y := by linarith
  rw [e1, e2]
  have key : (n.x * dist + q.x + n.x * pen + w.x - q'.x) * n.x
      + (n.y * dist + q.y + n.y * pen + w.y - q'.y) * n.y
      = (dist + pen) * (n.x * n.x + n.y * n.y) + (w.x * n.x + w.y * n.y)
        + ((q.x - q'.x) * n.x + (q.y - q'.y) * n.y) := by ring
  rw [key, hn]
  linarith


theorem contact_dist2_nonneg (m : Libm K) (sq : Square K) (radius : K) (p v : Vector2 K) :
    0 ≤ (ResolveContact m sq radius p v).dist2 :=
  add_nonneg (mul_self_nonneg _) (mul_self_nonneg _)

theorem contact_penetration_ge (m : Libm K) (sq : Square K) (radius : K) (p v : Vector2 K) :
    radius - (ResolveContact m sq radius p v).dist + SEP_BIAS K
      ≤ (ResolveContact m sq radius p v).penetration := by
  have e : (ResolveContact m sq radius p v).penetration
      = if radius - (ResolveContact m sq radius p v).dist + SEP_BIAS K < 0 then 0
        else radius - (ResolveContact m sq radius p v).dist + SEP_BIAS K := rfl
  rw [e]
  split_ifs with h
  · exact le_of_lt h
  · exact le_refl _

theorem contact_nL_mul_dist (m : Libm K) (sq : Square K) (radius : K) (p v : Vector2 K)
    (hfar : (ResolveContact m sq radius p v).dist > 1e-6) :
    (ResolveContact m sq radius p v).nL.x * (ResolveContact m sq radius p v).dist
      = (InvRotateCS ⟨p.x - sq.x, p.y - sq.y⟩ (m.cosf (sq.angle * (PI_F K / 180)))
            (m.sinf (sq.angle * (PI_F K / 180)))).x
        - (ClosestPointOnSquare (InvRotateCS ⟨p.x - sq.x, p.y - sq.y⟩
            (m.cosf (sq.angle * (PI_F K / 180))) (m.sinf (sq.angle * (PI_F K / 180)))) sq.half).x
    ∧ (ResolveContact m sq radius p v).nL.y * (ResolveContact m sq radius p v).dist
      = (InvRotateCS ⟨p.x - sq.x, p.y - sq.y⟩ (m.cosf (sq.angle * (PI_F K / 180)))
            (m.sinf (sq.angle * (PI_F K / 180)))).y
        - (ClosestPointOnSquare (InvRotateCS ⟨p.x - sq.x, p.y - sq.y⟩
            (m.cosf (sq.angle * (PI_F K / 180))) (m.sinf (sq.angle * (PI_F K / 180)))) sq.half).y := by
  have hpos : (0 : K) < (ResolveContact m sq radius p v).dist := lt_trans (by norm_num) hfar
  have hne := ne_of_gt hpos
  have e : (ResolveContact m sq radius p v).nL
      = ⟨((InvRotateCS ⟨p.x - sq.x, p.y - sq.y⟩ (m.cosf (sq.angle * (PI_F K / 180)))
            (m.sinf (sq.angle * (PI_F K / 180)))).x
          - (ClosestPointOnSquare (InvRotateCS ⟨p.x - sq.x, p.y - sq.y⟩
            (m.cosf (sq.angle * (PI_F K / 180))) (m.sinf (sq.angle * (PI_F K / 180)))) sq.half).x)
            / (ResolveContact m sq radius p v).dist,
         ((InvRotateCS ⟨p.x - sq.x, p.y - sq.y⟩ (m.cosf (sq.angle * (PI_F K / 180)))
            (m.sinf (sq.angle * (PI_F K / 180)))).y
          - (ClosestPointOnSquare (InvRotateCS ⟨p.x - sq.x, p.y - sq.y⟩
            (m.cosf (sq.angle * (PI_F K / 180))) (m.sinf (sq.angle * (PI_F K / 180)))) sq.half).y)
            / (ResolveContact m sq radius p v).dist⟩ := by
    simp only [ResolveContact] at hfar ⊢
    rw [if_pos hfar]
  rw [e]
  exact ⟨div_mul_cancel₀ _ hne, div_mul_cancel₀ _ hne⟩

theorem resolve_hit (m : Libm K) (sq : Square K) (radius : K) (p v : Vector2 K)
    (hpen : (ResolveContact m sq radius p v).dist2 ≤ radius * radius) :
    ResolveCircleVsSquare m sq radius p v
      = (⟨p.x + (ResolveContact m sq radius p v).nW.x * (ResolveContact m sq radius p v).penetration
            + (Reflect v (ResolveContact m sq radius p v).nW).x * (1 / 8000),
          p.y + (ResolveContact m sq radius p v).nW.y * (ResolveContact m sq radius p v).penetration
            + (Reflect v (ResolveContact m sq radius p v).nW).y * (1 / 8000)⟩,
         Reflect v (ResolveContact m sq radius p v).nW) := by
  simp only [ResolveCircleVsSquare]
  rw [if_pos hpen]

theorem resolve_miss (m : Libm K) (sq : Square K) (radius : K) (p v : Vector2 K)
    (hpen : ¬ (ResolveContact m sq radius p v).dist2 ≤ radius * radius) :
    ResolveCircleVsSquare m sq radius p v = (p, v) := by
  simp only [ResolveCircleVsSquare]
  rw [if_neg hpen]

theorem resolve_normal_component (m : Libm K) (hm : m.Exact) (sq : Square K) (radius : K)
    (p v : Vector2 K)
    (hpen : (ResolveContact m sq radius p v).dist2 ≤ radius * radius) :
    dot (ResolveCircleVsSquare m sq radius p v).2 (ResolveContact m sq radius p v).nW
      = - dot v (ResolveContact m sq radius p v).nW := by
  rw [resolve_hit m sq radius p v hpen]
  exact dot_Reflect_of_unit _ _ (contact_nW_unit m hm sq radius p v)

theorem local_of_moved (c s : K) (hcs : c * c + s * s = 1) (p n vr : Vector2 K)
    (pen sx sy : K) :
    InvRotateCS ⟨p.x + (RotateCS n c s).x * pen + vr.x * (1 / 8000) - sx,
        p.y + (RotateCS n c s).y * pen + vr.y * (1 / 8000) - sy⟩ c s
      = ⟨(InvRotateCS ⟨p.x - sx, p.y - sy⟩ c s).x + n.x * pen
            + (InvRotateCS vr c s).x * (1 / 8000),
         (InvRotateCS ⟨p.x - sx, p.y - sy⟩ c s).y + n.y * pen
            + (InvRotateCS vr c s).y * (1 / 8000)⟩ := by
  simp only [InvRotateCS, RotateCS, Vector2.mk.injEq]
  constructor
  · linear_combination (n.x * pen) * hcs
  · linear_combination (n.y * pen) * hcs

theorem contact_dist2_eq (m : Libm K) (sq : Square K) (radius : K) (p v : Vector2 K) :
    (ResolveContact m sq radius p v).dist2
      = ((InvRotateCS ⟨p.x - sq.x, p.y - sq.y⟩ (m.cosf (sq.angle * (PI_F K / 180)))
            (m.sinf (sq.angle * (PI_F K / 180)))).x
          - (ClosestPointOnSquare (InvRotateCS ⟨p.x - sq.x, p.y - sq.y⟩
            (m.cosf (sq.angle * (PI_F K / 180))) (m.sinf (sq.angle * (PI_F K / 180)))) sq.half).x)
        * ((InvRotateCS ⟨p.x - sq.x, p.y - sq.y⟩ (m.cosf (sq.angle * (PI_F K / 180)))
            (m.sinf (sq.angle * (PI_F K / 180)))).x
          - (ClosestPointOnSquare (InvRotateCS ⟨p.x - sq.x, p.y - sq.y⟩
            (m.cosf (sq.angle * (PI_F K / 180))) (m.sinf (sq.angle * (PI_F K / 180)))) sq.half).x)
      + ((InvRotateCS ⟨p.x - sq.x, p.y - sq.y⟩ (m.cosf (sq.angle * (PI_F K / 180)))
            (m.sinf (sq.angle * (PI_F K / 180)))).y
          - (ClosestPointOnSquare (InvRotateCS ⟨p.x - sq.x, p.y - sq.y⟩
            (m.cosf (sq.angle * (PI_F K / 180))) (m.sinf (sq.angle * (PI_F K / 180)))) sq.half).y)
        * ((InvRotateCS ⟨p.x - sq.x, p.y - sq.y⟩ (m.cosf (sq.angle * (PI_F K / 180)))
            (m.sinf (sq.angle * (PI_F K / 180)))).y
          - (ClosestPointOnSquare (InvRotateCS ⟨p.x - sq.x, p.y - sq.y⟩
            (m.cosf (sq.angle * (PI_F K / 180))) (m.sinf (sq.angle * (PI_F K / 180)))) sq.half).y) :=
  rfl

theorem resolve_separation (m : Libm K) (hm : m.Exact) (sq : Square K) (radius : K)
    (p v : Vector2 K) (hh : 0 ≤ sq.half)
    (hpen : (ResolveContact m sq radius p v).dist2 ≤ radius * radius)
    (hfar : (ResolveContact m sq radius p v).dist > 1e-6) :
    radius + SEP_BIAS K - dot v (ResolveContact m sq radius p v).nW / 8000
      ≤ m.sqrtf (ResolveContact m sq radius (ResolveCircleVsSquare m sq radius p v).1
          (ResolveCircleVsSquare m sq radius p v).2).dist2 := by
  have hcs := hm.cos_sq_add_sin_sq (sq.angle * (PI_F K / 180))
  have hpos : (0 : K) < (ResolveContact m sq radius p v).dist := lt_trans (by norm_num) hfar
  obtain ⟨hdx, hdy⟩ := contact_nL_mul_dist m sq radius p v hfar
  have hpn := contact_penetration_ge m sq radius p v
  have hnL := contact_nL_unit m hm sq radius p v
  have hrefl := dot_Reflect_of_unit v _ (contact_nW_unit m hm sq radius p v)
  have hD0 := hm.sqrt_nonneg (ResolveContact m sq radius (ResolveCircleVsSquare m sq radius p v).1
          (ResolveCircleVsSquare m sq radius p v).2).dist2
  have hD := hm.sqrt_mul_self _ (contact_dist2_nonneg m sq radius
          (ResolveCircleVsSquare m sq radius p v).1 (ResolveCircleVsSquare m sq radius p v).2)
  generalize m.sqrtf (ResolveContact m sq radius (ResolveCircleVsSquare m sq radius p v).1
          (ResolveCircleVsSquare m sq radius p v).2).dist2 = D at hD0 hD ⊢
  rw [contact_dist2_eq, resolve_hit m sq radius p v hpen] at hD
  have hnW : (ResolveContact m sq radius p v).nW
      = RotateCS (ResolveContact m sq radius p v).nL (m.cosf (sq.angle * (PI_F K / 180)))
          (m.sinf (sq.angle * (PI_F K / 180))) := rfl
  rw [hnW] at hD hrefl ⊢
  generalize (ResolveContact m sq radius p v).penetration = pen at *
  generalize (ResolveContact m sq radius p v).dist = dist at *
  generalize (ResolveContact m sq radius p v).nL = n at *
  generalize m.cosf (sq.angle * (PI_F K / 180)) = c at *
  generalize m.sinf (sq.angle * (PI_F K / 180)) = s at *
  simp only [] at hD
  rw [local_of_moved c s hcs p n (Reflect v (RotateCS n c s)) pen sq.x sq.y] at hD
  have hloc := separation_local sq.half hh (InvRotateCS ⟨p.x - sq.x, p.y - sq.y⟩ c s) n
    ⟨(InvRotateCS (Reflect v (RotateCS n c s)) c s).x * (1 / 8000),
     (InvRotateCS (Reflect v (RotateCS n c s)) c s).y * (1 / 8000)⟩
    dist pen D hnL hpos hdx hdy hD0 hD
  have hw : dot (⟨(InvRotateCS (Reflect v (RotateCS n c s)) c s).x * (1 / 8000),
     (InvRotateCS (Reflect v (RotateCS n c s)) c s).y * (1 / 8000)⟩ : Vector2 K) n
      = - dot v (RotateCS n c s) / 8000 := by
    rw [← hrefl, ← dot_InvRotateCS_left]
    simp only [dot]
    ring
  rw [hw] at hloc
  have : - dot v (RotateCS n c s) / 8000 = - (dot v (RotateCS n c s) / 8000) := by ring
  linarith


/-! ### Touch tracker -/

theorem fillTrackedTouches_distinct (ts : List (TrackedTouch K)) :
    ∀ t0 t1 : TrackedTouch K, (t0.id = t1.id → t0.id = -1) →
      ((fillTrackedTouches ts (t0, t1)).1.id = (fillTrackedTouches ts (t0, t1)).2.id →
        (fillTrackedTouches ts (t0, t1)).1.id = -1) := by
  induction ts with
  | nil => intro t0 t1 h; simpa [fillTrackedTouches] using h
  | cons t ts ih =>
    intro t0 t1 h
    simp only [fillTrackedTouches]
    split_ifs with h1 h2 h3
    · exact ih t0 t1 h
    · refine ih ⟨t.id, t.pos⟩ t1 ?_
      intro e
      exact absurd e (fun e => h2 (Or.inr e))
    · refine ih t0 ⟨t.id, t.pos⟩ ?_
      intro e
      exact absurd e.symm (fun e => h2 (Or.inl e))
    · exact h

theorem fillTrackedTouches_distinct_pair (ts : List (TrackedTouch K))
    (s : TrackedTouch K × TrackedTouch K) (h : s.1.id = s.2.id → s.1.id = -1) :
    (fillTrackedTouches ts s).1.id = (fillTrackedTouches ts s).2.id →
      (fillTrackedTouches ts s).1.id = -1 :=
  fillTrackedTouches_distinct ts s.1 s.2 h

theorem UpdateTrackedTouches_distinct (touches : List (TrackedTouch K)) (t0 t1 : TrackedTouch K)
    (h : t0.id = t1.id → t0.id = -1) :
    (UpdateTrackedTouches touches t0 t1).1.id = (UpdateTrackedTouches touches t0 t1).2.id →
      (UpdateTrackedTouches touches t0 t1).1.id = -1 := by
  simp only [UpdateTrackedTouches]
  by_cases hc : (touches.length : Int) ≤ 0
  · rw [if_pos hc]
    intro _
    rfl
  · rw [if_neg hc]
    apply fillTrackedTouches_distinct_pair
    by_cases h0 : t0.id = -1 <;> by_cases h1 : t1.id = -1 <;>
      cases hf0 : FindTouchById touches t0.id <;>
      cases hf1 : FindTouchById touches t1.id <;>
      (simp [h0, h1]; try omega)

/-- C10: if the two slots are empty or hold different ids before
`UpdateTrackedTouches`, then after it, for every list of current touch points
(repeated ids included), the two slots are not both occupied by the same id. -/
theorem touch_slots_never_share_id (touches : List (TrackedTouch K)) (t0 t1 : TrackedTouch K)
    (h : t0.id = -1 ∨ t1.id = -1 ∨ t0.id ≠ t1.id) :
    ¬ ((UpdateTrackedTouches touches t0 t1).1.id ≠ -1 ∧
       (UpdateTrackedTouches touches t0 t1).2.id ≠ -1 ∧
       (UpdateTrackedTouches touches t0 t1).1.id = (UpdateTrackedTouches touches t0 t1).2.id) := by
  rintro ⟨h1, _, h3⟩
  refine h1 (UpdateTrackedTouches_distinct touches t0 t1 ?_ h3)
  intro e
  rcases h with h | h | h
  · exact h
  · rw [e]; exact h
  · exact absurd e h

/-- Witness for C10: slots holding ids 3 and 7, touch points reported with the id 5
twice and then 7. -/
theorem touch_slots_never_share_id_witness :
    ((⟨3, ⟨0, 0⟩⟩ : TrackedTouch ℚ).id = -1 ∨ (⟨7, ⟨1, 1⟩⟩ : TrackedTouch ℚ).id = -1 ∨
      (⟨3, ⟨0, 0⟩⟩ : TrackedTouch ℚ).id ≠ (⟨7, ⟨1, 1⟩⟩ : TrackedTouch ℚ).id) ∧
    ¬ ((UpdateTrackedTouches [⟨5, ⟨2, 2⟩⟩, ⟨5, ⟨3, 3⟩⟩, ⟨7, ⟨4, 4⟩⟩]
          (⟨3, ⟨0, 0⟩⟩ : TrackedTouch ℚ) ⟨7, ⟨1, 1⟩⟩).1.id ≠ -1 ∧
       (UpdateTrackedTouches [⟨5, ⟨2, 2⟩⟩, ⟨5, ⟨3, 3⟩⟩, ⟨7, ⟨4, 4⟩⟩]
          (⟨3, ⟨0, 0⟩⟩ : TrackedTouch ℚ) ⟨7, ⟨1, 1⟩⟩).2.id ≠ -1 ∧
       (UpdateTrackedTouches [⟨5, ⟨2, 2⟩⟩, ⟨5, ⟨3, 3⟩⟩, ⟨7, ⟨4, 4⟩⟩]
          (⟨3, ⟨0, 0⟩⟩ : TrackedTouch ℚ) ⟨7, ⟨1, 1⟩⟩).1.id =
       (UpdateTrackedTouches [⟨5, ⟨2, 2⟩⟩, ⟨5, ⟨3, 3⟩⟩, ⟨7, ⟨4, 4⟩⟩]
          (⟨3, ⟨0, 0⟩⟩ : TrackedTouch ℚ) ⟨7, ⟨1, 1⟩⟩).2.id) :=
  ⟨by decide, touch_slots_never_share_id _ _ _ (by decide)⟩

/-! ### Clamping the squares into the window -/

theorem clampSquare_bounds (q : Square K) (sw sh : Int) :
    (clampSquare q sw sh).half = q.half ∧
    (clampSquare q sw sh).x ≤ (sw : K) - q.half ∧
    (clampSquare q sw sh).y ≤ (sh : K) - q.half ∧
    (2 * q.half ≤ (sw : K) → q.half ≤ (clampSquare q sw sh).x) ∧
    (2 * q.half ≤ (sh : K) → q.half ≤ (clampSquare q sw sh).y) := by
  simp only [clampSquare]
  refine ⟨trivial, ?_, ?_, ?_, ?_⟩
  · split_ifs <;> linarith
  · split_ifs <;> linarith
  · intro h; split_ifs <;> linarith
  · intro h; split_ifs <;> linarith

/-- C8 (amended): after the per-frame clamp every square satisfies
`x ≤ width - half` and `y ≤ height - half`; the lower bounds `half ≤ x` and
`half ≤ y` hold in each dimension in which the window is at least as large as the
square's side (`2 * half ≤ width`, resp. `2 * half ≤ height`). -/
theorem clamp_keeps_square_in_window (sqs : List (Square K)) (sw sh : Int) (q : Square K)
    (hq : q ∈ ClampSquares sqs sw sh) :
    q.x ≤ (sw : K) - q.half ∧ q.y ≤ (sh : K) - q.half ∧
    (2 * q.half ≤ (sw : K) → q.half ≤ q.x) ∧ (2 * q.half ≤ (sh : K) → q.half ≤ q.y) := by
  simp only [ClampSquares, List.mem_map] at hq
  obtain ⟨q0, _, rfl⟩ := hq
  obtain ⟨hh, h1, h2, h3, h4⟩ := clampSquare_bounds q0 sw sh
  rw [hh]
  exact ⟨h1, h2, h3, h4⟩

/-- Witness for C8 (amended): a square of half-extent 40 at (10, 700) in a
1024 × 600 window. -/
theorem clamp_keeps_square_in_window_witness :
    clampSquare (⟨10, 700, 40, 0⟩ : Square ℚ) 1024 600
        ∈ ClampSquares [(⟨10, 700, 40, 0⟩ : Square ℚ)] 1024 600 ∧
    (clampSquare (⟨10, 700, 40, 0⟩ : Square ℚ) 1024 600).x
        ≤ ((1024 : Int) : ℚ) - (clampSquare (⟨10, 700, 40, 0⟩ : Square ℚ) 1024 600).half ∧
    (clampSquare (⟨10, 700, 40, 0⟩ : Square ℚ) 1024 600).y
        ≤ ((600 : Int) : ℚ) - (clampSquare (⟨10, 700, 40, 0⟩ : Square ℚ) 1024 600).half ∧
    (2 * (clampSquare (⟨10, 700, 40, 0⟩ : Square ℚ) 1024 600).half ≤ ((1024 : Int) : ℚ) →
      (clampSquare (⟨10, 700, 40, 0⟩ : Square ℚ) 1024 600).half
        ≤ (clampSquare (⟨10, 700, 40, 0⟩ : Square ℚ) 1024 600).x) ∧
    (2 * (clampSquare (⟨10, 700, 40, 0⟩ : Square ℚ) 1024 600).half ≤ ((600 : Int) : ℚ) →
      (clampSquare (⟨10, 700, 40, 0⟩ : Square ℚ) 1024 600).half
        ≤ (clampSquare (⟨10, 700, 40, 0⟩ : Square ℚ) 1024 600).y) :=
  ⟨List.mem_singleton.mpr rfl,
   clamp_keeps_square_in_window [(⟨10, 700, 40, 0⟩ : Square ℚ)] 1024 600 _
     (List.mem_singleton.mpr rfl)⟩

/-- Counterexample to C8 as stated: in a 360 × 640 window a square of half-extent
300 centred at (180, 320) is clamped to x = 60, so `half ≤ x` fails. -/
theorem clamp_counterexample_small_window :
    ClampSquares [(⟨180, 320, 300, 0⟩ : Square ℚ)] 360 640 = [⟨60, 320, 300, 0⟩] ∧
    ¬ ((300 : ℚ) ≤ 60) := by
  constructor
  · simp only [ClampSquares, clampSquare, List.map]
    norm_num
  · norm_num

/-! ### The real-number instance of libm -/

theorem realLibm_exact :
    Libm.Exact (⟨Real.sqrt, Real.cos, Real.sin, fun y x => Complex.arg ⟨x, y⟩,
      fun x y => Real.sqrt (x * x + y * y)⟩ : Libm ℝ) where
  sqrt_nonneg := Real.sqrt_nonneg
  sqrt_mul_self := fun _ hx => Real.mul_self_sqrt hx
  cos_sq_add_sin_sq := fun a => by
    have h := Real.cos_sq_add_sin_sq a
    simp only [sq] at h
    exact h
  cos_zero := Real.cos_zero
  sin_zero := Real.sin_zero
  hypot_eq := fun _ _ => rfl

theorem real_sqrt_eq (x y : ℝ) (hy : 0 ≤ y) (h : y * y = x) : Real.sqrt x = y := by
  rw [← h]
  exact Real.sqrt_mul_self hy

/-! ### C1, C2: the collision resolver -/

/-- C1 (amended): whenever `ResolveCircleVsSquare` detects penetration, the
velocity's component along the contact normal used by the call is, after the call,
the negative of what it was before; hence it is non-negative after the call exactly
when it was non-positive before. The call does not test the direction of approach. -/
theorem resolve_negates_normal_velocity (m : Libm K) (hm : m.Exact) (sq : Square K)
    (radius : K) (p v : Vector2 K)
    (hpen : (ResolveContact m sq radius p v).dist2 ≤ radius * radius) :
    dot (ResolveCircleVsSquare m sq radius p v).2 (ResolveContact m sq radius p v).nW
        = - dot v (ResolveContact m sq radius p v).nW ∧
    (0 ≤ dot (ResolveCircleVsSquare m sq radius p v).2 (ResolveContact m sq radius p v).nW
      ↔ dot v (ResolveContact m sq radius p v).nW ≤ 0) := by
  have h := resolve_normal_component m hm sq radius p v hpen
  refine ⟨h, ?_⟩
  rw [h]
  exact neg_nonneg

theorem contact_example_outside (v : Vector2 ℝ) :
    ResolveContact (⟨Real.sqrt, Real.cos, Real.sin, fun y x => Complex.arg ⟨x, y⟩,
        fun x y => Real.sqrt (x * x + y * y)⟩ : Libm ℝ)
      ⟨0, 0, 50, 0⟩ 10 ⟨0, -55⟩ v
      = ⟨25, 5, ⟨0, -1⟩, ⟨0, -1⟩, 5.5⟩ := by
  have h5 : Real.sqrt 25 = 5 := real_sqrt_eq 25 5 (by norm_num) (by norm_num)
  simp only [ResolveContact, InvRotateCS, RotateCS, ClosestPointOnSquare, zero_mul,
    Real.cos_zero, Real.sin_zero, SEP_BIAS]
  norm_num [h5]

theorem contact_example_inside :
    ResolveContact (⟨Real.sqrt, Real.cos, Real.sin, fun y x => Complex.arg ⟨x, y⟩,
        fun x y => Real.sqrt (x * x + y * y)⟩ : Libm ℝ)
      ⟨0, 0, 50, 0⟩ 10 ⟨0, 0⟩ ⟨0, 10⟩
      = ⟨0, 0, ⟨0, 1⟩, ⟨0, 1⟩, 10.5⟩ := by
  simp only [ResolveContact, InvRotateCS, RotateCS, ClosestPointOnSquare, zero_mul,
    Real.cos_zero, Real.sin_zero, SEP_BIAS]
  norm_num

/-- Witness for C1 (amended): square of half-extent 50 at the origin, ball of
radius 10 at (0, -55) moving towards it with velocity (0, 10). -/
theorem resolve_negates_normal_velocity_witness :
    Libm.Exact (⟨Real.sqrt, Real.cos, Real.sin, fun y x => Complex.arg ⟨x, y⟩,
        fun x y => Real.sqrt (x * x + y * y)⟩ : Libm ℝ) ∧
    (ResolveContact (⟨Real.sqrt, Real.cos, Real.sin, fun y x => Complex.arg ⟨x, y⟩,
        fun x y => Real.sqrt (x * x + y * y)⟩ : Libm ℝ)
      ⟨0, 0, 50, 0⟩ 10 ⟨0, -55⟩ ⟨0, 10⟩).dist2 ≤ 10 * 10 ∧
    dot (ResolveCircleVsSquare (⟨Real.sqrt, Real.cos, Real.sin, fun y x => Complex.arg ⟨x, y⟩,
        fun x y => Real.sqrt (x * x + y * y)⟩ : Libm ℝ)
      ⟨0, 0, 50, 0⟩ 10 ⟨0, -55⟩ ⟨0, 10⟩).2
      (ResolveContact (⟨Real.sqrt, Real.cos, Real.sin, fun y x => Complex.arg ⟨x, y⟩,
        fun x y => Real.sqrt (x * x + y * y)⟩ : Libm ℝ)
      ⟨0, 0, 50, 0⟩ 10 ⟨0, -55⟩ ⟨0, 10⟩).nW
      = - dot (⟨0, 10⟩ : Vector2 ℝ)
        (ResolveContact (⟨Real.sqrt, Real.cos, Real.sin, fun y x => Complex.arg ⟨x, y⟩,
          fun x y => Real.sqrt (x * x + y * y)⟩ : Libm ℝ)
        ⟨0, 0, 50, 0⟩ 10 ⟨0, -55⟩ ⟨0, 10⟩).nW :=
  ⟨realLibm_exact, by rw [contact_example_outside]; norm_num,
   (resolve_negates_normal_velocity _ realLibm_exact ⟨0, 0, 50, 0⟩ 10 ⟨0, -55⟩ ⟨0, 10⟩
     (by rw [contact_example_outside]; norm_num)).1⟩

/-- Counterexample to C1 as stated: square of half-extent 50 at the origin (angle 0),
ball of radius 10 at (0, -55) moving away with velocity (0, -10). Penetration is
detected (25 ≤ 100), the contact normal is (0, -1); the velocity's component along it
is +10 before the call (not negative) and -10 after it (not non-negative): the call
turns the ball into the square. -/
theorem resolve_counterexample_moving_away :
    (ResolveContact (⟨Real.sqrt, Real.cos, Real.sin, fun y x => Complex.arg ⟨x, y⟩,
        fun x y => Real.sqrt (x * x + y * y)⟩ : Libm ℝ)
      ⟨0, 0, 50, 0⟩ 10 ⟨0, -55⟩ ⟨0, -10⟩).dist2 ≤ 10 * 10 ∧
    (ResolveContact (⟨Real.sqrt, Real.cos, Real.sin, fun y x => Complex.arg ⟨x, y⟩,
        fun x y => Real.sqrt (x * x + y * y)⟩ : Libm ℝ)
      ⟨0, 0, 50, 0⟩ 10 ⟨0, -55⟩ ⟨0, -10⟩).nW = ⟨0, -1⟩ ∧
    dot (⟨0, -10⟩ : Vector2 ℝ) ⟨0, -1⟩ = 10 ∧
    (ResolveCircleVsSquare (⟨Real.sqrt, Real.cos, Real.sin, fun y x => Complex.arg ⟨x, y⟩,
        fun x y => Real.sqrt (x * x + y * y)⟩ : Libm ℝ)
      ⟨0, 0, 50, 0⟩ 10 ⟨0, -55⟩ ⟨0, -10⟩).2 = ⟨0, 10⟩ ∧
    dot (⟨0, 10⟩ : Vector2 ℝ) ⟨0, -1⟩ = -10 := by
  refine ⟨?_, ?_, ?_, ?_, ?_⟩
  · rw [contact_example_outside]; norm_num
  · rw [contact_example_outside]
  · norm_num [dot]
  · rw [resolve_hit _ _ _ _ _ (by rw [contact_example_outside]; norm_num),
      contact_example_outside]
    norm_num [Reflect]
  · norm_num [dot]

/-- C2 (amended): for a square with `half ≥ 0`, when `ResolveCircleVsSquare` detects
penetration and the ball centre lies more than 1e-6 outside the box (the
closest-point normal is used), then after the call the distance from the centre to
its closest point on the rotated box is at least
`radius + SEP_BIAS - (v·n)/8000`, where `v·n` is the velocity's component along the
contact normal before the call (the final 1/8000 micro-step moves the ball by the
reflected velocity). So the distance is at least `radius + SEP_BIAS` when the ball was
approaching (`v·n ≤ 0`) and at least `radius` whenever `v·n ≤ 4000`. Nothing is
claimed for a centre that starts inside the box. -/
theorem resolve_separates_outside_centre (m : Libm K) (hm : m.Exact) (sq : Square K)
    (radius : K) (p v : Vector2 K) (hh : 0 ≤ sq.half)
    (hpen : (ResolveContact m sq radius p v).dist2 ≤ radius * radius)
    (hfar : (ResolveContact m sq radius p v).dist > 1e-6) :
    radius + SEP_BIAS K - dot v (ResolveContact m sq radius p v).nW / 8000
      ≤ m.sqrtf (ResolveContact m sq radius (ResolveCircleVsSquare m sq radius p v).1
          (ResolveCircleVsSquare m sq radius p v).2).dist2 ∧
    (dot v (ResolveContact m sq radius p v).nW ≤ 0 →
      radius + SEP_BIAS K
        ≤ m.sqrtf (ResolveContact m sq radius (ResolveCircleVsSquare m sq radius p v).1
          (ResolveCircleVsSquare m sq radius p v).2).dist2) ∧
    (dot v (ResolveContact m sq radius p v).nW ≤ 4000 →
      radius
        ≤ m.sqrtf (ResolveContact m sq radius (ResolveCircleVsSquare m sq radius p v).1
          (ResolveCircleVsSquare m sq radius p v).2).dist2) := by
  have h := resolve_separation m hm sq radius p v hh hpen hfar
  refine ⟨h, ?_, ?_⟩
  · intro hv
    have : dot v (ResolveContact m sq radius p v).nW / 8000 ≤ 0 :=
      div_nonpos_of_nonpos_of_nonneg hv (by norm_num)
    linarith
  · intro hv
    have h1 : dot v (ResolveContact m sq radius p v).nW / 8000 ≤ 4000 / 8000 :=
      div_le_div_of_nonneg_right hv (by norm_num)
    have h2 : SEP_BIAS K = 4000 / 8000 := by norm_num [SEP_BIAS]
    linarith

/-- Witness for C2 (amended): square of half-extent 50 at the origin, ball of
radius 10 at (0, -55) with velocity (0, 10). -/
theorem resolve_separates_outside_centre_witness :
    Libm.Exact (⟨Real.sqrt, Real.cos, Real.sin, fun y x => Complex.arg ⟨x, y⟩,
        fun x y => Real.sqrt (x * x + y * y)⟩ : Libm ℝ) ∧
    (0 : ℝ) ≤ (⟨0, 0, 50, 0⟩ : Square ℝ).half ∧
    (ResolveContact (⟨Real.sqrt, Real.cos, Real.sin, fun y x => Complex.arg ⟨x, y⟩,
        fun x y => Real.sqrt (x * x + y * y)⟩ : Libm ℝ)
      ⟨0, 0, 50, 0⟩ 10 ⟨0, -55⟩ ⟨0, 10⟩).dist2 ≤ 10 * 10 ∧
    (ResolveContact (⟨Real.sqrt, Real.cos, Real.sin, fun y x => Complex.arg ⟨x, y⟩,
        fun x y => Real.sqrt (x * x + y * y)⟩ : Libm ℝ)
      ⟨0, 0, 50, 0⟩ 10 ⟨0, -55⟩ ⟨0, 10⟩).dist > 1e-6 ∧
    (10 : ℝ) ≤ Real.sqrt (ResolveContact (⟨Real.sqrt, Real.cos, Real.sin,
        fun y x => Complex.arg ⟨x, y⟩, fun x y => Real.sqrt (x * x + y * y)⟩ : Libm ℝ)
      ⟨0, 0, 50, 0⟩ 10
      (ResolveCircleVsSquare (⟨Real.sqrt, Real.cos, Real.sin, fun y x => Complex.arg ⟨x, y⟩,
        fun x y => Real.sqrt (x * x + y * y)⟩ : Libm ℝ) ⟨0, 0, 50, 0⟩ 10 ⟨0, -55⟩ ⟨0, 10⟩).1
      (ResolveCircleVsSquare (⟨Real.sqrt, Real.cos, Real.sin, fun y x => Complex.arg ⟨x, y⟩,
        fun x y => Real.sqrt (x * x + y * y)⟩ : Libm ℝ) ⟨0, 0, 50, 0⟩ 10 ⟨0, -55⟩ ⟨0, 10⟩).2).dist2 :=
  ⟨realLibm_exact, by norm_num, by rw [contact_example_outside]; norm_num,
   by rw [contact_example_outside]; norm_num,
   (resolve_separates_outside_centre _ realLibm_exact ⟨0, 0, 50, 0⟩ 10 ⟨0, -55⟩ ⟨0, 10⟩
     (by norm_num) (by rw [contact_example_outside]; norm_num)
     (by rw [contact_example_outside]; norm_num)).2.2
     (by rw [contact_example_outside]; norm_num [dot])⟩

/-- Counterexample to C2 as stated. Square of half-extent 50 at the origin, ball of
radius 10. (a) Centre at the square's centre, velocity (0, 10): penetration is
detected, the ball is moved to (0, 10.49875), still inside the box, so its distance
to the closest point of the box is 0, below `radius - SEP_BIAS = 9.5`. (b) Centre at
(0, -55) moving away with velocity (0, -16000): the ball ends at (0, -58.5), at
distance 8.5 from the box, again below 9.5. -/
theorem resolve_counterexample_not_separated :
    ((ResolveContact (⟨Real.sqrt, Real.cos, Real.sin, fun y x => Complex.arg ⟨x, y⟩,
        fun x y => Real.sqrt (x * x + y * y)⟩ : Libm ℝ)
      ⟨0, 0, 50, 0⟩ 10 ⟨0, 0⟩ ⟨0, 10⟩).dist2 ≤ 10 * 10 ∧
     (ResolveCircleVsSquare (⟨Real.sqrt, Real.cos, Real.sin, fun y x => Complex.arg ⟨x, y⟩,
        fun x y => Real.sqrt (x * x + y * y)⟩ : Libm ℝ)
      ⟨0, 0, 50, 0⟩ 10 ⟨0, 0⟩ ⟨0, 10⟩) = (⟨0, 10.49875⟩, ⟨0, -10⟩) ∧
     (ResolveContact (⟨Real.sqrt, Real.cos, Real.sin, fun y x => Complex.arg ⟨x, y⟩,
        fun x y => Real.sqrt (x * x + y * y)⟩ : Libm ℝ)
      ⟨0, 0, 50, 0⟩ 10 ⟨0, 10.49875⟩ ⟨0, -10⟩).dist2 = 0) ∧
    ((ResolveContact (⟨Real.sqrt, Real.cos, Real.sin, fun y x => Complex.arg ⟨x, y⟩,
        fun x y => Real.sqrt (x * x + y * y)⟩ : Libm ℝ)
      ⟨0, 0, 50, 0⟩ 10 ⟨0, -55⟩ ⟨0, -16000⟩).dist2 ≤ 10 * 10 ∧
     (ResolveCircleVsSquare (⟨Real.sqrt, Real.cos, Real.sin, fun y x => Complex.arg ⟨x, y⟩,
        fun x y => Real.sqrt (x * x + y * y)⟩ : Libm ℝ)
      ⟨0, 0, 50, 0⟩ 10 ⟨0, -55⟩ ⟨0, -16000⟩) = (⟨0, -58.5⟩, ⟨0, 16000⟩) ∧
     (ResolveContact (⟨Real.sqrt, Real.cos, Real.sin, fun y x => Complex.arg ⟨x, y⟩,
        fun x y => Real.sqrt (x * x + y * y)⟩ : Libm ℝ)
      ⟨0, 0, 50, 0⟩ 10 ⟨0, -58.5⟩ ⟨0, 16000⟩).dist2 = 8.5 * 8.5 ∧
     (8.5 : ℝ) < 10 - SEP_BIAS ℝ) := by
  refine ⟨⟨?_, ?_, ?_⟩, ?_, ?_, ?_, ?_⟩
  · rw [contact_example_inside]; norm_num
  · rw [resolve_hit _ _ _ _ _ (by rw [contact_example_inside]; norm_num),
      contact_example_inside]
    norm_num [Reflect]
  · simp only [ResolveContact, InvRotateCS, ClosestPointOnSquare, zero_mul,
      Real.cos_zero, Real.sin_zero]
    norm_num
  · rw [contact_example_outside]; norm_num
  · rw [resolve_hit _ _ _ _ _ (by rw [contact_example_outside]; norm_num),
      contact_example_outside]
    norm_num [Reflect]
  · simp only [ResolveContact, InvRotateCS, ClosestPointOnSquare, zero_mul,
      Real.cos_zero, Real.sin_zero]
    norm_num
  · norm_num [SEP_BIAS]

/-! ### C9: the half-extent stays in range -/

theorem updSq_forall (P : Square K → Prop) (sqs : List (Square K)) (i : Int)
    (f : Square K → Square K) (h : ∀ q ∈ sqs, P q) (hf : ∀ q, P q → P (f q)) :
    ∀ q ∈ updSq sqs i f, P q := by
  intro q hq
  simp only [updSq] at hq
  split_ifs at hq with hi
  · by_cases hlt : i.toNat < sqs.length
    · rcases List.mem_or_eq_of_mem_set hq with hq | hq
      · exact h q hq
      · rw [hq]
        apply hf
        apply h
        rw [List.getD_eq_getElem _ _ hlt]
        exact List.getElem_mem hlt
    · rw [List.set_eq_of_length_le (not_lt.mp hlt)] at hq
      exact h q hq
  · exact h q hq

theorem clampSide_bounds (x : K) :
    SQUARE_MIN_SIDE K ≤ clampSide x ∧ clampSide x ≤ SQUARE_MAX_SIDE K := by
  simp only [clampSide, SQUARE_MIN_SIDE, SQUARE_MAX_SIDE]
  constructor <;> split_ifs <;> linarith

theorem half_of_clampSide (x : K) :
    SQUARE_MIN_SIDE K / 2 ≤ clampSide x * 0.5 ∧ clampSide x * 0.5 ≤ SQUARE_MAX_SIDE K / 2 := by
  obtain ⟨h1, h2⟩ := clampSide_bounds x
  constructor
  · have : clampSide x * 0.5 = clampSide x / 2 := by norm_num; ring
    rw [this]
    exact div_le_div_of_nonneg_right h1 (by norm_num)
  · have : clampSide x * 0.5 = clampSide x / 2 := by norm_num; ring
    rw [this]
    exact div_le_div_of_nonneg_right h2 (by norm_num)

theorem updSq_half (sqs : List (Square K)) (i : Int) (f : Square K → Square K)
    (h : ∀ q ∈ sqs, SQUARE_MIN_SIDE K / 2 ≤ q.half ∧ q.half ≤ SQUARE_MAX_SIDE K / 2)
    (hf : ∀ q, (f q).half = q.half ∨ ∃ x, (f q).half = clampSide x * 0.5) :
    ∀ q ∈ updSq sqs i f, SQUARE_MIN_SIDE K / 2 ≤ q.half ∧ q.half ≤ SQUARE_MAX_SIDE K / 2 := by
  refine updSq_forall (fun q => SQUARE_MIN_SIDE K / 2 ≤ q.half ∧ q.half ≤ SQUARE_MAX_SIDE K / 2) sqs i f h ?_
  intro q hq
  rcases hf q with e | ⟨x, e⟩
  · rw [e]; exact hq
  · rw [e]; exact half_of_clampSide x

theorem mouseLeftPress_squares (m : Libm K) (s : MainState K) (f : Frame K) :
    (mouseLeftPress m s f).squares = s.squares := by
  simp only [mouseLeftPress]
  split_ifs <;> rfl

theorem mouseLeftRelease_squares (m : Libm K) (s : MainState K) (f : Frame K) :
    (mouseLeftRelease m s f).squares = s.squares := by
  simp only [mouseLeftRelease]
  split_ifs <;> rfl

theorem mouseRightPress_squares (m : Libm K) (s : MainState K) (f : Frame K) :
    (mouseRightPress m s f).squares = s.squares := by
  simp only [mouseRightPress]
  split_ifs <;> rfl

theorem mouseRightRelease_squares (m : Libm K) (s : MainState K) (f : Frame K) :
    (mouseRightRelease m s f).squares = s.squares := by
  simp only [mouseRightRelease]
  split_ifs <;> rfl

theorem mouseLeftDrag_half (s : MainState K) (f : Frame K)
    (h : ∀ q ∈ s.squares, SQUARE_MIN_SIDE K / 2 ≤ q.half ∧ q.half ≤ SQUARE_MAX_SIDE K / 2) : ∀ q ∈ (mouseLeftDrag s f).squares, SQUARE_MIN_SIDE K / 2 ≤ q.half ∧ q.half ≤ SQUARE_MAX_SIDE K / 2 := by
  simp only [mouseLeftDrag]
  split_ifs
  all_goals try dsimp only
  all_goals
    repeat' first
      | exact h
      | exact fun _ => Or.inl rfl
      | exact fun _ => Or.inr ⟨_, rfl⟩
      | refine updSq_half _ _ _ ?_ ?_

theorem mouseRightDrag_half (s : MainState K) (f : Frame K)
    (h : ∀ q ∈ s.squares, SQUARE_MIN_SIDE K / 2 ≤ q.half ∧ q.half ≤ SQUARE_MAX_SIDE K / 2) : ∀ q ∈ (mouseRightDrag s f).squares, SQUARE_MIN_SIDE K / 2 ≤ q.half ∧ q.half ≤ SQUARE_MAX_SIDE K / 2 := by
  simp only [mouseRightDrag]
  split_ifs
  all_goals try dsimp only
  all_goals
    repeat' first
      | exact h
      | exact fun _ => Or.inl rfl
      | exact fun _ => Or.inr ⟨_, rfl⟩
      | refine updSq_half _ _ _ ?_ ?_

theorem mouseWheel_half (m : Libm K) (s : MainState K) (f : Frame K)
    (h : ∀ q ∈ s.squares, SQUARE_MIN_SIDE K / 2 ≤ q.half ∧ q.half ≤ SQUARE_MAX_SIDE K / 2) : ∀ q ∈ (mouseWheel m s f).squares, SQUARE_MIN_SIDE K / 2 ≤ q.half ∧ q.half ≤ SQUARE_MAX_SIDE K / 2 := by
  simp only [mouseWheel]
  split_ifs
  all_goals try dsimp only
  all_goals
    repeat' first
      | exact h
      | exact fun _ => Or.inl rfl
      | exact fun _ => Or.inr ⟨_, rfl⟩
      | refine updSq_half _ _ _ ?_ ?_

theorem mouseBranch_half (m : Libm K) (s : MainState K) (f : Frame K)
    (h : ∀ q ∈ s.squares, SQUARE_MIN_SIDE K / 2 ≤ q.half ∧ q.half ≤ SQUARE_MAX_SIDE K / 2) : ∀ q ∈ (mouseBranch m s f).squares, SQUARE_MIN_SIDE K / 2 ≤ q.half ∧ q.half ≤ SQUARE_MAX_SIDE K / 2 := by
  simp only [mouseBranch]
  refine mouseWheel_half m _ f (mouseRightDrag_half _ f ?_)
  rw [mouseRightRelease_squares, mouseRightPress_squares]
  refine mouseLeftDrag_half _ f ?_
  rw [mouseLeftRelease_squares, mouseLeftPress_squares]
  exact h

theorem touchPress_squares (m : Libm K) (s : MainState K) (a : TrackedTouch K) :
    (touchPress m s a).squares = s.squares := by
  simp only [touchPress]
  split_ifs <;> rfl

theorem touchDrag_half (s : MainState K) (a prev0 prev1 : TrackedTouch K)
    (h : ∀ q ∈ s.squares, SQUARE_MIN_SIDE K / 2 ≤ q.half ∧ q.half ≤ SQUARE_MAX_SIDE K / 2) : ∀ q ∈ (touchDrag s a prev0 prev1).squares, SQUARE_MIN_SIDE K / 2 ≤ q.half ∧ q.half ≤ SQUARE_MAX_SIDE K / 2 := by
  simp only [touchDrag]
  split_ifs
  all_goals try dsimp only
  all_goals
    repeat' first
      | exact h
      | exact fun _ => Or.inl rfl
      | exact fun _ => Or.inr ⟨_, rfl⟩
      | refine updSq_half _ _ _ ?_ ?_

theorem touchSingle_half (m : Libm K) (s : MainState K) (prev0 prev1 : TrackedTouch K)
    (h : ∀ q ∈ s.squares, SQUARE_MIN_SIDE K / 2 ≤ q.half ∧ q.half ≤ SQUARE_MAX_SIDE K / 2) : ∀ q ∈ (touchSingle m s prev0 prev1).squares, SQUARE_MIN_SIDE K / 2 ≤ q.half ∧ q.half ≤ SQUARE_MAX_SIDE K / 2 := by
  simp only [touchSingle]
  apply touchDrag_half
  rw [touchPress_squares]
  exact h

theorem pinchStart_squares (m : Libm K) (s : MainState K) :
    (pinchStart m s).squares = s.squares := by
  simp only [pinchStart]
  split_ifs <;> rfl

theorem pinchTranslate_half (s : MainState K) (prev0 prev1 : TrackedTouch K)
    (h : ∀ q ∈ s.squares, SQUARE_MIN_SIDE K / 2 ≤ q.half ∧ q.half ≤ SQUARE_MAX_SIDE K / 2) : ∀ q ∈ (pinchTranslate s prev0 prev1).squares, SQUARE_MIN_SIDE K / 2 ≤ q.half ∧ q.half ≤ SQUARE_MAX_SIDE K / 2 := by
  simp only [pinchTranslate]
  split_ifs
  all_goals try dsimp only
  all_goals
    repeat' first
      | exact h
      | exact fun _ => Or.inl rfl
      | exact fun _ => Or.inr ⟨_, rfl⟩
      | refine updSq_half _ _ _ ?_ ?_

theorem pinchScale_half (s : MainState K) (currDist : K)
    (h : ∀ q ∈ s.squares, SQUARE_MIN_SIDE K / 2 ≤ q.half ∧ q.half ≤ SQUARE_MAX_SIDE K / 2) : ∀ q ∈ (pinchScale s currDist).squares, SQUARE_MIN_SIDE K / 2 ≤ q.half ∧ q.half ≤ SQUARE_MAX_SIDE K / 2 := by
  simp only [pinchScale]
  split_ifs
  all_goals try dsimp only
  all_goals
    repeat' first
      | exact h
      | exact fun _ => Or.inl rfl
      | exact fun _ => Or.inr ⟨_, rfl⟩
      | refine updSq_half _ _ _ ?_ ?_

theorem pinchRotate_half [FloorRing K] (s : MainState K) (currAngDeg : K)
    (h : ∀ q ∈ s.squares, SQUARE_MIN_SIDE K / 2 ≤ q.half ∧ q.half ≤ SQUARE_MAX_SIDE K / 2) : ∀ q ∈ (pinchRotate s currAngDeg).squares, SQUARE_MIN_SIDE K / 2 ≤ q.half ∧ q.half ≤ SQUARE_MAX_SIDE K / 2 := by
  simp only [pinchRotate]
  exact updSq_half _ _ _ h (fun _ => Or.inl rfl)

theorem pinchUpdate_half [FloorRing K] (m : Libm K) (s : MainState K)
    (prev0 prev1 : TrackedTouch K)
    (h : ∀ q ∈ s.squares, SQUARE_MIN_SIDE K / 2 ≤ q.half ∧ q.half ≤ SQUARE_MAX_SIDE K / 2) : ∀ q ∈ (pinchUpdate m s prev0 prev1).squares, SQUARE_MIN_SIDE K / 2 ≤ q.half ∧ q.half ≤ SQUARE_MAX_SIDE K / 2 := by
  have ht := pinchTranslate_half (logIdx s s.pinchSquare) prev0 prev1 h
  simp only [pinchUpdate]
  split_ifs
  · exact ht
  · exact pinchRotate_half _ _ (pinchScale_half _ _ ht)
  · exact ht
  · exact h

theorem touchCancelPinch_squares (s : MainState K) (ec : Int) :
    (touchCancelPinch s ec).squares = s.squares := by
  simp only [touchCancelPinch]
  split_ifs <;> rfl

theorem touchTapOut_squares (s : MainState K) (ec : Int) :
    (touchTapOut s ec).squares = s.squares := by
  simp only [touchTapOut, touchRelease]
  split_ifs <;> rfl

theorem touchGesture_half [FloorRing K] (m : Libm K) (s : MainState K) (ec : Int)
    (prev0 prev1 : TrackedTouch K)
    (h : ∀ q ∈ s.squares, SQUARE_MIN_SIDE K / 2 ≤ q.half ∧ q.half ≤ SQUARE_MAX_SIDE K / 2) : ∀ q ∈ (touchGesture m s ec prev0 prev1).squares, SQUARE_MIN_SIDE K / 2 ≤ q.half ∧ q.half ≤ SQUARE_MAX_SIDE K / 2 := by
  simp only [touchGesture]
  split_ifs
  · exact touchSingle_half m _ _ _ h
  · exact pinchUpdate_half m _ _ _ (by rw [pinchStart_squares]; exact h)
  · exact h

theorem touchBranch_half [FloorRing K] (m : Libm K) (s : MainState K) (f : Frame K)
    (h : ∀ q ∈ s.squares, SQUARE_MIN_SIDE K / 2 ≤ q.half ∧ q.half ≤ SQUARE_MAX_SIDE K / 2) : ∀ q ∈ (touchBranch m s f).squares, SQUARE_MIN_SIDE K / 2 ≤ q.half ∧ q.half ≤ SQUARE_MAX_SIDE K / 2 := by
  simp only [touchBranch]
  rw [touchTapOut_squares]
  apply touchGesture_half
  rw [touchCancelPinch_squares]
  exact h

theorem inputStep_half [FloorRing K] (m : Libm K) (s : MainState K) (f : Frame K)
    (h : ∀ q ∈ s.squares, SQUARE_MIN_SIDE K / 2 ≤ q.half ∧ q.half ≤ SQUARE_MAX_SIDE K / 2) :
    ∀ q ∈ (inputStep m s f).squares,
      SQUARE_MIN_SIDE K / 2 ≤ q.half ∧ q.half ≤ SQUARE_MAX_SIDE K / 2 := by
  simp only [inputStep]
  split_ifs
  · exact mouseBranch_half m _ f h
  · exact touchBranch_half m _ f h

theorem frameStep_half [FloorRing K] (m : Libm K) (s : MainState K) (f : Frame K)
    (h : ∀ q ∈ s.squares, SQUARE_MIN_SIDE K / 2 ≤ q.half ∧ q.half ≤ SQUARE_MAX_SIDE K / 2) :
    ∀ q ∈ (frameStep m s f).squares,
      SQUARE_MIN_SIDE K / 2 ≤ q.half ∧ q.half ≤ SQUARE_MAX_SIDE K / 2 := by
  intro q hq
  simp only [frameStep, ClampSquares, List.mem_map] at hq
  obtain ⟨q0, hq0, rfl⟩ := hq
  exact inputStep_half m s f h q0 hq0

theorem initState_half (sw sh : Int) :
    ∀ q ∈ (initState K sw sh).squares,
      SQUARE_MIN_SIDE K / 2 ≤ q.half ∧ q.half ≤ SQUARE_MAX_SIDE K / 2 := by
  intro q hq
  simp only [initState, List.mem_cons, List.mem_singleton, List.not_mem_nil, or_false] at hq
  rcases hq with rfl | rfl | rfl <;>
    norm_num [SQUARE_MIN_SIDE, SQUARE_MAX_SIDE, SQUARE_SIZE_DEFAULT]

theorem runFrames_half [FloorRing K] (m : Libm K) (fs : List (Frame K)) :
    ∀ s : MainState K,
      (∀ q ∈ s.squares, SQUARE_MIN_SIDE K / 2 ≤ q.half ∧ q.half ≤ SQUARE_MAX_SIDE K / 2) →
      ∀ q ∈ (runFrames m s fs).squares,
        SQUARE_MIN_SIDE K / 2 ≤ q.half ∧ q.half ≤ SQUARE_MAX_SIDE K / 2 := by
  induction fs with
  | nil => intro s h; exact h
  | cons f fs ih =>
    intro s h
    exact ih (frameStep m s f) (frameStep_half m s f h)

/-- C9: every square's half-extent stays within
`[SQUARE_MIN_SIDE/2, SQUARE_MAX_SIDE/2] = [5, 300]`: it holds in the initial state
(half = 40), it is preserved by the input code of a frame for every state and every
frame input (any wheel value, any touch positions), and so it holds after every run
of frames (input code and clamp) from the initial state. -/
theorem half_extent_stays_in_range [FloorRing K] (m : Libm K) (swInit shInit : Int) :
    (SQUARE_MIN_SIDE K / 2 = 5 ∧ SQUARE_MAX_SIDE K / 2 = 300) ∧
    (∀ q ∈ (initState K swInit shInit).squares,
      q.half = 40 ∧ SQUARE_MIN_SIDE K / 2 ≤ q.half ∧ q.half ≤ SQUARE_MAX_SIDE K / 2) ∧
    (∀ (s : MainState K) (f : Frame K),
      (∀ q ∈ s.squares, SQUARE_MIN_SIDE K / 2 ≤ q.half ∧ q.half ≤ SQUARE_MAX_SIDE K / 2) →
      ∀ q ∈ (inputStep m s f).squares,
        SQUARE_MIN_SIDE K / 2 ≤ q.half ∧ q.half ≤ SQUARE_MAX_SIDE K / 2) ∧
    (∀ (fs : List (Frame K)), ∀ q ∈ (runFrames m (initState K swInit shInit) fs).squares,
      SQUARE_MIN_SIDE K / 2 ≤ q.half ∧ q.half ≤ SQUARE_MAX_SIDE K / 2) := by
  refine ⟨⟨by norm_num [SQUARE_MIN_SIDE], by norm_num [SQUARE_MAX_SIDE]⟩, ?_,
    fun s f h => inputStep_half m s f h,
    fun fs => runFrames_half m fs _ (initState_half swInit shInit)⟩
  intro q hq
  refine ⟨?_, initState_half swInit shInit q hq⟩
  simp only [initState, List.mem_cons, List.mem_singleton, List.not_mem_nil, or_false] at hq
  rcases hq with rfl | rfl | rfl <;> norm_num [SQUARE_SIZE_DEFAULT]

/-! ### Evaluating frames from the initial state -/

theorem pointIn_angle_zero (m : Libm K) (hm : m.Exact) (px py x y half : K) :
    PointInRotatedSquare m px py ⟨x, y, half, 0⟩
      = (decide (|px - x| ≤ half) && decide (|py - y| ≤ half)) := by
  simp only [PointInRotatedSquare, InvRotateCS, zero_mul, hm.cos_zero, hm.sin_zero]
  simp

theorem c5_state_after_press :
    inputStep (⟨Real.sqrt, Real.cos, Real.sin, fun y x => Complex.arg ⟨x, y⟩,
        fun x y => Real.sqrt (x * x + y * y)⟩ : Libm ℝ)
      (initState ℝ 1024 600) (touchFrame ℝ [⟨0, ⟨358.4, 300⟩⟩])
    = { initState ℝ 1024 600 with
        t0 := ⟨0, ⟨358.4, 300⟩⟩, prevTouchCount := 1, dragTouchSquare := 0,
        taps := [Tap.tapIn 80], used := [0] } := by
  simp only [inputStep, touchFrame, idleFrame, initState, touchBranch, UpdateTrackedTouches,
    FindTouchById, fillTrackedTouches, effectiveCount, touchCancelPinch, touchRebase,
    touchGesture, touchSingle, touchPress, touchDrag, touchTapOut, TopSquareAt, NUM_SQUARES,
    pointIn_angle_zero _ realLibm_exact, PlayTapInForSide, logIdx, readSq, updSq,
    SQUARE_SIZE_DEFAULT, TOUCH_DELTA_DEADZONE, List.getD_cons_zero, List.getD_cons_succ]
  norm_num [pointIn_angle_zero _ realLibm_exact, abs_le, lt_abs]

/-! ### C6: from two touches to one -/

theorem c6_state_after_second_touch :
    inputStep (⟨Real.sqrt, Real.cos, Real.sin, fun y x => Complex.arg ⟨x, y⟩,
        fun x y => Real.sqrt (x * x + y * y)⟩ : Libm ℝ)
      { initState ℝ 1024 600 with
        t0 := ⟨0, ⟨358.4, 300⟩⟩, prevTouchCount := 1, dragTouchSquare := 0,
        taps := [Tap.tapIn 80], used := [0] }
      (touchFrame ℝ [⟨0, ⟨358.4, 300⟩⟩, ⟨1, ⟨368.4, 300⟩⟩])
    = { initState ℝ 1024 600 with
        t0 := ⟨0, ⟨358.4, 300⟩⟩, t1 := ⟨1, ⟨368.4, 300⟩⟩, prevTouchCount := 2,
        dragTouchSquare := 0, pinchSquare := 0, pinchActive := true,
        pinchBaseDist := [10, 0, 0],
        pinchStartVecDeg := [Complex.arg ⟨10, 0⟩ * 57.2957795, 0, 0],
        taps := [Tap.tapIn 80], used := [0, 0] } := by
  have h10 : Real.sqrt 100 = 10 := real_sqrt_eq 100 10 (by norm_num) (by norm_num)
  simp only [inputStep, touchFrame, idleFrame, initState, touchBranch, UpdateTrackedTouches,
    FindTouchById, fillTrackedTouches, effectiveCount, touchCancelPinch, touchRebase,
    touchGesture, touchSingle, touchPress, touchDrag, touchTapOut, pinchStart, pinchUpdate, pinchTranslate, pinchSeed,
    TopSquareAt, NUM_SQUARES,
    pointIn_angle_zero _ realLibm_exact, PlayTapInForSide, logIdx, readSq, updSq, writeArr,
    SQUARE_SIZE_DEFAULT, TOUCH_DELTA_DEADZONE, List.getD_cons_zero, List.getD_cons_succ]
  norm_num [pointIn_angle_zero _ realLibm_exact, abs_le, lt_abs, h10]

theorem c6_reach :
    runFrames (⟨Real.sqrt, Real.cos, Real.sin, fun y x => Complex.arg ⟨x, y⟩,
        fun x y => Real.sqrt (x * x + y * y)⟩ : Libm ℝ)
      (initState ℝ 1024 600)
      [touchFrame ℝ [⟨0, ⟨358.4, 300⟩⟩],
       touchFrame ℝ [⟨0, ⟨358.4, 300⟩⟩, ⟨1, ⟨368.4, 300⟩⟩]]
    = { initState ℝ 1024 600 with
        t0 := ⟨0, ⟨358.4, 300⟩⟩, t1 := ⟨1, ⟨368.4, 300⟩⟩, prevTouchCount := 2,
        dragTouchSquare := 0, pinchSquare := 0, pinchActive := true,
        pinchBaseDist := [10, 0, 0],
        pinchStartVecDeg := [Complex.arg ⟨10, 0⟩ * 57.2957795, 0, 0],
        taps := [Tap.tapIn 80], used := [0, 0] } := by
  have e1 : frameStep (⟨Real.sqrt, Real.cos, Real.sin, fun y x => Complex.arg ⟨x, y⟩,
        fun x y => Real.sqrt (x * x + y * y)⟩ : Libm ℝ)
      (initState ℝ 1024 600) (touchFrame ℝ [⟨0, ⟨358.4, 300⟩⟩])
      = { initState ℝ 1024 600 with
        t0 := ⟨0, ⟨358.4, 300⟩⟩, prevTouchCount := 1, dragTouchSquare := 0,
        taps := [Tap.tapIn 80], used := [0] } := by
    simp only [frameStep]
    rw [c5_state_after_press]
    simp only [ClampSquares, clampSquare, initState, touchFrame, idleFrame, List.map,
      SQUARE_SIZE_DEFAULT]
    norm_num
  simp only [runFrames, List.foldl]
  rw [e1]
  simp only [frameStep]
  rw [c6_state_after_second_touch]
  simp only [ClampSquares, clampSquare, initState, touchFrame, idleFrame, List.map,
    SQUARE_SIZE_DEFAULT]
  norm_num

/-- Counterexample to C6 as stated: in a 1024 × 600 window, finger 0 touches square 0
at its centre (358.4, 300), then finger 1 joins at (368.4, 300) (pinch on square 0),
then finger 0 lifts while finger 1 is at (378.4, 300). On that last frame the previous
frame tracked two touches and the current one tracks exactly one; `pinchSquare`
becomes -1, but the remaining finger drags square 0 from x = 358.4 to x = 368.4,
because `dragTouchSquare` still holds the target of the drag that preceded the pinch. -/
theorem pinch_release_resumes_drag :
    (runFrames (⟨Real.sqrt, Real.cos, Real.sin, fun y x => Complex.arg ⟨x, y⟩,
        fun x y => Real.sqrt (x * x + y * y)⟩ : Libm ℝ)
      (initState ℝ 1024 600)
      [touchFrame ℝ [⟨0, ⟨358.4, 300⟩⟩],
       touchFrame ℝ [⟨0, ⟨358.4, 300⟩⟩, ⟨1, ⟨368.4, 300⟩⟩]]).prevTouchCount = 2 ∧
    (runFrames (⟨Real.sqrt, Real.cos, Real.sin, fun y x => Complex.arg ⟨x, y⟩,
        fun x y => Real.sqrt (x * x + y * y)⟩ : Libm ℝ)
      (initState ℝ 1024 600)
      [touchFrame ℝ [⟨0, ⟨358.4, 300⟩⟩],
       touchFrame ℝ [⟨0, ⟨358.4, 300⟩⟩, ⟨1, ⟨368.4, 300⟩⟩]]).squares
      = [⟨358.4, 300, 40, 0⟩, ⟨665.6, 300, 40, 0⟩, ⟨512, 300, 40, 0⟩] ∧
    (inputStep (⟨Real.sqrt, Real.cos, Real.sin, fun y x => Complex.arg ⟨x, y⟩,
        fun x y => Real.sqrt (x * x + y * y)⟩ : Libm ℝ)
      (runFrames (⟨Real.sqrt, Real.cos, Real.sin, fun y x => Complex.arg ⟨x, y⟩,
          fun x y => Real.sqrt (x * x + y * y)⟩ : Libm ℝ)
        (initState ℝ 1024 600)
        [touchFrame ℝ [⟨0, ⟨358.4, 300⟩⟩],
         touchFrame ℝ [⟨0, ⟨358.4, 300⟩⟩, ⟨1, ⟨368.4, 300⟩⟩]])
      (touchFrame ℝ [⟨1, ⟨378.4, 300⟩⟩])).prevTouchCount = 1 ∧
    (inputStep (⟨Real.sqrt, Real.cos, Real.sin, fun y x => Complex.arg ⟨x, y⟩,
        fun x y => Real.sqrt (x * x + y * y)⟩ : Libm ℝ)
      (runFrames (⟨Real.sqrt, Real.cos, Real.sin, fun y x => Complex.arg ⟨x, y⟩,
          fun x y => Real.sqrt (x * x + y * y)⟩ : Libm ℝ)
        (initState ℝ 1024 600)
        [touchFrame ℝ [⟨0, ⟨358.4, 300⟩⟩],
         touchFrame ℝ [⟨0, ⟨358.4, 300⟩⟩, ⟨1, ⟨368.4, 300⟩⟩]])
      (touchFrame ℝ [⟨1, ⟨378.4, 300⟩⟩])).pinchSquare = -1 ∧
    (inputStep (⟨Real.sqrt, Real.cos, Real.sin, fun y x => Complex.arg ⟨x, y⟩,
        fun x y => Real.sqrt (x * x + y * y)⟩ : Libm ℝ)
      (runFrames (⟨Real.sqrt, Real.cos, Real.sin, fun y x => Complex.arg ⟨x, y⟩,
          fun x y => Real.sqrt (x * x + y * y)⟩ : Libm ℝ)
        (initState ℝ 1024 600)
        [touchFrame ℝ [⟨0, ⟨358.4, 300⟩⟩],
         touchFrame ℝ [⟨0, ⟨358.4, 300⟩⟩, ⟨1, ⟨368.4, 300⟩⟩]])
      (touchFrame ℝ [⟨1, ⟨378.4, 300⟩⟩])).squares
      = [⟨368.4, 300, 40, 0⟩, ⟨665.6, 300, 40, 0⟩, ⟨512, 300, 40, 0⟩] := by
  rw [c6_reach]
  refine ⟨rfl, ?_, ?_, ?_, ?_⟩
  · simp only [initState, SQUARE_SIZE_DEFAULT]
    norm_num
  all_goals
    simp only [inputStep, touchFrame, idleFrame, initState, touchBranch, UpdateTrackedTouches,
      FindTouchById, fillTrackedTouches, effectiveCount, touchCancelPinch, touchRebase,
      touchGesture, touchSingle, touchPress, touchDrag, touchTapOut, TopSquareAt, NUM_SQUARES,
      PlayTapInForSide, logIdx, readSq, updSq,
      SQUARE_SIZE_DEFAULT, TOUCH_DELTA_DEADZONE, List.getD_cons_zero, List.getD_cons_succ]
    norm_num [abs_le, lt_abs]

theorem touchSingle_no_retarget (m : Libm K) (s : MainState K) (prev0 prev1 : TrackedTouch K)
    (hprev : s.prevTouchCount ≠ 0) :
    (touchSingle m s prev0 prev1).pinchSquare = -1 ∧
    (touchSingle m s prev0 prev1).pinchActive = false ∧
    (s.dragTouchSquare = -1 → (touchSingle m s prev0 prev1).squares = s.squares) := by
  simp only [touchSingle, touchPress, if_neg hprev]
  refine ⟨trivial, trivial, ?_⟩
  intro hd
  simp [touchDrag, hd]

theorem touch_two_to_one_tail [FloorRing K] (m : Libm K) (s : MainState K) (q0 q1 : TrackedTouch K)
    (hprev : 2 ≤ s.prevTouchCount) :
    (touchTapOut (touchGesture m (touchCancelPinch s 1) 1 q0 q1) 1).pinchSquare = -1 ∧
    (touchTapOut (touchGesture m (touchCancelPinch s 1) 1 q0 q1) 1).pinchActive = false ∧
    (s.dragTouchSquare = -1 →
      (touchTapOut (touchGesture m (touchCancelPinch s 1) 1 q0 q1) 1).squares = s.squares) := by
  have hne : s.prevTouchCount ≠ 0 := by omega
  have e1 : touchCancelPinch s 1 = { s with pinchActive := false, pinchSquare := -1 } := by
    simp [touchCancelPinch, hprev]
  have e2 : ∀ t : MainState K, touchTapOut t 1 = t := by
    intro t
    simp [touchTapOut]
  have e3 : ∀ t : MainState K, touchGesture m t 1 q0 q1 = touchSingle m t q0 q1 := by
    intro t
    simp [touchGesture]
  rw [e2, e3, e1]
  exact touchSingle_no_retarget m _ q0 q1 hne

/-- C6 (amended): on a touch frame for which the previous frame tracked two touches
(`prevTouchCount ≥ 2`) and the current frame tracks exactly one, the input code
cancels the pinch (`pinchSquare = -1`, `pinchActive = 0`) and, if no one-finger drag
target is left from before the pinch (`dragTouchSquare = -1`, as when both fingers
landed in the same frame), it changes no square. With `dragTouchSquare ≠ -1` the
remaining finger goes on dragging that square. -/
theorem two_to_one_touch_cancels_pinch [FloorRing K] (m : Libm K) (s : MainState K)
    (f : Frame K) (htouch : (f.touches.length : Int) ≠ 0) (hprev : 2 ≤ s.prevTouchCount)
    (hec : effectiveCount (UpdateTrackedTouches f.touches s.t0 s.t1).1
      (UpdateTrackedTouches f.touches s.t0 s.t1).2 = 1) :
    (inputStep m s f).pinchSquare = -1 ∧ (inputStep m s f).pinchActive = false ∧
    (s.dragTouchSquare = -1 → (inputStep m s f).squares = s.squares) := by
  simp only [inputStep, if_neg htouch, touchBranch, hec]
  exact touch_two_to_one_tail m
    { s with t0 := (UpdateTrackedTouches f.touches s.t0 s.t1).1,
             t1 := (UpdateTrackedTouches f.touches s.t0 s.t1).2, taps := [], used := [] }
    _ _ hprev

/-- Witness for C6 (amended): both fingers are tracked (ids 0 and 1) on a pinch
without drag target, and the frame reports finger 1 only. -/
theorem two_to_one_touch_cancels_pinch_witness :
    ((touchFrame ℚ [⟨1, ⟨378, 300⟩⟩]).touches.length : Int) ≠ 0 ∧
    (2 : Int) ≤ ({ initState ℚ 1024 600 with
        t0 := ⟨0, ⟨358, 300⟩⟩, t1 := ⟨1, ⟨368, 300⟩⟩, prevTouchCount := 2,
        pinchSquare := 0, pinchActive := true } : MainState ℚ).prevTouchCount ∧
    (inputStep (⟨fun x => x, fun _ => 1, fun _ => 0, fun _ _ => 0, fun x _ => x⟩ : Libm ℚ)
      { initState ℚ 1024 600 with
        t0 := ⟨0, ⟨358, 300⟩⟩, t1 := ⟨1, ⟨368, 300⟩⟩, prevTouchCount := 2,
        pinchSquare := 0, pinchActive := true }
      (touchFrame ℚ [⟨1, ⟨378, 300⟩⟩])).pinchSquare = -1 :=
  ⟨by decide, by decide,
   (two_to_one_touch_cancels_pinch _ _ (touchFrame ℚ [⟨1, ⟨378, 300⟩⟩]) (by decide)
     (by decide) (by decide)).1⟩

/-! ### C7: gesture targets -/

theorem updSq_getElem?_ne (sqs : List (Square K)) (i : Int) (f : Square K → Square K)
    (j : Nat) (h : (j : Int) ≠ i) : (updSq sqs i f)[j]? = sqs[j]? := by
  simp only [updSq]
  split_ifs with hi
  · apply List.getElem?_set_ne
    intro e
    apply h
    rw [← e]
    exact (Int.toNat_of_nonneg hi)
  · rfl

theorem touchDrag_edits_target (s : MainState K) (a prev0 prev1 : TrackedTouch K)
    (j : Nat) (h : (j : Int) ≠ s.dragTouchSquare) :
    (touchDrag s a prev0 prev1).squares[j]? = s.squares[j]? ∧
    (touchDrag s a prev0 prev1).dragTouchSquare = s.dragTouchSquare := by
  simp only [touchDrag]
  split_ifs
  all_goals first
    | exact ⟨rfl, rfl⟩
    | (refine ⟨?_, rfl⟩; dsimp only; exact updSq_getElem?_ne _ _ _ j h)

theorem touchSingle_edits_target (m : Libm K) (s : MainState K) (prev0 prev1 : TrackedTouch K)
    (j : Nat)
    (h : (j : Int) ≠ (touchPress m s (if s.t0.id ≠ -1 then s.t0 else s.t1)).dragTouchSquare) :
    (touchSingle m s prev0 prev1).squares[j]? = s.squares[j]? := by
  simp only [touchSingle]
  rw [(touchDrag_edits_target _ _ prev0 prev1 j h).1, touchPress_squares]

theorem pinchTranslate_edits_target (s : MainState K) (prev0 prev1 : TrackedTouch K)
    (j : Nat) (h : (j : Int) ≠ s.pinchSquare) :
    (pinchTranslate s prev0 prev1).squares[j]? = s.squares[j]? ∧
    (pinchTranslate s prev0 prev1).pinchSquare = s.pinchSquare := by
  simp only [pinchTranslate]
  split_ifs
  all_goals first
    | exact ⟨rfl, rfl⟩
    | (refine ⟨?_, rfl⟩; dsimp only; exact updSq_getElem?_ne _ _ _ j h)

theorem pinchScale_edits_target (s : MainState K) (currDist : K)
    (j : Nat) (h : (j : Int) ≠ s.pinchSquare) :
    (pinchScale s currDist).squares[j]? = s.squares[j]? ∧
    (pinchScale s currDist).pinchSquare = s.pinchSquare := by
  simp only [pinchScale]
  split_ifs
  all_goals first
    | exact ⟨rfl, rfl⟩
    | (refine ⟨?_, rfl⟩; dsimp only; exact updSq_getElem?_ne _ _ _ j h)

theorem pinchRotate_edits_target [FloorRing K] (s : MainState K) (currAngDeg : K)
    (j : Nat) (h : (j : Int) ≠ s.pinchSquare) :
    (pinchRotate s currAngDeg).squares[j]? = s.squares[j]? := by
  simp only [pinchRotate]
  exact updSq_getElem?_ne _ _ _ j h

theorem pinchUpdate_edits_target [FloorRing K] (m : Libm K) (s : MainState K)
    (prev0 prev1 : TrackedTouch K) (j : Nat) (h : (j : Int) ≠ s.pinchSquare) :
    (pinchUpdate m s prev0 prev1).squares[j]? = s.squares[j]? := by
  obtain ⟨ht, hp⟩ := pinchTranslate_edits_target (logIdx s s.pinchSquare) prev0 prev1 j h
  have ht2 : (pinchTranslate (logIdx s s.pinchSquare) prev0 prev1).squares[j]? = s.squares[j]? :=
    ht
  simp only [pinchUpdate]
  split_ifs
  · exact ht2
  · obtain ⟨hs, hps⟩ := pinchScale_edits_target
      (pinchTranslate (logIdx s s.pinchSquare) prev0 prev1)
      (m.sqrtf
        (((pinchTranslate (logIdx s s.pinchSquare) prev0 prev1).t1.pos.x
            - (pinchTranslate (logIdx s s.pinchSquare) prev0 prev1).t0.pos.x)
          * ((pinchTranslate (logIdx s s.pinchSquare) prev0 prev1).t1.pos.x
            - (pinchTranslate (logIdx s s.pinchSquare) prev0 prev1).t0.pos.x)
        + ((pinchTranslate (logIdx s s.pinchSquare) prev0 prev1).t1.pos.y
            - (pinchTranslate (logIdx s s.pinchSquare) prev0 prev1).t0.pos.y)
          * ((pinchTranslate (logIdx s s.pinchSquare) prev0 prev1).t1.pos.y
            - (pinchTranslate (logIdx s s.pinchSquare) prev0 prev1).t0.pos.y)))
      j (by rw [hp]; exact h)
    rw [pinchRotate_edits_target _ _ j (by rw [hps, hp]; exact h), hs]
    exact ht2
  · exact ht2
  · rfl

theorem touchGesture_edits_one [FloorRing K] (m : Libm K) (s : MainState K) (ec : Int)
    (prev0 prev1 : TrackedTouch K) :
    ∃ i : Int, ∀ j : Nat, (j : Int) ≠ i →
      (touchGesture m s ec prev0 prev1).squares[j]? = s.squares[j]? := by
  simp only [touchGesture]
  split_ifs
  · exact ⟨_, fun j hj => touchSingle_edits_target m s prev0 prev1 j hj⟩
  · refine ⟨(pinchStart m s).pinchSquare, fun j hj => ?_⟩
    rw [pinchUpdate_edits_target m _ prev0 prev1 j hj, pinchStart_squares]
  · exact ⟨0, fun j _ => rfl⟩

theorem touch_core_edits_one [FloorRing K] (m : Libm K) (s : MainState K) (ec : Int)
    (q0 q1 : TrackedTouch K) :
    ∃ i : Int, ∀ j : Nat, (j : Int) ≠ i →
      (touchTapOut (touchGesture m (touchCancelPinch s ec) ec q0 q1) ec).squares[j]?
        = s.squares[j]? := by
  obtain ⟨i, hi⟩ := touchGesture_edits_one m (touchCancelPinch s ec) ec q0 q1
  refine ⟨i, fun j hj => ?_⟩
  rw [touchTapOut_squares, hi j hj, touchCancelPinch_squares]

/-- C7 (amended): the four gesture targets are tracked independently and may name
different squares. What holds: a frame without touch points (mouse branch) leaves
`dragTouchSquare = -1` and `pinchSquare = -1`, and on a frame with touch points the
input code edits at most one square: there is an index such that every other entry
of `squares[]` is the same before and after the input code. -/
theorem touch_frame_edits_one_square [FloorRing K] (m : Libm K) (s : MainState K)
    (f : Frame K) :
    ((f.touches.length : Int) = 0 →
      (inputStep m s f).dragTouchSquare = -1 ∧ (inputStep m s f).pinchSquare = -1) ∧
    ((f.touches.length : Int) ≠ 0 →
      ∃ i : Int, ∀ j : Nat, (j : Int) ≠ i →
        (inputStep m s f).squares[j]? = s.squares[j]?) := by
  constructor
  · intro h0
    simp only [inputStep, if_pos h0, mouseBranch, resetTouchState]
    exact ⟨trivial, trivial⟩
  · intro hne
    simp only [inputStep, if_neg hne, touchBranch]
    exact touch_core_edits_one m
      { s with t0 := (UpdateTrackedTouches f.touches s.t0 s.t1).1,
               t1 := (UpdateTrackedTouches f.touches s.t0 s.t1).2, taps := [], used := [] }
      _ _ _

theorem toNat_two : Int.toNat 2 = 2 := rfl

theorem toNat_one : Int.toNat 1 = 1 := rfl

/-- Witness for C7 (amended): one touch (id 0) at (10, 10) from the initial state. -/
theorem touch_frame_edits_one_square_witness :
    ((touchFrame ℚ [⟨0, ⟨10, 10⟩⟩]).touches.length : Int) ≠ 0 ∧
    ∃ i : Int, ∀ j : Nat, (j : Int) ≠ i →
      (inputStep (⟨fun x => x, fun _ => 1, fun _ => 0, fun _ _ => 0, fun x _ => x⟩ : Libm ℚ)
        (initState ℚ 1024 600) (touchFrame ℚ [⟨0, ⟨10, 10⟩⟩])).squares[j]?
        = (initState ℚ 1024 600).squares[j]? :=
  ⟨by decide,
   (touch_frame_edits_one_square _ (initState ℚ 1024 600) (touchFrame ℚ [⟨0, ⟨10, 10⟩⟩])).2
     (by decide)⟩

theorem c7_after_left_press :
    frameStep (⟨Real.sqrt, Real.cos, Real.sin, fun y x => Complex.arg ⟨x, y⟩,
        fun x y => Real.sqrt (x * x + y * y)⟩ : Libm ℝ)
      (initState ℝ 1024 600) (mouseFrame ℝ ⟨358.4, 300⟩ ⟨0, 0⟩ true true false false)
    = { initState ℝ 1024 600 with
        dragMouseSquare := 0, taps := [Tap.tapIn 80], used := [0] } := by
  simp only [frameStep, inputStep, mouseFrame, idleFrame, initState, mouseBranch,
    mouseLeftPress, mouseLeftRelease, mouseLeftDrag, mouseRightPress, mouseRightRelease,
    mouseRightDrag, mouseWheel, resetTouchState, TopSquareAt, NUM_SQUARES,
    PlayTapInForSide, logIdx, readSq, updSq, ClampSquares, clampSquare, List.map,
    SQUARE_SIZE_DEFAULT, TOUCH_DELTA_DEADZONE, List.getD_cons_zero, List.getD_cons_succ]
  norm_num [pointIn_angle_zero _ realLibm_exact, abs_le, lt_abs, toNat_two]

theorem c7_after_right_press :
    frameStep (⟨Real.sqrt, Real.cos, Real.sin, fun y x => Complex.arg ⟨x, y⟩,
        fun x y => Real.sqrt (x * x + y * y)⟩ : Libm ℝ)
      { initState ℝ 1024 600 with
        dragMouseSquare := 0, taps := [Tap.tapIn 80], used := [0] }
      (mouseFrame ℝ ⟨512, 300⟩ ⟨153.6, 0⟩ false true true true)
    = { initState ℝ 1024 600 with
        squares := [⟨512, 300, 40, 0⟩, ⟨665.6, 300, 40, 0⟩, ⟨512, 300, 40, 53.76⟩],
        dragMouseSquare := 0, rotateMouseSquare := 2,
        taps := [Tap.tapIn 80], used := [0, 2, 2] } := by
  simp only [frameStep, inputStep, mouseFrame, idleFrame, initState, mouseBranch,
    mouseLeftPress, mouseLeftRelease, mouseLeftDrag, mouseRightPress, mouseRightRelease,
    mouseRightDrag, mouseWheel, resetTouchState, TopSquareAt, NUM_SQUARES,
    PlayTapInForSide, logIdx, readSq, updSq, ClampSquares, clampSquare, List.map,
    SQUARE_SIZE_DEFAULT, TOUCH_DELTA_DEADZONE, List.getD_cons_zero, List.getD_cons_succ]
  norm_num [pointIn_angle_zero _ realLibm_exact, abs_le, lt_abs, toNat_two]

theorem c7_reach :
    runFrames (⟨Real.sqrt, Real.cos, Real.sin, fun y x => Complex.arg ⟨x, y⟩,
        fun x y => Real.sqrt (x * x + y * y)⟩ : Libm ℝ)
      (initState ℝ 1024 600)
      [mouseFrame ℝ ⟨358.4, 300⟩ ⟨0, 0⟩ true true false false,
       mouseFrame ℝ ⟨512, 300⟩ ⟨153.6, 0⟩ false true true true]
    = { initState ℝ 1024 600 with
        squares := [⟨512, 300, 40, 0⟩, ⟨665.6, 300, 40, 0⟩, ⟨512, 300, 40, 53.76⟩],
        dragMouseSquare := 0, rotateMouseSquare := 2,
        taps := [Tap.tapIn 80], used := [0, 2, 2] } := by
  simp only [runFrames, List.foldl]
  rw [c7_after_left_press, c7_after_right_press]

/-- Counterexample to C7 as stated: in a 1024 × 600 window the left button is pressed
on square 0 (358.4, 300), the mouse is moved by 153.6 px to (512, 300), dragging
square 0 onto square 2, and the right button is pressed there. The state reached has
`dragMouseSquare = 0` and `rotateMouseSquare = 2`: two different squares are targets.
With both buttons held and the mouse moved by 10 px, the input code of the next frame
edits both: square 0 moves from x = 512 to x = 522 and square 2 turns from 53.76° to
57.26°. -/
theorem two_squares_targeted_at_once :
    (runFrames (⟨Real.sqrt, Real.cos, Real.sin, fun y x => Complex.arg ⟨x, y⟩,
        fun x y => Real.sqrt (x * x + y * y)⟩ : Libm ℝ)
      (initState ℝ 1024 600)
      [mouseFrame ℝ ⟨358.4, 300⟩ ⟨0, 0⟩ true true false false,
       mouseFrame ℝ ⟨512, 300⟩ ⟨153.6, 0⟩ false true true true]).dragMouseSquare = 0 ∧
    (runFrames (⟨Real.sqrt, Real.cos, Real.sin, fun y x => Complex.arg ⟨x, y⟩,
        fun x y => Real.sqrt (x * x + y * y)⟩ : Libm ℝ)
      (initState ℝ 1024 600)
      [mouseFrame ℝ ⟨358.4, 300⟩ ⟨0, 0⟩ true true false false,
       mouseFrame ℝ ⟨512, 300⟩ ⟨153.6, 0⟩ false true true true]).rotateMouseSquare = 2 ∧
    (runFrames (⟨Real.sqrt, Real.cos, Real.sin, fun y x => Complex.arg ⟨x, y⟩,
        fun x y => Real.sqrt (x * x + y * y)⟩ : Libm ℝ)
      (initState ℝ 1024 600)
      [mouseFrame ℝ ⟨358.4, 300⟩ ⟨0, 0⟩ true true false false,
       mouseFrame ℝ ⟨512, 300⟩ ⟨153.6, 0⟩ false true true true]).squares
      = [⟨512, 300, 40, 0⟩, ⟨665.6, 300, 40, 0⟩, ⟨512, 300, 40, 53.76⟩] ∧
    (inputStep (⟨Real.sqrt, Real.cos, Real.sin, fun y x => Complex.arg ⟨x, y⟩,
        fun x y => Real.sqrt (x * x + y * y)⟩ : Libm ℝ)
      (runFrames (⟨Real.sqrt, Real.cos, Real.sin, fun y x => Complex.arg ⟨x, y⟩,
          fun x y => Real.sqrt (x * x + y * y)⟩ : Libm ℝ)
        (initState ℝ 1024 600)
        [mouseFrame ℝ ⟨358.4, 300⟩ ⟨0, 0⟩ true true false false,
         mouseFrame ℝ ⟨512, 300⟩ ⟨153.6, 0⟩ false true true true])
      (mouseFrame ℝ ⟨522, 300⟩ ⟨10, 0⟩ false true false true)).squares
      = [⟨522, 300, 40, 0⟩, ⟨665.6, 300, 40, 0⟩, ⟨512, 300, 40, 57.26⟩] := by
  rw [c7_reach]
  refine ⟨rfl, rfl, rfl, ?_⟩
  simp only [inputStep, mouseFrame, idleFrame, initState, mouseBranch,
    mouseLeftPress, mouseLeftRelease, mouseLeftDrag, mouseRightPress, mouseRightRelease,
    mouseRightDrag, mouseWheel, resetTouchState, logIdx, readSq, updSq,
    SQUARE_SIZE_DEFAULT, TOUCH_DELTA_DEADZONE, List.getD_cons_zero, List.getD_cons_succ]
  norm_num [abs_le, lt_abs, toNat_two]

/-- Witness for C9: the initial state in a 1024 × 600 window and a frame with a mouse
wheel movement of 1000 notches. -/
theorem half_extent_stays_in_range_witness :
    (∀ q ∈ (initState ℚ 1024 600).squares,
      SQUARE_MIN_SIDE ℚ / 2 ≤ q.half ∧ q.half ≤ SQUARE_MAX_SIDE ℚ / 2) ∧
    (∀ q ∈ (inputStep (⟨fun x => x, fun _ => 1, fun _ => 0, fun _ _ => 0, fun x _ => x⟩ : Libm ℚ)
        (initState ℚ 1024 600) { idleFrame ℚ with wheel := 1000 }).squares,
      SQUARE_MIN_SIDE ℚ / 2 ≤ q.half ∧ q.half ≤ SQUARE_MAX_SIDE ℚ / 2) :=
  ⟨initState_half 1024 600,
   (half_extent_stays_in_range _ 1024 600).2.2.1 (initState ℚ 1024 600)
     { idleFrame ℚ with wheel := 1000 } (initState_half 1024 600)⟩

/-! ### C4: the bounce scenario -/

theorem exact_sqrt_eq (m : Libm K) (hm : m.Exact) (x y : K) (hy : 0 ≤ y) (h : y * y = x) :
    m.sqrtf x = y := by
  have h1 := hm.sqrt_nonneg x
  have h2 := hm.sqrt_mul_self x (by rw [← h]; exact mul_self_nonneg y)
  rw [← h] at h1 h2 ⊢
  exact (mul_self_inj h1 hy).mp h2

theorem c4_contact (m : Libm K) (hm : m.Exact) (dt : K) (h0 : 0 ≤ dt) (h1 : dt ≤ 0.1) :
    ResolveContact m ⟨100, 100, 50, 0⟩ 10 ⟨100, 40 + 10 * dt⟩ ⟨0, 10⟩
      = ⟨(10 - 10 * dt) * (10 - 10 * dt), 10 - 10 * dt, ⟨0, -1⟩, ⟨0, -1⟩, 10 * dt + 0.5⟩ := by
  have h1' : dt ≤ 1 / 10 := by norm_num at h1; linarith
  have hs : m.sqrtf ((40 + 10 * dt - 100 - -50) * (40 + 10 * dt - 100 - -50))
      = 10 - 10 * dt :=
    exact_sqrt_eq m hm _ _ (by linarith) (by ring)
  have hlt : 40 + 10 * dt - 100 < -50 := by linarith
  have hpos : (40 + 10 * dt - 100 - -50) * (40 + 10 * dt - 100 - -50) > 0 := by
    have : 40 + 10 * dt - 100 - -50 < 0 := by linarith
    exact mul_pos_of_neg_of_neg this this
  have hne : (10 : K) - 10 * dt ≠ 0 := by
    intro h; linarith
  have hA : ¬ ((0 : K) < -50) := by norm_num
  have hB : ¬ ((0 : K) > 50) := by norm_num
  have hfar : (10 : K) - 10 * dt > 1e-6 := by
    have : (1e-6 : K) < 9 := by norm_num
    linarith
  have hpen : ¬ (10 - (10 - 10 * dt) + (0.50 : K) < 0) := by
    have : (0 : K) < 0.50 := by norm_num
    intro h; linarith
  have hy : (40 + 10 * dt - 100 - -50) / (10 - 10 * dt) = -1 := by
    rw [div_eq_iff hne]; ring
  simp only [ResolveContact, InvRotateCS, RotateCS, ClosestPointOnSquare, zero_mul,
    hm.cos_zero, hm.sin_zero, SEP_BIAS, one_mul, sub_self, add_zero, zero_add, neg_zero,
    mul_zero, if_pos hlt, if_neg hA, if_neg hB, sub_zero, if_pos hpos, hs, if_pos hfar,
    zero_div, if_neg hpen, hy, Contact.mk.injEq, Vector2.mk.injEq]
  refine ⟨by ring, trivial, trivial, trivial, ?_⟩
  norm_num

theorem c4_substeps [FloorRing K] (m : Libm K) (hm : m.Exact) (tf : Int) (col : Color)
    (dt : K) (h0 : 0 ≤ dt) (h1 : dt ≤ 0.1) :
    substepCount m (⟨100, 40, 0, 10, 10, tf, col⟩ : Ball K) dt = 1 := by
  have h1' : dt ≤ 1 / 10 := by norm_num at h1; linarith
  have hs : m.hypotf 0 10 = 10 := by
    rw [hm.hypot_eq]
    exact exact_sqrt_eq m hm _ _ (by norm_num) (by norm_num)
  have hmax : max ((10 : K) * 2) 2 = 20 := by norm_num
  have hfl : truncInt (10 * dt / 20) = 0 := by
    have hnn : (0 : K) ≤ 10 * dt / 20 := by positivity
    simp only [truncInt, if_pos hnn]
    rw [Int.floor_eq_iff]
    constructor
    · simpa using hnn
    · have : 10 * dt / 20 = dt / 2 := by ring
      rw [this]
      norm_num
      linarith
  simp only [substepCount, hs, hmax, hfl, MAX_SUBSTEPS]
  norm_num

/-- C4: with a single square at (100, 100), half = 50, angle = 0, and a ball at
(100, 40) of radius 10 moving with velocity (0, 10), in a 1024 × 600 window and for
every frame time `0 ≤ dt ≤ 0.1`, the sub-steps of one frame leave the ball at
(100, 39.49875) with velocity (0, -10): the y-velocity has flipped sign and the centre
lies at y ≤ 40. The centre is then inside no square, so the per-ball step does not
respawn the ball; it only resets `trappedFrames`. -/
theorem scenario_ball_bounces_off_square [FloorRing K] (m : Libm K) (hm : m.Exact)
    (rnd : Rng) (k : Nat) (tf : Int) (col : Color) (dt : K) (h0 : 0 ≤ dt) (h1 : dt ≤ 0.1) :
    advanceBall m [⟨100, 100, 50, 0⟩] 1024 600 dt ⟨100, 40, 0, 10, 10, tf, col⟩
      = ⟨100, 39.49875, 0, -10, 10, tf, col⟩ ∧
    ((-10 : K) < 0 ∧ (39.49875 : K) ≤ 40) ∧
    CenterInsideAnySquare m [⟨100, 100, 50, 0⟩] 100 39.49875 = false ∧
    SimulateBall m rnd k [⟨100, 100, 50, 0⟩] 1024 600 dt ⟨100, 40, 0, 10, 10, tf, col⟩
      = ⟨100, 39.49875, 0, -10, 10, 0, col⟩ := by
  have hadv : advanceBall m [⟨100, 100, 50, 0⟩] 1024 600 dt ⟨100, 40, 0, 10, 10, tf, col⟩
      = ⟨100, 39.49875, 0, -10, 10, tf, col⟩ := by
    have h1' : dt ≤ 1 / 10 := by norm_num at h1; linarith
    have hc := c4_contact m hm dt h0 h1
    have hhit : (ResolveContact m ⟨100, 100, 50, 0⟩ 10 ⟨100, 40 + 10 * dt⟩ ⟨0, 10⟩).dist2
        ≤ 10 * 10 := by
      rw [hc]
      show (10 - 10 * dt) * (10 - 10 * dt) ≤ 10 * 10
      nlinarith
    have hres := resolve_hit m ⟨100, 100, 50, 0⟩ 10 ⟨100, 40 + 10 * dt⟩ ⟨0, 10⟩ hhit
    rw [hc] at hres
    simp only [advanceBall, c4_substeps m hm tf col dt h0 h1]
    have e1 : (1 : Int).toNat = 1 := rfl
    simp only [e1, simSubsteps, simSubstep, Int.cast_one, div_one, zero_mul, add_zero]
    have hb : bounceWindow (⟨100, 40 + 10 * dt, 0, 10, 10, tf, col⟩ : Ball K) 1024 600
        = ⟨100, 40 + 10 * dt, 0, 10, 10, tf, col⟩ := by
      simp only [bounceWindow]
      have c1 : ¬ ((100 : K) - 10 < 0) := by norm_num
      have c2 : ¬ ((100 : K) + 10 > ((1024 : Int) : K)) := by norm_num
      have c3 : ¬ (40 + 10 * dt - 10 < 0) := by intro h; linarith
      have c4 : ¬ (40 + 10 * dt + 10 > ((600 : Int) : K)) := by
        intro h
        have : ((600 : Int) : K) = 600 := by norm_num
        rw [this] at h
        linarith
      simp only [if_neg c1, if_neg c2, if_neg c3, if_neg c4]
    rw [hb]
    have hbroad : ((100 : K) - 100) * (100 - 100) + (40 + 10 * dt - 100) * (40 + 10 * dt - 100)
        ≤ (50 * 1.41421356237 + 10) * (50 * 1.41421356237 + 10) := by
      have : (6400 : K) ≤ (50 * 1.41421356237 + 10) * (50 * 1.41421356237 + 10) := by norm_num
      nlinarith
    simp only [collideSquares, List.foldl, if_pos hbroad, hres]
    simp only [Reflect, Ball.mk.injEq]
    norm_num
    ring
  have hin : CenterInsideAnySquare m [⟨100, 100, 50, 0⟩] 100 39.49875 = false := by
    simp only [CenterInsideAnySquare, CenterInsideSquare, List.any, pointIn_angle_zero m hm]
    norm_num [abs_le]
  refine ⟨hadv, ⟨by norm_num, by norm_num⟩, hin, ?_⟩
  simp only [SimulateBall, hadv, hin]
  simp

/-- Witness for C4: the real-number libm and a frame time of 0.05 s. -/
theorem scenario_ball_bounces_off_square_witness :
    Libm.Exact (⟨Real.sqrt, Real.cos, Real.sin, fun y x => Complex.arg ⟨x, y⟩,
        fun x y => Real.sqrt (x * x + y * y)⟩ : Libm ℝ) ∧
    (0 : ℝ) ≤ 0.05 ∧ (0.05 : ℝ) ≤ 0.1 ∧
    SimulateBall (⟨Real.sqrt, Real.cos, Real.sin, fun y x => Complex.arg ⟨x, y⟩,
        fun x y => Real.sqrt (x * x + y * y)⟩ : Libm ℝ) (fun _ lo _ => lo) 0
      [⟨100, 100, 50, 0⟩] 1024 600 0.05 ⟨100, 40, 0, 10, 10, 0, WHITE⟩
      = ⟨100, 39.49875, 0, -10, 10, 0, WHITE⟩ :=
  ⟨realLibm_exact, by norm_num, by norm_num,
   (scenario_ball_bounces_off_square _ realLibm_exact (fun _ lo _ => lo) 0 0 WHITE 0.05
     (by norm_num) (by norm_num)).2.2.2⟩

/-! ### C3: respawning a ball -/

theorem c3_push_candidate :
    pushOutsideAll (⟨Real.sqrt, Real.cos, Real.sin, fun y x => Complex.arg ⟨x, y⟩,
        fun x y => Real.sqrt (x * x + y * y)⟩ : Libm ℝ) (trapLayout ℝ) 60 ⟨964, 300⟩
      = ⟨970 - (50 * 1.41421356237 + 60 + 6), 300⟩ := by
  have h6 : Real.sqrt 36 = 6 := real_sqrt_eq 36 6 (by norm_num) (by norm_num)
  simp only [pushOutsideAll, trapLayout, List.foldl, PushOutsideSquareHull, SPAWN_MARGIN]
  norm_num [h6]

theorem c3_push_fallback :
    pushOutsideAll (⟨Real.sqrt, Real.cos, Real.sin, fun y x => Complex.arg ⟨x, y⟩,
        fun x y => Real.sqrt (x * x + y * y)⟩ : Libm ℝ) (trapLayout ℝ) 60 ⟨512, 66⟩
      = ⟨500 + (66 * 1.41421356237 + 60 + 6), 66⟩ := by
  have h12 : Real.sqrt 144 = 12 := real_sqrt_eq 144 12 (by norm_num) (by norm_num)
  simp only [pushOutsideAll, trapLayout, List.foldl, PushOutsideSquareHull, SPAWN_MARGIN]
  norm_num [h12]

theorem c3_inside (px py : ℝ) :
    CenterInsideAnySquare (⟨Real.sqrt, Real.cos, Real.sin, fun y x => Complex.arg ⟨x, y⟩,
        fun x y => Real.sqrt (x * x + y * y)⟩ : Libm ℝ) (trapLayout ℝ) px py
      = ((decide (|px - 740| ≤ 120) && decide (|py - 183| ≤ 120)) ||
         ((decide (|px - 500| ≤ 66) && decide (|py - 66| ≤ 66)) ||
          ((decide (|px - 970| ≤ 50) && decide (|py - 300| ≤ 50)) || false))) := by
  simp only [CenterInsideAnySquare, CenterInsideSquare, trapLayout, List.any,
    pointIn_angle_zero _ realLibm_exact]

theorem c3_maxHull :
    594 ≤ respawnMaxHull (⟨Real.sqrt, Real.cos, Real.sin, fun y x => Complex.arg ⟨x, y⟩,
        fun x y => Real.sqrt (x * x + y * y)⟩ : Libm ℝ) (trapLayout ℝ) 60 512 300 := by
  have h : Real.sqrt ((512 - 970) * (512 - 970) + (300 - 300) * (300 - 300)) = 458 :=
    real_sqrt_eq _ 458 (by norm_num) (by norm_num)
  simp only [respawnMaxHull, trapLayout, List.foldl, SPAWN_MARGIN, h]
  split_ifs with h1 <;> norm_num at h1 ⊢ <;> linarith

theorem c3_candidate :
    respawnCandidate (⟨Real.sqrt, Real.cos, Real.sin, fun y x => Complex.arg ⟨x, y⟩,
        fun x y => Real.sqrt (x * x + y * y)⟩ : Libm ℝ) (trapLayout ℝ) 1024 600 60 512 300 0 0
      = ⟨970 - (50 * 1.41421356237 + 60 + 6), 300⟩ := by
  have hm := c3_maxHull
  simp only [respawnCandidate]
  generalize respawnMaxHull (⟨Real.sqrt, Real.cos, Real.sin, fun y x => Complex.arg ⟨x, y⟩,
        fun x y => Real.sqrt (x * x + y * y)⟩ : Libm ℝ) (trapLayout ℝ) 60 512 300 = M at hm
  have hpos : M > 0 := by linarith
  have e : ((0 : Int) : ℝ) * (PI_F ℝ / 180) = 0 := by norm_num
  simp only [e, Real.cos_zero, Real.sin_zero, if_pos hpos, Int.cast_zero, add_zero, one_mul,
    zero_mul]
  have c1 : ¬ (512 + M < 60) := by intro h; linarith
  have c2 : 512 + M > ((1024 : Int) : ℝ) - 60 := by norm_num; linarith
  have c3 : ¬ ((300 : ℝ) < 60) := by norm_num
  have c4 : ¬ ((300 : ℝ) > ((600 : Int) : ℝ) - 60) := by norm_num
  simp only [if_neg c1, if_pos c2, if_neg c3, if_neg c4]
  have e2 : ((1024 : Int) : ℝ) - 60 = 964 := by norm_num
  rw [e2]
  exact c3_push_candidate

theorem adversarialRng_in_range (k : Nat) (lo hi : Int) (h : lo ≤ hi) :
    lo ≤ adversarialRng k lo hi ∧ adversarialRng k lo hi ≤ hi := by
  simp only [adversarialRng]
  split_ifs <;> constructor <;> omega

theorem adversarialRng_low (k : Nat) (lo hi : Int) (h3 : 3 ≤ k) (h : k < 515) :
    adversarialRng k lo hi = lo := by
  have h2 : k ≠ 2 := by omega
  simp only [adversarialRng, if_neg h2, if_pos h]

theorem c3_radial_none (tries : Nat) :
    ∀ k : Nat, 3 ≤ k → k + 2 * tries ≤ 515 →
      respawnRadialSearch (⟨Real.sqrt, Real.cos, Real.sin, fun y x => Complex.arg ⟨x, y⟩,
        fun x y => Real.sqrt (x * x + y * y)⟩ : Libm ℝ) adversarialRng (trapLayout ℝ)
        1024 600 60 512 300 tries k = none := by
  induction tries with
  | zero => intro k _ _; rfl
  | succ n ih =>
    intro k h3 hk
    simp only [respawnRadialSearch,
      adversarialRng_low k 0 359 h3 (by omega), adversarialRng_low (k + 1) 0 200 (by omega)
        (by omega), c3_candidate, c3_inside]
    have hin : ((decide (|(970 : ℝ) - (50 * 1.41421356237 + 60 + 6) - 740| ≤ 120)
          && decide (|(300 : ℝ) - 183| ≤ 120)) ||
        ((decide (|(970 : ℝ) - (50 * 1.41421356237 + 60 + 6) - 500| ≤ 66)
          && decide (|(300 : ℝ) - 66| ≤ 66)) ||
         ((decide (|(970 : ℝ) - (50 * 1.41421356237 + 60 + 6) - 970| ≤ 50)
          && decide (|(300 : ℝ) - 300| ≤ 50)) || false))) = true := by
      norm_num [abs_le]
    rw [hin]
    exact ih (k + 2) (by omega) (by omega)

theorem c3_uniform_none (tries : Nat) :
    ∀ k : Nat, 515 ≤ k → k % 2 = 1 →
      respawnUniformSearch (⟨Real.sqrt, Real.cos, Real.sin, fun y x => Complex.arg ⟨x, y⟩,
        fun x y => Real.sqrt (x * x + y * y)⟩ : Libm ℝ) adversarialRng (trapLayout ℝ)
        1024 600 tries k = none := by
  induction tries with
  | zero => intro k _ _; rfl
  | succ n ih =>
    intro k hk hodd
    have ex : adversarialRng k 1 (1024 - 1) = 740 := by
      have h2 : k ≠ 2 := by omega
      have h5 : ¬ k < 515 := by omega
      simp only [adversarialRng, if_neg h2, if_neg h5, if_pos hodd]
      decide
    have ey : adversarialRng (k + 1) 1 (600 - 1) = 183 := by
      have h2 : k + 1 ≠ 2 := by omega
      have h5 : ¬ k + 1 < 515 := by omega
      have hev : ¬ (k + 1) % 2 = 1 := by omega
      simp only [adversarialRng, if_neg h2, if_neg h5, if_neg hev]
      decide
    simp only [respawnUniformSearch, ex, ey, c3_inside]
    have hin : ((decide (|(((740 : Int) : ℝ)) - 740| ≤ 120)
          && decide (|(((183 : Int) : ℝ)) - 183| ≤ 120)) ||
        ((decide (|(((740 : Int) : ℝ)) - 500| ≤ 66) && decide (|(((183 : Int) : ℝ)) - 66| ≤ 66)) ||
         ((decide (|(((740 : Int) : ℝ)) - 970| ≤ 50)
          && decide (|(((183 : Int) : ℝ)) - 300| ≤ 50)) || false))) = true := by
      norm_num [abs_le]
    rw [hin]
    exact ih (k + 2) (by omega) (by omega)

theorem c3_radius (b : Ball ℝ) :
    (AssignBallKinematicsAndColor (⟨Real.sqrt, Real.cos, Real.sin,
        fun y x => Complex.arg ⟨x, y⟩, fun x y => Real.sqrt (x * x + y * y)⟩ : Libm ℝ)
      adversarialRng 0 b).r = 60 := by
  have e : adversarialRng (0 + 2) 0 1000 = 1000 := by decide
  simp only [AssignBallKinematicsAndColor, e, BALL_RADIUS_MIN, BALL_RADIUS_MAX]
  norm_num

theorem c3_respawn_position (b : Ball ℝ) :
    (RespawnBallOutsideAllSquares (⟨Real.sqrt, Real.cos, Real.sin,
        fun y x => Complex.arg ⟨x, y⟩, fun x y => Real.sqrt (x * x + y * y)⟩ : Libm ℝ)
      adversarialRng 0 b (trapLayout ℝ) 1024 600 512 300).x
        = 500 + (66 * 1.41421356237 + 60 + 6) ∧
    (RespawnBallOutsideAllSquares (⟨Real.sqrt, Real.cos, Real.sin,
        fun y x => Complex.arg ⟨x, y⟩, fun x y => Real.sqrt (x * x + y * y)⟩ : Libm ℝ)
      adversarialRng 0 b (trapLayout ℝ) 1024 600 512 300).y = 66 := by
  have hf : respawnFallback (⟨Real.sqrt, Real.cos, Real.sin,
        fun y x => Complex.arg ⟨x, y⟩, fun x y => Real.sqrt (x * x + y * y)⟩ : Libm ℝ)
      (trapLayout ℝ) 1024 60 = ⟨500 + (66 * 1.41421356237 + 60 + 6), 66⟩ := by
    have e : (⟨((1024 : Int) : ℝ) * 0.5, BALL_RADIUS_MAX ℝ + SPAWN_MARGIN ℝ⟩ : Vector2 ℝ)
        = ⟨512, 66⟩ := by
      norm_num [BALL_RADIUS_MAX, SPAWN_MARGIN]
    simp only [respawnFallback, e]
    exact c3_push_fallback
  simp only [RespawnBallOutsideAllSquares, c3_radius,
    c3_radial_none 256 (0 + 3) (by norm_num) (by norm_num),
    c3_uniform_none 2048 (0 + 3 + 512) (by norm_num) (by norm_num), hf]
  exact ⟨trivial, trivial⟩

/-- Counterexample to C3 as stated: a 1024 × 600 window, the three squares of
`trapLayout` (combined area 85024 < 614400), seed point (512, 300) and the random
source `adversarialRng`, every value of which lies in the requested range. All 256
radial attempts are clamped to (964, 300) and pushed by the last square to
(833.29, 300), inside the first square; all 2048 uniform attempts draw (740, 183),
the centre of the first square; the final fallback (512, 66) is pushed by the second
square to (659.34, 66), inside the first square, and is returned unchecked. -/
theorem respawn_fallback_lands_inside_square :
    (∀ (k : Nat) (lo hi : Int), lo ≤ hi →
      lo ≤ adversarialRng k lo hi ∧ adversarialRng k lo hi ≤ hi) ∧
    ((trapLayout ℝ).map (fun q => (2 * q.half) * (2 * q.half))).sum < 1024 * 600 ∧
    (RespawnBallOutsideAllSquares (⟨Real.sqrt, Real.cos, Real.sin,
        fun y x => Complex.arg ⟨x, y⟩, fun x y => Real.sqrt (x * x + y * y)⟩ : Libm ℝ)
      adversarialRng 0 ⟨0, 0, 0, 0, 0, 0, WHITE⟩ (trapLayout ℝ) 1024 600 512 300).x
        = 500 + (66 * 1.41421356237 + 60 + 6) ∧
    (RespawnBallOutsideAllSquares (⟨Real.sqrt, Real.cos, Real.sin,
        fun y x => Complex.arg ⟨x, y⟩, fun x y => Real.sqrt (x * x + y * y)⟩ : Libm ℝ)
      adversarialRng 0 ⟨0, 0, 0, 0, 0, 0, WHITE⟩ (trapLayout ℝ) 1024 600 512 300).y = 66 ∧
    CenterInsideAnySquare (⟨Real.sqrt, Real.cos, Real.sin,
        fun y x => Complex.arg ⟨x, y⟩, fun x y => Real.sqrt (x * x + y * y)⟩ : Libm ℝ)
      (trapLayout ℝ)
      (RespawnBallOutsideAllSquares (⟨Real.sqrt, Real.cos, Real.sin,
        fun y x => Complex.arg ⟨x, y⟩, fun x y => Real.sqrt (x * x + y * y)⟩ : Libm ℝ)
        adversarialRng 0 ⟨0, 0, 0, 0, 0, 0, WHITE⟩ (trapLayout ℝ) 1024 600 512 300).x
      (RespawnBallOutsideAllSquares (⟨Real.sqrt, Real.cos, Real.sin,
        fun y x => Complex.arg ⟨x, y⟩, fun x y => Real.sqrt (x * x + y * y)⟩ : Libm ℝ)
        adversarialRng 0 ⟨0, 0, 0, 0, 0, 0, WHITE⟩ (trapLayout ℝ) 1024 600 512 300).y
      = true := by
  obtain ⟨hx, hy⟩ := c3_respawn_position ⟨0, 0, 0, 0, 0, 0, WHITE⟩
  refine ⟨adversarialRng_in_range, ?_, hx, hy, ?_⟩
  · simp only [trapLayout, List.map, List.sum_cons, List.sum_nil]
    norm_num
  · rw [hx, hy, c3_inside]
    norm_num [abs_le]

theorem respawnRadialSearch_outside [FloorRing K] (m : Libm K) (rnd : Rng)
    (sqs : List (Square K)) (sw sh : Int) (r seedX seedY : K) (tries : Nat) :
    ∀ (k : Nat) (p : Vector2 K),
      respawnRadialSearch m rnd sqs sw sh r seedX seedY tries k = some p →
      CenterInsideAnySquare m sqs p.x p.y = false := by
  induction tries with
  | zero => intro k p h; simp [respawnRadialSearch] at h
  | succ n ih =>
    intro k p h
    simp only [respawnRadialSearch] at h
    split_ifs at h with hc
    · simp only [Option.some.injEq] at h
      rw [← h]
      simpa using hc
    · exact ih _ p h

theorem respawnUniformSearch_outside [FloorRing K] (m : Libm K) (rnd : Rng)
    (sqs : List (Square K)) (sw sh : Int) (tries : Nat) :
    ∀ (k : Nat) (p : Vector2 K),
      respawnUniformSearch m rnd sqs sw sh tries k = some p →
      CenterInsideAnySquare m sqs p.x p.y = false := by
  induction tries with
  | zero => intro k p h; simp [respawnUniformSearch] at h
  | succ n ih =>
    intro k p h
    simp only [respawnUniformSearch] at h
    split_ifs at h with hc
    · simp only [Option.some.injEq] at h
      rw [← h]
      simpa using hc
    · exact ih _ p h

/-- C3 (amended): `RespawnBallOutsideAllSquares` always returns, and the centre it
returns is outside every square's rotated region unless both search loops were
exhausted: either `CenterInsideAnySquare` is false at the returned position, or all
256 radial attempts and all 2048 uniform attempts were rejected and the returned
position is the final fallback point, which is pushed out of each hull in turn but not
checked. -/
theorem respawn_outside_unless_fallback [FloorRing K] (m : Libm K) (rnd : Rng) (k : Nat)
    (b : Ball K) (sqs : List (Square K)) (sw sh : Int) (seedX seedY : K) :
    CenterInsideAnySquare m sqs
        (RespawnBallOutsideAllSquares m rnd k b sqs sw sh seedX seedY).x
        (RespawnBallOutsideAllSquares m rnd k b sqs sw sh seedX seedY).y = false ∨
    (respawnRadialSearch m rnd sqs sw sh (AssignBallKinematicsAndColor m rnd k b).r
        seedX seedY 256 (k + 3) = none ∧
     respawnUniformSearch m rnd sqs sw sh 2048 (k + 3 + 512) = none ∧
     (RespawnBallOutsideAllSquares m rnd k b sqs sw sh seedX seedY).x
        = (respawnFallback m sqs sw (AssignBallKinematicsAndColor m rnd k b).r).x ∧
     (RespawnBallOutsideAllSquares m rnd k b sqs sw sh seedX seedY).y
        = (respawnFallback m sqs sw (AssignBallKinematicsAndColor m rnd k b).r).y) := by
  simp only [RespawnBallOutsideAllSquares]
  cases h1 : respawnRadialSearch m rnd sqs sw sh (AssignBallKinematicsAndColor m rnd k b).r
      seedX seedY 256 (k + 3) with
  | some p =>
    left
    exact respawnRadialSearch_outside m rnd sqs sw sh _ seedX seedY 256 _ p h1
  | none =>
    cases h2 : respawnUniformSearch m rnd sqs sw sh 2048 (k + 3 + 512) with
    | some p =>
      left
      exact respawnUniformSearch_outside m rnd sqs sw sh 2048 _ p h2
    | none =>
      right
      exact ⟨rfl, rfl, rfl, rfl⟩

/-! ### C17, C18: geometry helpers -/

/-- C17: for every point `p` and every half-extent `h > 0`, `ClosestPointOnSquare p h`
has both coordinates in `[-h, h]`, and it equals `p` if and only if `p` is already
inside the box (`|p.x| ≤ h` and `|p.y| ≤ h`). -/
theorem closest_point_in_box_and_fixes_box (p : Vector2 K) (h : K) (hh : 0 < h) :
    (-h ≤ (ClosestPointOnSquare p h).x ∧ (ClosestPointOnSquare p h).x ≤ h) ∧
    (-h ≤ (ClosestPointOnSquare p h).y ∧ (ClosestPointOnSquare p h).y ≤ h) ∧
    (ClosestPointOnSquare p h = p ↔ |p.x| ≤ h ∧ |p.y| ≤ h) := by
  obtain ⟨hx, hy⟩ := closest_in_box p h (le_of_lt hh)
  refine ⟨abs_le.mp hx, abs_le.mp hy, ?_⟩
  cases p with
  | mk px py =>
    simp only [ClosestPointOnSquare, Vector2.mk.injEq, abs_le]
    constructor
    · rintro ⟨ex, ey⟩
      refine ⟨⟨?_, ?_⟩, ⟨?_, ?_⟩⟩
      · by_contra hc
        rw [if_pos (not_le.mp hc)] at ex
        linarith [not_le.mp hc]
      · by_contra hc
        have h1 : ¬ px < -h := by intro h1; linarith [not_le.mp hc]
        rw [if_neg h1, if_pos (not_le.mp hc)] at ex
        linarith [not_le.mp hc]
      · by_contra hc
        rw [if_pos (not_le.mp hc)] at ey
        linarith [not_le.mp hc]
      · by_contra hc
        have h1 : ¬ py < -h := by intro h1; linarith [not_le.mp hc]
        rw [if_neg h1, if_pos (not_le.mp hc)] at ey
        linarith [not_le.mp hc]
    · rintro ⟨⟨h1, h2⟩, ⟨h3, h4⟩⟩
      rw [if_neg (not_lt.mpr h1), if_neg (not_lt.mpr h2), if_neg (not_lt.mpr h3),
        if_neg (not_lt.mpr h4)]
      exact ⟨rfl, rfl⟩

/-- Witness for C17: the point (7, -1) and the half-extent 5. -/
theorem closest_point_in_box_and_fixes_box_witness :
    (0 : ℚ) < 5 ∧
    (-5 ≤ (ClosestPointOnSquare (⟨7, -1⟩ : Vector2 ℚ) 5).x ∧
      (ClosestPointOnSquare (⟨7, -1⟩ : Vector2 ℚ) 5).x ≤ 5) :=
  ⟨by norm_num, (closest_point_in_box_and_fixes_box ⟨7, -1⟩ 5 (by norm_num)).1⟩

theorem RotateCS_InvRotateCS (v : Vector2 K) (c s : K) (hcs : c * c + s * s = 1) :
    RotateCS (InvRotateCS v c s) c s = v := by
  cases v with
  | mk vx vy =>
    simp only [InvRotateCS, RotateCS, Vector2.mk.injEq]
    constructor
    · linear_combination vx * hcs
    · linear_combination vy * hcs

/-- C18: `RotateCS` and `InvRotateCS` are exact inverses: for every vector `v` and
every pair `(c, s)` with `c² + s² = 1`, `InvRotateCS (RotateCS v c s) c s = v` and
`RotateCS (InvRotateCS v c s) c s = v`. -/
theorem rotate_and_inverse_rotate_are_inverses (v : Vector2 K) (c s : K)
    (hcs : c ^ 2 + s ^ 2 = 1) :
    InvRotateCS (RotateCS v c s) c s = v ∧ RotateCS (InvRotateCS v c s) c s = v := by
  have h : c * c + s * s = 1 := by rw [← hcs]; ring
  exact ⟨InvRotateCS_RotateCS v c s h, RotateCS_InvRotateCS v c s h⟩

/-- Witness for C18: the vector (2, 7) and the pair (3/5, 4/5). -/
theorem rotate_and_inverse_rotate_are_inverses_witness :
    ((3 / 5 : ℚ) ^ 2 + (4 / 5) ^ 2 = 1) ∧
    InvRotateCS (RotateCS (⟨2, 7⟩ : Vector2 ℚ) (3 / 5) (4 / 5)) (3 / 5) (4 / 5) = ⟨2, 7⟩ :=
  ⟨by norm_num, (rotate_and_inverse_rotate_are_inverses ⟨2, 7⟩ (3 / 5) (4 / 5) (by norm_num)).1⟩

/-! ### C19: gradient sampling -/

/-- C19: for a list of `count ≥ 1` stops, `GradientSample` returns exactly the first
stop for every `t ≤ 0` and exactly the last stop for every `t ≥ 1`; when the stop
count is zero or negative it returns opaque white (255, 255, 255, 255). -/
theorem gradient_sample_ends [FloorRing K] (stops : List Color) (count : Int) (t : K) :
    (count ≤ 0 → GradientSample stops count t = ⟨255, 255, 255, 255⟩) ∧
    (∀ first rest, stops = first :: rest → count = (stops.length : Int) →
      (t ≤ 0 → GradientSample stops count t = first) ∧
      (t ≥ 1 → GradientSample stops count t = (first :: rest).getLast (by simp))) := by
  constructor
  · intro hc
    simp only [GradientSample, if_pos hc, WHITE]
  · intro first rest hs hcount
    subst hs
    have hpos : ¬ (count ≤ 0) := by
      rw [hcount]
      simp only [List.length_cons]
      omega
    constructor
    · intro ht
      simp only [GradientSample, if_neg hpos, if_pos ht, List.getD_cons_zero]
      split_ifs <;> rfl
    · intro ht
      have hlast : (first :: rest).getD (count - 1).toNat WHITE
          = (first :: rest).getLast (by simp) := by
        have hidx : (count - 1).toNat = (first :: rest).length - 1 := by
          rw [hcount]
          simp only [List.length_cons]
          omega
        rw [hidx, List.getLast_eq_getElem, List.getD_eq_getElem]
      by_cases h1 : count = 1
      · simp only [GradientSample, if_neg hpos, if_pos h1]
        rw [← hlast, h1]
        rfl
      · by_cases h0 : t ≤ 0
        · exact absurd (le_trans ht h0) (by norm_num)
        · simp only [GradientSample, if_neg hpos, if_neg h1, if_neg h0, if_pos ht]
          exact hlast

/-- Witness for C19: the program's own two stops, sampled at t = 2. -/
theorem gradient_sample_ends_witness :
    GRADIENT_STOPS = ⟨255, 255, 255, 255⟩ :: [⟨30, 230, 230, 255⟩] ∧
    GRADIENT_COUNT = (GRADIENT_STOPS.length : Int) ∧ (2 : ℚ) ≥ 1 ∧
    GradientSample GRADIENT_STOPS GRADIENT_COUNT (2 : ℚ) = ⟨30, 230, 230, 255⟩ :=
  ⟨rfl, rfl, by norm_num,
   ((gradient_sample_ends GRADIENT_STOPS GRADIENT_COUNT (2 : ℚ)).2 _ _ rfl rfl).2
     (by norm_num)⟩

/-! ### C20: the topmost square under a point -/

theorem TopSquareAt_range (m : Libm K) (px py : K) (sqs : List (Square K)) (count : Nat) :
    -1 ≤ TopSquareAt m px py sqs count ∧ TopSquareAt m px py sqs count ≤ (count : Int) - 1 := by
  induction count with
  | zero => exact ⟨le_refl _, by norm_num [TopSquareAt]⟩
  | succ n ih =>
    simp only [TopSquareAt]
    split_ifs
    · exact ⟨by omega, by push_cast; omega⟩
    · exact ⟨ih.1, by push_cast; omega⟩

/-- C20: `TopSquareAt(px, py, squares, count)` is always in `[-1, count - 1]`; it is
-1 exactly when no square with index in `[0, count)` contains the point; and when it
is an index `r ≥ 0`, then `r < count`, square `r` contains the point and no square
with a higher index below `count` does: it is the highest index whose square contains
the point. -/
theorem top_square_is_highest_hit (m : Libm K) (px py : K) (sqs : List (Square K))
    (count : Nat) :
    (-1 ≤ TopSquareAt m px py sqs count ∧ TopSquareAt m px py sqs count ≤ (count : Int) - 1) ∧
    (TopSquareAt m px py sqs count = -1 ↔
      ∀ i : Nat, i < count → PointInRotatedSquare m px py (sqs.getD i default) = false) ∧
    (∀ r : Nat, TopSquareAt m px py sqs count = (r : Int) →
      r < count ∧ PointInRotatedSquare m px py (sqs.getD r default) = true ∧
      ∀ i : Nat, r < i → i < count →
        PointInRotatedSquare m px py (sqs.getD i default) = false) := by
  induction count with
  | zero =>
    simp only [TopSquareAt]
    refine ⟨⟨le_refl _, by norm_num⟩, ⟨fun _ i hi => absurd hi (Nat.not_lt_zero i), fun _ => by trivial⟩,
      ?_⟩
    intro r hr
    omega
  | succ n ih =>
    obtain ⟨⟨ih1, ih2⟩, ih3, ih4⟩ := ih
    simp only [TopSquareAt]
    by_cases hp : PointInRotatedSquare m px py (sqs.getD n default) = true
    · simp only [if_pos hp]
      refine ⟨⟨by omega, by push_cast; omega⟩, ⟨?_, ?_⟩, ?_⟩
      · intro h
        omega
      · intro h
        have := h n (Nat.lt_succ_self n)
        rw [hp] at this
        exact absurd this (by decide)
      · intro r hr
        have hrn : r = n := by omega
        subst hrn
        refine ⟨Nat.lt_succ_self _, hp, ?_⟩
        intro i h1 h2
        omega
    · simp only [if_neg hp]
      have hpf : PointInRotatedSquare m px py (sqs.getD n default) = false := by
        simpa using hp
      refine ⟨⟨ih1, by push_cast; omega⟩, ⟨?_, ?_⟩, ?_⟩
      · intro h i hi
        rcases Nat.lt_succ_iff_lt_or_eq.mp hi with hlt | heq
        · exact ih3.mp h i hlt
        · rw [heq]; exact hpf
      · intro h
        exact ih3.mpr (fun i hi => h i (Nat.lt_succ_of_lt hi))
      · intro r hr
        obtain ⟨h1, h2, h3⟩ := ih4 r hr
        refine ⟨Nat.lt_succ_of_lt h1, h2, ?_⟩
        intro i hri hi
        rcases Nat.lt_succ_iff_lt_or_eq.mp hi with hlt | heq
        · exact h3 i hri hlt
        · rw [heq]; exact hpf

/-! ### C11, C12: slot assignment of the touch tracker -/

theorem FindTouchById_of_mem (touches : List (TrackedTouch K)) (t : TrackedTouch K)
    (hnd : (touches.map (fun u => u.id)).Nodup) (ht : t ∈ touches) :
    FindTouchById touches t.id = some t.pos := by
  induction touches with
  | nil => exact absurd ht (List.not_mem_nil t)
  | cons u us ih =>
    simp only [List.map_cons, List.nodup_cons] at hnd
    simp only [FindTouchById]
    rcases List.mem_cons.mp ht with rfl | hmem
    · rw [if_pos rfl]
    · have hne : u.id ≠ t.id := by
        intro e
        exact hnd.1 (e ▸ List.mem_map_of_mem (fun u => u.id) hmem)
      rw [if_neg hne]
      exact ih hnd.2 hmem

theorem FindTouchById_isSome (touches : List (TrackedTouch K)) (id : Int) :
    (∃ pos, FindTouchById touches id = some pos) ↔ id ∈ touches.map (fun u => u.id) := by
  induction touches with
  | nil => simp [FindTouchById]
  | cons u us ih =>
    simp only [FindTouchById, List.map_cons, List.mem_cons]
    by_cases h : u.id = id
    · simp [h]
    · rw [if_neg h, ih]
      constructor
      · exact fun hm => Or.inr hm
      · rintro (e | hm)
        · exact absurd e.symm h
        · exact hm

theorem fillTrackedTouches_full (ts : List (TrackedTouch K)) (t0 t1 : TrackedTouch K)
    (h0 : t0.id ≠ -1) (h1 : t1.id ≠ -1) : fillTrackedTouches ts (t0, t1) = (t0, t1) := by
  cases ts with
  | nil => rfl
  | cons t ts =>
    simp only [fillTrackedTouches]
    rw [if_neg (by simp [h0, h1])]

theorem fillTrackedTouches_keeps_fst (ts : List (TrackedTouch K)) :
    ∀ t0 t1 : TrackedTouch K, t0.id ≠ -1 → (fillTrackedTouches ts (t0, t1)).1 = t0 := by
  induction ts with
  | nil => intro t0 t1 _; rfl
  | cons t ts ih =>
    intro t0 t1 h0
    simp only [fillTrackedTouches]
    split_ifs with h1 h2
    · exact ih t0 t1 h0
    · exact ih t0 _ h0
    · rfl

theorem fillTrackedTouches_keeps_snd (ts : List (TrackedTouch K)) :
    ∀ t0 t1 : TrackedTouch K, t1.id ≠ -1 → (fillTrackedTouches ts (t0, t1)).2 = t1 := by
  induction ts with
  | nil => intro t0 t1 _; rfl
  | cons t ts ih =>
    intro t0 t1 h1
    simp only [fillTrackedTouches]
    split_ifs with h2 h3 h4
    · exact ih t0 t1 h1
    · exact ih _ t1 h1
    · rcases h2 with e | e
      · exact absurd e h4
      · exact absurd e h1
    · rfl

/-- C11 (as the code has it): for every previous slot pair and every non-empty
current touch list, a tracked id of slot 0 that is still present stays in slot 0; a
tracked id of slot 1 that is still present stays in slot 1 when the id of slot 0 is
also still present, and otherwise moves to slot 0. -/
theorem tracked_ids_keep_or_compact_slots (touches : List (TrackedTouch K))
    (prev0 prev1 : TrackedTouch K) (hne : touches ≠ []) :
    (prev0.id ≠ -1 → prev0.id ∈ touches.map (fun u => u.id) →
      (UpdateTrackedTouches touches prev0 prev1).1.id = prev0.id) ∧
    (prev1.id ≠ -1 → prev1.id ∈ touches.map (fun u => u.id) →
      if prev0.id ≠ -1 ∧ prev0.id ∈ touches.map (fun u => u.id)
      then (UpdateTrackedTouches touches prev0 prev1).2.id = prev1.id
      else (UpdateTrackedTouches touches prev0 prev1).1.id = prev1.id) := by
  have hlen : ¬ ((touches.length : Int) ≤ 0) := by
    cases touches with
    | nil => exact absurd rfl hne
    | cons t ts => simp only [List.length_cons]; omega
  constructor
  · intro h0 hm
    obtain ⟨pos, hpos⟩ := (FindTouchById_isSome touches prev0.id).mpr hm
    simp only [UpdateTrackedTouches, if_neg hlen, hpos, ne_eq, h0, not_false_eq_true, if_true]
    by_cases h1 : prev1.id = -1
    · simp only [h1, not_true_eq_false, if_false]
      (rw [fillTrackedTouches_keeps_fst]; exact h0)
    · cases hf : FindTouchById touches prev1.id with
      | none =>
        simp only [h1, not_false_eq_true, if_true]
        (rw [fillTrackedTouches_keeps_fst]; exact h0)
      | some p =>
        simp only [h1, not_false_eq_true, if_true, if_false]
        (rw [fillTrackedTouches_keeps_fst]; exact h0)
  · intro h1 hm
    obtain ⟨pos, hpos⟩ := (FindTouchById_isSome touches prev1.id).mpr hm
    by_cases hc : prev0.id ≠ -1 ∧ prev0.id ∈ touches.map (fun u => u.id)
    · rw [if_pos hc]
      obtain ⟨p0, hp0⟩ := (FindTouchById_isSome touches prev0.id).mpr hc.2
      simp only [UpdateTrackedTouches, if_neg hlen, hpos, hp0, ne_eq, hc.1, h1,
        not_false_eq_true, if_true, if_false]
      (rw [fillTrackedTouches_keeps_snd]; exact h1)
    · rw [if_neg hc]
      by_cases h0 : prev0.id = -1
      · simp only [UpdateTrackedTouches, if_neg hlen, hpos, ne_eq, h0, h1,
          not_true_eq_false, not_false_eq_true, if_true, if_false]
        (rw [fillTrackedTouches_keeps_fst]; exact h1)
      · have hnone : FindTouchById touches prev0.id = none := by
          cases hf : FindTouchById touches prev0.id with
          | none => rfl
          | some p =>
            exact absurd ⟨h0, (FindTouchById_isSome touches prev0.id).mp ⟨p, hf⟩⟩ hc
        simp only [UpdateTrackedTouches, if_neg hlen, hpos, hnone, ne_eq, h0, h1,
          not_false_eq_true, if_true]
        (rw [fillTrackedTouches_keeps_fst]; exact h1)

/-- Witness for C11: slots hold ids 3 and 7 and both fingers are reported, in the
opposite order, together with a third finger. -/
theorem tracked_ids_keep_or_compact_slots_witness :
    ([⟨9, ⟨5, 5⟩⟩, ⟨7, ⟨1, 2⟩⟩, ⟨3, ⟨4, 6⟩⟩] : List (TrackedTouch ℚ)) ≠ [] ∧
    (UpdateTrackedTouches ([⟨9, ⟨5, 5⟩⟩, ⟨7, ⟨1, 2⟩⟩, ⟨3, ⟨4, 6⟩⟩] : List (TrackedTouch ℚ))
      ⟨3, ⟨0, 0⟩⟩ ⟨7, ⟨0, 0⟩⟩).1.id = 3 :=
  ⟨by simp,
   (tracked_ids_keep_or_compact_slots
      ([⟨9, ⟨5, 5⟩⟩, ⟨7, ⟨1, 2⟩⟩, ⟨3, ⟨4, 6⟩⟩] : List (TrackedTouch ℚ))
      ⟨3, ⟨0, 0⟩⟩ ⟨7, ⟨0, 0⟩⟩ (by simp)).1 (by decide) (by decide)⟩

/-- Counterexample to C11 as stated: slots 0 and 1 hold the distinct ids 3 and 7,
finger 3 lifts and the touch list holds finger 7 alone; after the call id 7 sits in
slot 0, not in slot 1 where it was, and slot 1 is empty. -/
theorem tracked_id_moves_to_slot_zero :
    (UpdateTrackedTouches ([⟨7, ⟨1, 2⟩⟩] : List (TrackedTouch ℚ))
      ⟨3, ⟨0, 0⟩⟩ ⟨7, ⟨0, 0⟩⟩).1.id = 7 ∧
    (UpdateTrackedTouches ([⟨7, ⟨1, 2⟩⟩] : List (TrackedTouch ℚ))
      ⟨3, ⟨0, 0⟩⟩ ⟨7, ⟨0, 0⟩⟩).2.id = -1 := by
  constructor <;> rfl

/-- C12: if both slots hold ids (other than -1) that are both present in the current
touch list, whose ids are pairwise distinct, then after `UpdateTrackedTouches` slot 0
holds its previous id with that finger's current position and slot 1 holds its
previous id with that finger's current position; hence every other touch list with
pairwise distinct ids that contains the same two touch points (in any order, with any
additional points) gives the same two slots. -/
theorem tracked_pair_is_order_independent (touches : List (TrackedTouch K))
    (prev0 prev1 ta tb : TrackedTouch K)
    (hnd : (touches.map (fun u => u.id)).Nodup) (ha : ta ∈ touches) (hb : tb ∈ touches)
    (h0 : prev0.id ≠ -1) (h1 : prev1.id ≠ -1) (hd : prev0.id ≠ prev1.id)
    (hida : ta.id = prev0.id) (hidb : tb.id = prev1.id) :
    UpdateTrackedTouches touches prev0 prev1 = (⟨prev0.id, ta.pos⟩, ⟨prev1.id, tb.pos⟩) ∧
    ∀ touches2 : List (TrackedTouch K), (touches2.map (fun u => u.id)).Nodup →
      ta ∈ touches2 → tb ∈ touches2 →
      UpdateTrackedTouches touches2 prev0 prev1 = UpdateTrackedTouches touches prev0 prev1 := by
  have key : ∀ l : List (TrackedTouch K), (l.map (fun u => u.id)).Nodup → ta ∈ l → tb ∈ l →
      UpdateTrackedTouches l prev0 prev1 = (⟨prev0.id, ta.pos⟩, ⟨prev1.id, tb.pos⟩) := by
    intro l hl hal hbl
    have hlen : ¬ ((l.length : Int) ≤ 0) := by
      cases l with
      | nil => exact absurd hal (List.not_mem_nil _)
      | cons t ts => simp only [List.length_cons]; omega
    have fa := FindTouchById_of_mem l ta hl hal
    have fb := FindTouchById_of_mem l tb hl hbl
    rw [hida] at fa
    rw [hidb] at fb
    have _ := hd
    simp only [UpdateTrackedTouches, if_neg hlen, fa, fb, ne_eq, h0, h1, not_false_eq_true,
      if_true, if_false]
    exact fillTrackedTouches_full _ _ _ h0 h1
  refine ⟨key touches hnd ha hb, ?_⟩
  intro l hl hal hbl
  rw [key l hl hal hbl, key touches hnd ha hb]

/-- Witness for C12: slots 3 and 7; the device reports a third finger first and the
two tracked fingers in the opposite order. -/
theorem tracked_pair_is_order_independent_witness :
    UpdateTrackedTouches ([⟨9, ⟨5, 5⟩⟩, ⟨7, ⟨1, 2⟩⟩, ⟨3, ⟨4, 6⟩⟩] : List (TrackedTouch ℚ))
      ⟨3, ⟨0, 0⟩⟩ ⟨7, ⟨0, 0⟩⟩ = (⟨3, ⟨4, 6⟩⟩, ⟨7, ⟨1, 2⟩⟩) :=
  (tracked_pair_is_order_independent
    ([⟨9, ⟨5, 5⟩⟩, ⟨7, ⟨1, 2⟩⟩, ⟨3, ⟨4, 6⟩⟩] : List (TrackedTouch ℚ))
    ⟨3, ⟨0, 0⟩⟩ ⟨7, ⟨0, 0⟩⟩ ⟨3, ⟨4, 6⟩⟩ ⟨7, ⟨1, 2⟩⟩
    (by decide) (by simp) (by simp) (by decide) (by decide) (by decide) rfl rfl).1

/-! ### C14: normalisation of the pinch angle delta -/

theorem wrapDown_spec : ∀ (fuel : Nat) (delta : K), delta ≤ 360 * (fuel : K) →
    wrapDown fuel delta ≤ 180 ∧ (-180 < delta → -180 < wrapDown fuel delta) ∧
    (delta ≤ 180 → wrapDown fuel delta = delta) ∧
    ∃ k : Nat, wrapDown fuel delta = delta - 360 * (k : K) := by
  intro fuel
  induction fuel with
  | zero =>
    intro delta h
    simp only [Nat.cast_zero, mul_zero] at h
    have e : wrapDown 0 delta = delta := rfl
    rw [e]
    exact ⟨by linarith, fun h => h, fun _ => rfl, 0, by simp⟩
  | succ n ih =>
    intro delta h
    simp only [wrapDown]
    by_cases hd : delta > 180
    · rw [if_pos hd]
      have hfuel : delta - 360 ≤ 360 * (n : K) := by
        push_cast at h
        linarith
      obtain ⟨h1, h2, _, k, hk⟩ := ih (delta - 360) hfuel
      refine ⟨h1, fun _ => h2 (by linarith), fun hle => absurd hd (not_lt.mpr hle), k + 1, ?_⟩
      rw [hk]
      push_cast
      ring
    · rw [if_neg hd]
      exact ⟨not_lt.mp hd, fun h => h, fun _ => rfl, 0, by simp⟩

theorem wrapUp_spec : ∀ (fuel : Nat) (delta : K), -delta ≤ 360 * (fuel : K) →
    -180 ≤ wrapUp fuel delta ∧ (delta ≤ 180 → wrapUp fuel delta ≤ 180) ∧
    (-180 ≤ delta → wrapUp fuel delta = delta) ∧
    ∃ k : Nat, wrapUp fuel delta = delta + 360 * (k : K) := by
  intro fuel
  induction fuel with
  | zero =>
    intro delta h
    simp only [Nat.cast_zero, mul_zero] at h
    have e : wrapUp 0 delta = delta := rfl
    rw [e]
    exact ⟨by linarith, fun h => h, fun _ => rfl, 0, by simp⟩
  | succ n ih =>
    intro delta h
    simp only [wrapUp]
    by_cases hd : delta < -180
    · rw [if_pos hd]
      have hfuel : -(delta + 360) ≤ 360 * (n : K) := by
        push_cast at h
        linarith
      obtain ⟨h1, h2, _, k, hk⟩ := ih (delta + 360) hfuel
      refine ⟨h1, fun _ => h2 (by linarith), fun hle => absurd hd (not_lt.mpr hle), k + 1, ?_⟩
      rw [hk]
      push_cast
      ring
    · rw [if_neg hd]
      exact ⟨not_lt.mp hd, fun h => h, fun _ => rfl, 0, by simp⟩

theorem ceil_fuel [FloorRing K] (x : K) : x ≤ 360 * ((⌈x / 360⌉₊ : Nat) : K) := by
  have h := Nat.le_ceil (x / 360)
  have h360 : (0 : K) < 360 := by norm_num
  calc x = 360 * (x / 360) := by field_simp
    _ ≤ 360 * ((⌈x / 360⌉₊ : Nat) : K) := mul_le_mul_of_nonneg_left h (le_of_lt h360)

theorem wrapDelta_spec [FloorRing K] (delta : K) :
    -180 ≤ wrapDelta delta ∧ wrapDelta delta ≤ 180 ∧
    (-180 < delta → -180 < wrapDelta delta) ∧
    (∃ n : Int, wrapDelta delta = delta + 360 * (n : K)) ∧
    (-180 ≤ delta → delta ≤ 180 → wrapDelta delta = delta) := by
  obtain ⟨d1, d2, d3, k, hk⟩ := wrapDown_spec ⌈delta / 360⌉₊ delta (ceil_fuel delta)
  obtain ⟨u1, u2, u3, j, hj⟩ := wrapUp_spec ⌈-(wrapDown ⌈delta / 360⌉₊ delta) / 360⌉₊
    (wrapDown ⌈delta / 360⌉₊ delta) (ceil_fuel _)
  simp only [wrapDelta]
  refine ⟨u1, u2 d1, ?_, ⟨(j : Int) - (k : Int), ?_⟩, ?_⟩
  · intro h
    rw [u3 (le_of_lt (d2 h))]
    exact d2 h
  · rw [hj, hk]
    push_cast
    ring
  · intro h1 h2
    rw [d3 h2] at u3 ⊢
    exact u3 h1

/-- Uniqueness of the representative: the value in (-180, 180] that differs from
`x` by an integer multiple of 360 is determined by `x`. -/
theorem wrap_unique (w x : K) (n : Int) (hw : w = x + 360 * (n : K)) (n0 : Int)
    (hlo : -180 < x + 360 * (n0 : K)) (hhi : x + 360 * (n0 : K) ≤ 180)
    (wlo : -180 < w) (whi : w ≤ 180) : w = x + 360 * (n0 : K) := by
  have h1 : ((n - n0 : Int) : K) < 1 := by
    push_cast
    linarith
  have h2 : (-1 : K) < ((n - n0 : Int) : K) := by
    push_cast
    linarith
  have h3 : n - n0 < 1 := by exact_mod_cast h1
  have h4 : -1 < n - n0 := by exact_mod_cast h2
  have h5 : n = n0 := by omega
  rw [hw, h5]

/-- C14 (as the code has it): the two loops map every raw delta to a value in the
closed interval [-180, 180] that differs from the raw delta by an integer multiple
of 360; the value is in the half-open interval (-180, 180] whenever the raw delta is
greater than -180, and -180 itself is left unchanged. -/
theorem wrap_delta_range [FloorRing K] (delta : K) :
    -180 ≤ wrapDelta delta ∧ wrapDelta delta ≤ 180 ∧
    (∃ n : Int, wrapDelta delta = delta + 360 * (n : K)) ∧
    (-180 < delta → -180 < wrapDelta delta) ∧
    wrapDelta (-180 : K) = -180 := by
  obtain ⟨h1, h2, h3, h4, _⟩ := wrapDelta_spec delta
  refine ⟨h1, h2, h4, h3, ?_⟩
  exact (wrapDelta_spec (-180 : K)).2.2.2.2 (le_refl _) (by norm_num)

/-- Counterexample to C14 as stated: the raw delta -180 (current vector angle 0,
baseline vector angle 180) is mapped to -180, which is outside (-180, 180]. -/
theorem wrap_delta_keeps_minus_180 :
    wrapDelta (-180 : ℚ) = -180 ∧ ¬ (-180 < wrapDelta (-180 : ℚ)) := by
  have h : wrapDelta (-180 : ℚ) = -180 :=
    (wrapDelta_spec (-180 : ℚ)).2.2.2.2 (le_refl _) (by norm_num)
  rw [h]
  exact ⟨rfl, lt_irrefl _⟩

/-! ### C15, C16: rotation and scale of a pinch frame -/

theorem UpdateTrackedTouches_same_pair (touches : List (TrackedTouch K))
    (prev0 prev1 ta tb : TrackedTouch K)
    (hnd : (touches.map (fun u => u.id)).Nodup) (ha : ta ∈ touches) (hb : tb ∈ touches)
    (h0 : prev0.id ≠ -1) (h1 : prev1.id ≠ -1)
    (hida : ta.id = prev0.id) (hidb : tb.id = prev1.id) :
    UpdateTrackedTouches touches prev0 prev1 = (⟨prev0.id, ta.pos⟩, ⟨prev1.id, tb.pos⟩) := by
  have hlen : ¬ ((touches.length : Int) ≤ 0) := by
    cases touches with
    | nil => exact absurd ha (List.not_mem_nil _)
    | cons t ts => simp only [List.length_cons]; omega
  have fa := FindTouchById_of_mem touches ta hnd ha
  have fb := FindTouchById_of_mem touches tb hnd hb
  rw [hida] at fa
  rw [hidb] at fb
  simp only [UpdateTrackedTouches, if_neg hlen, fa, fb, ne_eq, h0, h1, not_false_eq_true,
    if_true, if_false]
  exact fillTrackedTouches_full _ _ _ h0 h1

theorem readSq_updSq_same (sqs : List (Square K)) (i : Int) (f : Square K → Square K)
    (h0 : 0 ≤ i) (hlen : i.toNat < sqs.length) :
    readSq (updSq sqs i f) i = f (readSq sqs i) := by
  simp only [readSq, updSq, if_pos h0]
  rw [List.getD_eq_getElem _ _ (by rw [List.length_set]; exact hlen),
    List.getD_eq_getElem _ _ hlen, List.getElem_set_self]

theorem updSq_length (sqs : List (Square K)) (i : Int) (f : Square K → Square K) :
    (updSq sqs i f).length = sqs.length := by
  simp only [updSq]
  split_ifs
  · exact List.length_set _ _ _
  · rfl

theorem pinchTranslate_frame (s : MainState K) (prev0 prev1 : TrackedTouch K) :
    ∃ sqs : List (Square K), sqs.length = s.squares.length ∧
      pinchTranslate s prev0 prev1 = { s with squares := sqs } := by
  simp only [pinchTranslate]
  split_ifs
  all_goals first
    | exact ⟨_, updSq_length _ _ _, rfl⟩
    | exact ⟨s.squares, rfl, rfl⟩

theorem pinchScale_frame (s : MainState K) (currDist : K) (h0 : 0 ≤ s.pinchSquare)
    (hlen : s.pinchSquare.toNat < s.squares.length) :
    ∃ sqs : List (Square K), sqs.length = s.squares.length ∧
      pinchScale s currDist = { s with squares := sqs } ∧
      (currDist > 0 → readArr s.pinchBaseDist s.pinchSquare > 0 →
        (readSq sqs s.pinchSquare).half
          = clampSide (readArr s.pinchBaseSide s.pinchSquare
              * (currDist / readArr s.pinchBaseDist s.pinchSquare)) * 0.5) := by
  simp only [pinchScale]
  split_ifs with h
  · refine ⟨_, updSq_length _ _ _, rfl, fun _ _ => ?_⟩
    rw [readSq_updSq_same _ _ _ h0 hlen]
  · exact ⟨s.squares, rfl, rfl, fun h1 h2 => absurd ⟨h1, h2⟩ h⟩

theorem pinchUpdate_same_pair [FloorRing K] (m : Libm K) (t : MainState K)
    (prev0 prev1 : TrackedTouch K)
    (h0 : 0 ≤ t.pinchSquare) (hlen : t.pinchSquare.toNat < t.squares.length)
    (hp0 : t.t0.id = prev0.id) (hp1 : t.t1.id = prev1.id)
    (hprev : 2 ≤ t.prevTouchCount) (hact : t.pinchActive = true) :
    (readSq (pinchUpdate m t prev0 prev1).squares t.pinchSquare).angle
      = readArr t.pinchBaseAngleDeg t.pinchSquare
        + wrapDelta (m.atan2f (t.t1.pos.y - t.t0.pos.y) (t.t1.pos.x - t.t0.pos.x) * 57.2957795
            - readArr t.pinchStartVecDeg t.pinchSquare) ∧
    (m.sqrtf ((t.t1.pos.x - t.t0.pos.x) * (t.t1.pos.x - t.t0.pos.x)
        + (t.t1.pos.y - t.t0.pos.y) * (t.t1.pos.y - t.t0.pos.y)) > 0 →
      readArr t.pinchBaseDist t.pinchSquare > 0 →
      (readSq (pinchUpdate m t prev0 prev1).squares t.pinchSquare).half
        = clampSide (readArr t.pinchBaseSide t.pinchSquare
            * (m.sqrtf ((t.t1.pos.x - t.t0.pos.x) * (t.t1.pos.x - t.t0.pos.x)
                + (t.t1.pos.y - t.t0.pos.y) * (t.t1.pos.y - t.t0.pos.y))
              / readArr t.pinchBaseDist t.pinchSquare)) * 0.5) := by
  have hne : t.pinchSquare ≠ -1 := by omega
  obtain ⟨sqs, hl, he⟩ := pinchTranslate_frame (logIdx t t.pinchSquare) prev0 prev1
  have hl1 : sqs.length = t.squares.length := hl
  simp only [pinchUpdate, if_pos hne]
  rw [he]
  simp only [logIdx]
  have hc : ¬ (¬ ((t.t0.id = prev0.id ∧ t.t1.id = prev1.id)
      ∨ (t.t0.id = prev1.id ∧ t.t1.id = prev0.id)) ∨ t.prevTouchCount < 2) := by
    rintro (h | h)
    · exact h (Or.inl ⟨hp0, hp1⟩)
    · omega
  rw [if_neg hc, if_pos hact]
  obtain ⟨sqs2, hl2, he2, hh⟩ := pinchScale_frame
    ({ t with used := t.used ++ [t.pinchSquare], squares := sqs } : MainState K)
    (m.sqrtf ((t.t1.pos.x - t.t0.pos.x) * (t.t1.pos.x - t.t0.pos.x)
        + (t.t1.pos.y - t.t0.pos.y) * (t.t1.pos.y - t.t0.pos.y))) h0 (by rw [hl1]; exact hlen)
  rw [he2]
  simp only [pinchRotate]
  rw [readSq_updSq_same _ _ _ h0 (by rw [hl2, hl1]; exact hlen)]
  exact ⟨rfl, hh⟩

theorem inputStep_same_pair [FloorRing K] (m : Libm K) (s : MainState K) (f : Frame K)
    (ta tb : TrackedTouch K)
    (hnd : (f.touches.map (fun u => u.id)).Nodup) (ha : ta ∈ f.touches) (hb : tb ∈ f.touches)
    (hida : ta.id = s.t0.id) (hidb : tb.id = s.t1.id)
    (h0 : s.t0.id ≠ -1) (h1 : s.t1.id ≠ -1) (hprev : 2 ≤ s.prevTouchCount) :
    (inputStep m s f).squares
      = (pinchUpdate m { s with t0 := ⟨s.t0.id, ta.pos⟩, t1 := ⟨s.t1.id, tb.pos⟩,
                                taps := [], used := [] } s.t0 s.t1).squares := by
  have htouch : ¬ ((f.touches.length : Int) = 0) := by
    cases hf : f.touches with
    | nil => rw [hf] at ha; exact absurd ha (List.not_mem_nil _)
    | cons t ts => simp only [List.length_cons]; omega
  have hupd := UpdateTrackedTouches_same_pair f.touches s.t0 s.t1 ta tb hnd ha hb h0 h1 hida hidb
  have hec : effectiveCount (⟨s.t0.id, ta.pos⟩ : TrackedTouch K) ⟨s.t1.id, tb.pos⟩ = 2 := by
    simp [effectiveCount, h0, h1]
  have hne : ¬ (s.prevTouchCount = 0) := by omega
  have hlt : ¬ (s.prevTouchCount < 2) := by omega
  simp only [inputStep, if_neg htouch, touchBranch, hupd, hec]
  simp [touchCancelPinch, touchRebase, touchGesture, touchTapOut, pinchStart, hne, hlt]

/-- C15: on a touch frame that reports both tracked fingers (the same pair as in
the previous frame, `prevTouchCount ≥ 2`) while a pinch with captured baselines is
under way on square `pinchSquare`, the input code sets that square's angle to
`pinchBaseAngleDeg + w`, where `w` is the normalised value of
(current vector angle - `pinchStartVecDeg`); the normalised value of every raw
delta differs from it by an integer multiple of 360; and for a baseline vector angle
of 10 and a current vector angle of 200 the normalised delta is -170. -/
theorem pinch_frame_sets_angle [FloorRing K] (m : Libm K) (s : MainState K) (f : Frame K)
    (ta tb : TrackedTouch K)
    (hnd : (f.touches.map (fun u => u.id)).Nodup) (ha : ta ∈ f.touches) (hb : tb ∈ f.touches)
    (hida : ta.id = s.t0.id) (hidb : tb.id = s.t1.id)
    (h0 : s.t0.id ≠ -1) (h1 : s.t1.id ≠ -1) (hprev : 2 ≤ s.prevTouchCount)
    (hps : 0 ≤ s.pinchSquare) (hlen : s.pinchSquare.toNat < s.squares.length)
    (hact : s.pinchActive = true) :
    (readSq (inputStep m s f).squares s.pinchSquare).angle
      = readArr s.pinchBaseAngleDeg s.pinchSquare
        + wrapDelta (m.atan2f (tb.pos.y - ta.pos.y) (tb.pos.x - ta.pos.x) * 57.2957795
            - readArr s.pinchStartVecDeg s.pinchSquare) ∧
    (∀ raw : K, ∃ n : Int, wrapDelta raw = raw + 360 * (n : K)) ∧
    wrapDelta ((200 : K) - 10) = -170 := by
  refine ⟨?_, fun raw => (wrapDelta_spec raw).2.2.2.1, ?_⟩
  · rw [inputStep_same_pair m s f ta tb hnd ha hb hida hidb h0 h1 hprev]
    exact (pinchUpdate_same_pair m
      { s with t0 := ⟨s.t0.id, ta.pos⟩, t1 := ⟨s.t1.id, tb.pos⟩, taps := [], used := [] }
      s.t0 s.t1 hps hlen rfl rfl hprev hact).1
  · obtain ⟨_, whi, wlo, ⟨n, hn⟩, _⟩ := wrapDelta_spec ((200 : K) - 10)
    have h := wrap_unique (wrapDelta ((200 : K) - 10)) ((200 : K) - 10) n hn (-1)
      (by norm_num) (by norm_num) (wlo (by norm_num)) whi
    rw [h]
    norm_num

/-- Witness for C15: the pinch of `pinchExample`; the next frame reports finger 7
at (512, 400) before finger 3 at (512, 200). -/
theorem pinch_frame_sets_angle_witness :
    (readSq (inputStep (⟨fun x => x, fun _ => 1, fun _ => 0, fun _ _ => 0, fun x _ => x⟩ : Libm ℚ)
        (pinchExample ℚ)
        (touchFrame ℚ [⟨7, ⟨512, 400⟩⟩, ⟨3, ⟨512, 200⟩⟩])).squares 2).angle
      = readArr (pinchExample ℚ).pinchBaseAngleDeg 2
        + wrapDelta ((0 : ℚ) * 57.2957795 - readArr (pinchExample ℚ).pinchStartVecDeg 2) :=
  (pinch_frame_sets_angle (⟨fun x => x, fun _ => 1, fun _ => 0, fun _ _ => 0, fun x _ => x⟩ : Libm ℚ)
    (pinchExample ℚ) (touchFrame ℚ [⟨7, ⟨512, 400⟩⟩, ⟨3, ⟨512, 200⟩⟩])
    ⟨3, ⟨512, 200⟩⟩ ⟨7, ⟨512, 400⟩⟩
    (by simp [touchFrame]) (by simp [touchFrame]) (by simp [touchFrame]) rfl rfl
    (by decide) (by decide) (by decide) (by decide) (by decide) rfl).1

/-- C16: on a touch frame that reports both tracked fingers (the same pair as in
the previous frame, `prevTouchCount ≥ 2`) while a pinch with captured baselines is
under way on square `pinchSquare`, for every baseline distance > 0, baseline side
and current finger distance > 0, the input code sets that square's side (2 * half)
to `clamp(baselineSide * currentDistance / baselineDistance, SQUARE_MIN_SIDE,
SQUARE_MAX_SIDE)`; with baseline distance 100, baseline side 80 and current distance
200 this is 160. -/
theorem pinch_frame_sets_side [FloorRing K] (m : Libm K) (s : MainState K) (f : Frame K)
    (ta tb : TrackedTouch K)
    (hnd : (f.touches.map (fun u => u.id)).Nodup) (ha : ta ∈ f.touches) (hb : tb ∈ f.touches)
    (hida : ta.id = s.t0.id) (hidb : tb.id = s.t1.id)
    (h0 : s.t0.id ≠ -1) (h1 : s.t1.id ≠ -1) (hprev : 2 ≤ s.prevTouchCount)
    (hps : 0 ≤ s.pinchSquare) (hlen : s.pinchSquare.toNat < s.squares.length)
    (hact : s.pinchActive = true)
    (hcur : m.sqrtf ((tb.pos.x - ta.pos.x) * (tb.pos.x - ta.pos.x)
        + (tb.pos.y - ta.pos.y) * (tb.pos.y - ta.pos.y)) > 0)
    (hbase : readArr s.pinchBaseDist s.pinchSquare > 0) :
    2 * (readSq (inputStep m s f).squares s.pinchSquare).half
      = clampSide (readArr s.pinchBaseSide s.pinchSquare
          * m.sqrtf ((tb.pos.x - ta.pos.x) * (tb.pos.x - ta.pos.x)
              + (tb.pos.y - ta.pos.y) * (tb.pos.y - ta.pos.y))
          / readArr s.pinchBaseDist s.pinchSquare) ∧
    clampSide ((80 : K) * 200 / 100) = 160 := by
  constructor
  · rw [inputStep_same_pair m s f ta tb hnd ha hb hida hidb h0 h1 hprev]
    rw [(pinchUpdate_same_pair m
      { s with t0 := ⟨s.t0.id, ta.pos⟩, t1 := ⟨s.t1.id, tb.pos⟩, taps := [], used := [] }
      s.t0 s.t1 hps hlen rfl rfl hprev hact).2 hcur hbase]
    rw [mul_div_assoc]
    dsimp only
    ring
  · norm_num [clampSide, SQUARE_MIN_SIDE, SQUARE_MAX_SIDE]

/-- Witness for C16: the pinch of `pinchExample` (baseline distance 100, baseline
side 80); the next frame reports finger 7 at (612, 300) before finger 3 at
(412, 300), 200 px apart, and the side of square 2 becomes 160. -/
theorem pinch_frame_sets_side_witness :
    2 * (readSq (inputStep (⟨Real.sqrt, Real.cos, Real.sin, fun y x => Complex.arg ⟨x, y⟩,
          fun x y => Real.sqrt (x * x + y * y)⟩ : Libm ℝ)
        (pinchExample ℝ)
        (touchFrame ℝ [⟨7, ⟨612, 300⟩⟩, ⟨3, ⟨412, 300⟩⟩])).squares 2).half = 160 := by
  have hs : Real.sqrt (((612 : ℝ) - 412) * (612 - 412) + ((300 : ℝ) - 300) * (300 - 300)) = 200 :=
    real_sqrt_eq _ _ (by norm_num) (by norm_num)
  refine (pinch_frame_sets_side (⟨Real.sqrt, Real.cos, Real.sin,
      fun y x => Complex.arg ⟨x, y⟩, fun x y => Real.sqrt (x * x + y * y)⟩ : Libm ℝ)
    (pinchExample ℝ) (touchFrame ℝ [⟨7, ⟨612, 300⟩⟩, ⟨3, ⟨412, 300⟩⟩])
    ⟨3, ⟨412, 300⟩⟩ ⟨7, ⟨612, 300⟩⟩
    (by simp [touchFrame]) (by simp [touchFrame]) (by simp [touchFrame]) rfl rfl
    (by simp [pinchExample]) (by simp [pinchExample]) (by simp [pinchExample])
    (by simp [pinchExample]) (by simp [pinchExample, initState]) rfl
    (by
      show Real.sqrt (((612 : ℝ) - 412) * (612 - 412) + ((300 : ℝ) - 300) * (300 - 300)) > 0
      rw [hs]
      norm_num)
    (by norm_num [pinchExample, readArr, toNat_two])).1.trans ?_
  show clampSide (readArr (pinchExample ℝ).pinchBaseSide 2
    * Real.sqrt (((612 : ℝ) - 412) * (612 - 412) + ((300 : ℝ) - 300) * (300 - 300))
    / readArr (pinchExample ℝ).pinchBaseDist 2) = 160
  rw [hs]
  norm_num [pinchExample, initState, readArr, toNat_two, clampSide, SQUARE_MIN_SIDE,
    SQUARE_MAX_SIDE, SQUARE_SIZE_DEFAULT]

/-! ### C13: one-finger drag with a touch id that was not tracked -/

theorem c13_state_after_swap :
    inputStep (⟨Real.sqrt, Real.cos, Real.sin, fun y x => Complex.arg ⟨x, y⟩,
        fun x y => Real.sqrt (x * x + y * y)⟩ : Libm ℝ)
      { initState ℝ 1024 600 with
        t0 := ⟨0, ⟨358.4, 300⟩⟩, prevTouchCount := 1, dragTouchSquare := 0,
        taps := [Tap.tapIn 80], used := [0] }
      (touchFrame ℝ [⟨5, ⟨400, 310⟩⟩])
    = { initState ℝ 1024 600 with
        squares := [⟨758.4, 610, 40, 0⟩, ⟨665.6, 300, 40, 0⟩, ⟨512, 300, 40, 0⟩],
        t0 := ⟨5, ⟨400, 310⟩⟩, prevTouchCount := 1, dragTouchSquare := 0,
        taps := [], used := [0] } := by
  simp only [inputStep, touchFrame, idleFrame, initState, touchBranch, UpdateTrackedTouches,
    FindTouchById, fillTrackedTouches, effectiveCount, touchCancelPinch, touchRebase,
    touchGesture, touchSingle, touchPress, touchDrag, touchTapOut, TopSquareAt, NUM_SQUARES,
    pointIn_angle_zero _ realLibm_exact, PlayTapInForSide, logIdx, readSq, updSq,
    SQUARE_SIZE_DEFAULT, TOUCH_DELTA_DEADZONE, List.getD_cons_zero, List.getD_cons_succ]
  norm_num [pointIn_angle_zero _ realLibm_exact, abs_le, lt_abs]

/-- C13 (the code at the failing input): from the initial state in a 1024 × 600
window, a frame with one touch (id 0) on the centre of square 0 targets that square;
the next frame reports a single touch with the new id 5 at (400, 310). Finger 5 was
in neither slot before, so it has no previous position, yet the input code moves
square 0 from (358.4, 300) to (758.4, 610): the delta it applies is the position of
finger 5 minus the position (0, 0) held by the empty slot 1. -/
theorem untracked_touch_moves_square_by_stale_base :
    (inputStep (⟨Real.sqrt, Real.cos, Real.sin, fun y x => Complex.arg ⟨x, y⟩,
        fun x y => Real.sqrt (x * x + y * y)⟩ : Libm ℝ)
      (initState ℝ 1024 600) (touchFrame ℝ [⟨0, ⟨358.4, 300⟩⟩])).t0.id = 0 ∧
    (inputStep (⟨Real.sqrt, Real.cos, Real.sin, fun y x => Complex.arg ⟨x, y⟩,
        fun x y => Real.sqrt (x * x + y * y)⟩ : Libm ℝ)
      (initState ℝ 1024 600) (touchFrame ℝ [⟨0, ⟨358.4, 300⟩⟩])).t1 = ⟨-1, ⟨0, 0⟩⟩ ∧
    (inputStep (⟨Real.sqrt, Real.cos, Real.sin, fun y x => Complex.arg ⟨x, y⟩,
        fun x y => Real.sqrt (x * x + y * y)⟩ : Libm ℝ)
      (initState ℝ 1024 600) (touchFrame ℝ [⟨0, ⟨358.4, 300⟩⟩])).dragTouchSquare = 0 ∧
    readSq (inputStep (⟨Real.sqrt, Real.cos, Real.sin, fun y x => Complex.arg ⟨x, y⟩,
        fun x y => Real.sqrt (x * x + y * y)⟩ : Libm ℝ)
      (initState ℝ 1024 600) (touchFrame ℝ [⟨0, ⟨358.4, 300⟩⟩])).squares 0
      = ⟨358.4, 300, 40, 0⟩ ∧
    readSq (inputStep (⟨Real.sqrt, Real.cos, Real.sin, fun y x => Complex.arg ⟨x, y⟩,
        fun x y => Real.sqrt (x * x + y * y)⟩ : Libm ℝ)
      (inputStep (⟨Real.sqrt, Real.cos, Real.sin, fun y x => Complex.arg ⟨x, y⟩,
          fun x y => Real.sqrt (x * x + y * y)⟩ : Libm ℝ)
        (initState ℝ 1024 600) (touchFrame ℝ [⟨0, ⟨358.4, 300⟩⟩]))
      (touchFrame ℝ [⟨5, ⟨400, 310⟩⟩])).squares 0
      = ⟨358.4 + (400 - 0), 300 + (310 - 0), 40, 0⟩ := by
  rw [c5_state_after_press, c13_state_after_swap]
  refine ⟨rfl, rfl, rfl, ?_, ?_⟩
  · norm_num [readSq, initState, SQUARE_SIZE_DEFAULT]
  · norm_num [readSq]

/-! ### C23: the reflection preserves the speed -/

theorem dot_Reflect_self_of_unit (v n : Vector2 K) (hn : dot n n = 1) :
    dot (Reflect v n) (Reflect v n) = dot v v := by
  simp only [dot, Reflect] at *
  linear_combination (4 * (v.x * n.x + v.y * n.y) * (v.x * n.x + v.y * n.y)) * hn

/-- C23: with exact `cosf`, `sinf` and `sqrtf`, whenever `ResolveCircleVsSquare`
detects penetration, the world-frame normal it reflects about has unit length (in
the closest-point case and in the velocity-sign fallback case alike) and the speed
is preserved: `vx'^2 + vy'^2 = vx^2 + vy^2`. -/
theorem resolve_preserves_speed (m : Libm K) (hm : m.Exact) (sq : Square K) (radius : K)
    (p v : Vector2 K)
    (hpen : (ResolveContact m sq radius p v).dist2 ≤ radius * radius) :
    dot (ResolveContact m sq radius p v).nW (ResolveContact m sq radius p v).nW = 1 ∧
    (ResolveCircleVsSquare m sq radius p v).2.x ^ 2
      + (ResolveCircleVsSquare m sq radius p v).2.y ^ 2 = v.x ^ 2 + v.y ^ 2 := by
  have hn := contact_nW_unit m hm sq radius p v
  refine ⟨hn, ?_⟩
  rw [resolve_hit m sq radius p v hpen]
  have h := dot_Reflect_self_of_unit v _ hn
  simp only [dot] at h
  simp only [pow_two]
  exact h

/-- Witness for C23: square of half-extent 50 at the origin, ball of radius 10 at
(0, -55) with velocity (3, 10). -/
theorem resolve_preserves_speed_witness :
    (ResolveCircleVsSquare (⟨Real.sqrt, Real.cos, Real.sin, fun y x => Complex.arg ⟨x, y⟩,
        fun x y => Real.sqrt (x * x + y * y)⟩ : Libm ℝ)
      ⟨0, 0, 50, 0⟩ 10 ⟨0, -55⟩ ⟨3, 10⟩).2.x ^ 2
    + (ResolveCircleVsSquare (⟨Real.sqrt, Real.cos, Real.sin, fun y x => Complex.arg ⟨x, y⟩,
        fun x y => Real.sqrt (x * x + y * y)⟩ : Libm ℝ)
      ⟨0, 0, 50, 0⟩ 10 ⟨0, -55⟩ ⟨3, 10⟩).2.y ^ 2 = (3 : ℝ) ^ 2 + 10 ^ 2 :=
  (resolve_preserves_speed _ realLibm_exact ⟨0, 0, 50, 0⟩ 10 ⟨0, -55⟩ ⟨3, 10⟩
    (by rw [contact_example_outside]; norm_num)).2

/-! ### C24: the size-to-pitch map -/

theorem SizeToFreq_eq (side : K) :
    SizeToFreq side = 1600 + (320 - 1600) * ((min (max side 10) 600 - 10) / (600 - 10)) := by
  simp only [SizeToFreq, SQUARE_MIN_SIDE, SQUARE_MAX_SIDE, FREQ_MIN, FREQ_MAX]
  have e1 : (if side < 10 then (10 : K) else side) = max side 10 := by
    split_ifs with h
    · exact (max_eq_right (le_of_lt h)).symm
    · exact (max_eq_left (not_lt.mp h)).symm
  have e2 : (if max side 10 > 600 then (600 : K) else max side 10) = min (max side 10) 600 := by
    split_ifs with h
    · exact (min_eq_right (le_of_lt h)).symm
    · exact (min_eq_left (not_lt.mp h)).symm
  rw [e1, e2]

/-- C24: `SizeToFreq` returns `FREQ_MAX = 1600` for every side ≤ `SQUARE_MIN_SIDE = 10`,
`FREQ_MIN = 320` for every side ≥ `SQUARE_MAX_SIDE = 600`, the linear interpolation
`1600 + (320 - 1600) * (side - 10) / (600 - 10)` for sides in between, and it is
monotonically non-increasing in the side. -/
theorem size_to_freq_inverse_linear :
    (∀ side : K, side ≤ SQUARE_MIN_SIDE K → SizeToFreq side = FREQ_MAX K) ∧
    (∀ side : K, SQUARE_MAX_SIDE K ≤ side → SizeToFreq side = FREQ_MIN K) ∧
    (∀ side : K, SQUARE_MIN_SIDE K ≤ side → side ≤ SQUARE_MAX_SIDE K →
      SizeToFreq side = FREQ_MAX K + (FREQ_MIN K - FREQ_MAX K)
        * (side - SQUARE_MIN_SIDE K) / (SQUARE_MAX_SIDE K - SQUARE_MIN_SIDE K)) ∧
    (∀ a b : K, a ≤ b → SizeToFreq b ≤ SizeToFreq a) ∧
    FREQ_MAX K = 1600 ∧ FREQ_MIN K = 320 ∧ SQUARE_MIN_SIDE K = 10 ∧ SQUARE_MAX_SIDE K = 600 := by
  refine ⟨?_, ?_, ?_, ?_, rfl, rfl, rfl, rfl⟩
  · intro side h
    simp only [SQUARE_MIN_SIDE] at h
    rw [SizeToFreq_eq, max_eq_right h, min_eq_left (by norm_num)]
    simp only [FREQ_MAX]
    norm_num
  · intro side h
    simp only [SQUARE_MAX_SIDE] at h
    rw [SizeToFreq_eq, max_eq_left (le_trans (by norm_num) h), min_eq_right h]
    simp only [FREQ_MIN]
    norm_num
  · intro side h1 h2
    simp only [SQUARE_MIN_SIDE, SQUARE_MAX_SIDE] at h1 h2
    rw [SizeToFreq_eq, max_eq_left h1, min_eq_left h2]
    simp only [FREQ_MIN, FREQ_MAX, SQUARE_MIN_SIDE, SQUARE_MAX_SIDE]
    ring
  · intro a b hab
    rw [SizeToFreq_eq, SizeToFreq_eq]
    have hm : min (max a 10) 600 ≤ min (max b 10) 600 :=
      min_le_min (max_le_max hab (le_refl _)) (le_refl _)
    have h590 : (0 : K) < 600 - 10 := by norm_num
    have hd : (min (max a 10) 600 - 10) / (600 - 10) ≤ (min (max b 10) 600 - 10) / (600 - 10) :=
      div_le_div_of_nonneg_right (by linarith) (le_of_lt h590)
    linarith

/-! ### C25: the number of sub-steps -/

/-- C25: with an exact `hypotf`, for every ball and every frame time `dt ≥ 0`, the
number of sub-steps equals `min(MAX_SUBSTEPS, 1 + floor(speed * dt / max(2 * r, 2)))`
with `MAX_SUBSTEPS = 2`; it is 1 or 2, and its conversion to float, by which `dt` is
divided, is not zero. -/
theorem substep_count_formula [FloorRing K] (m : Libm K) (hm : m.Exact) (b : Ball K) (dt : K)
    (hdt : 0 ≤ dt) :
    substepCount m b dt
      = min MAX_SUBSTEPS (1 + ⌊m.hypotf b.vx b.vy * dt / max (2 * b.r) 2⌋) ∧
    MAX_SUBSTEPS = 2 ∧
    (substepCount m b dt = 1 ∨ substepCount m b dt = 2) ∧
    ((substepCount m b dt : Int) : K) ≠ 0 := by
  have hspd : 0 ≤ m.hypotf b.vx b.vy := by
    rw [hm.hypot_eq]
    exact hm.sqrt_nonneg _
  have hmax : (0 : K) < max (b.r * 2) 2 := lt_of_lt_of_le (by norm_num) (le_max_right _ _)
  have hq : 0 ≤ m.hypotf b.vx b.vy * dt / max (b.r * 2) 2 :=
    div_nonneg (mul_nonneg hspd hdt) (le_of_lt hmax)
  have hfl : 0 ≤ ⌊m.hypotf b.vx b.vy * dt / max (b.r * 2) 2⌋ := Int.floor_nonneg.mpr hq
  have hcomm : (2 : K) * b.r = b.r * 2 := mul_comm _ _
  have hval : substepCount m b dt
      = min MAX_SUBSTEPS (1 + ⌊m.hypotf b.vx b.vy * dt / max (b.r * 2) 2⌋) := by
    simp only [substepCount, truncInt, if_pos hq, MAX_SUBSTEPS]
    by_cases h0 : m.hypotf b.vx b.vy > 0
    · rw [if_pos h0]
      split_ifs <;> omega
    · rw [if_neg h0]
      have hz : m.hypotf b.vx b.vy = 0 := le_antisymm (not_lt.mp h0) hspd
      rw [hz]
      simp
  rw [hcomm]
  refine ⟨hval, rfl, ?_, ?_⟩
  · rw [hval]
    simp only [MAX_SUBSTEPS]
    omega
  · rw [hval]
    simp only [MAX_SUBSTEPS]
    have : min (2 : Int) (1 + ⌊m.hypotf b.vx b.vy * dt / max (b.r * 2) 2⌋) ≠ 0 := by omega
    exact_mod_cast this

/-- Witness for C25: a ball of radius 5 with velocity (300, 400) and a frame time
of 0.05 s. -/
theorem substep_count_formula_witness :
    (0 : ℝ) ≤ 0.05 ∧
    (substepCount (⟨Real.sqrt, Real.cos, Real.sin, fun y x => Complex.arg ⟨x, y⟩,
        fun x y => Real.sqrt (x * x + y * y)⟩ : Libm ℝ)
      (⟨100, 100, 300, 400, 5, 0, WHITE⟩ : Ball ℝ) 0.05 = 1 ∨
     substepCount (⟨Real.sqrt, Real.cos, Real.sin, fun y x => Complex.arg ⟨x, y⟩,
        fun x y => Real.sqrt (x * x + y * y)⟩ : Libm ℝ)
      (⟨100, 100, 300, 400, 5, 0, WHITE⟩ : Ball ℝ) 0.05 = 2) :=
  ⟨by norm_num,
   (substep_count_formula _ realLibm_exact (⟨100, 100, 300, 400, 5, 0, WHITE⟩ : Ball ℝ) 0.05
     (by norm_num)).2.2.1⟩

/-! ### C21: pushing a point outside a square's hull -/

theorem push_hull_dist (m : Libm K) (hm : m.Exact) (sq : Square K) (r : K) (b : Vector2 K)
    (h1 : 1 < sq.half * 1.41421356237 + r + SPAWN_MARGIN K) :
    (sq.half * 1.41421356237 + r + SPAWN_MARGIN K)
        * (sq.half * 1.41421356237 + r + SPAWN_MARGIN K)
      ≤ ((PushOutsideSquareHull m sq r b).x - sq.x) * ((PushOutsideSquareHull m sq r b).x - sq.x)
        + ((PushOutsideSquareHull m sq r b).y - sq.y)
          * ((PushOutsideSquareHull m sq r b).y - sq.y) := by
  simp only [PushOutsideSquareHull]
  generalize sq.half * 1.41421356237 + r + SPAWN_MARGIN K = minD at *
  have hone : m.sqrtf 1 = 1 := exact_sqrt_eq m hm 1 1 (by norm_num) (by norm_num)
  by_cases ht : (b.x - sq.x) * (b.x - sq.x) + (b.y - sq.y) * (b.y - sq.y) < 1e-8
  · simp only [if_pos ht]
    have hlt : (1 : K) < minD * minD := by nlinarith
    rw [if_pos hlt, hone]
    simp
  · simp only [if_neg ht]
    split_ifs with hl
    · have hpos : (0 : K) < (b.x - sq.x) * (b.x - sq.x) + (b.y - sq.y) * (b.y - sq.y) :=
        lt_of_lt_of_le (by norm_num) (not_lt.mp ht)
      have hs := hm.sqrt_mul_self _ (le_of_lt hpos)
      have hsn := hm.sqrt_nonneg ((b.x - sq.x) * (b.x - sq.x) + (b.y - sq.y) * (b.y - sq.y))
      generalize m.sqrtf ((b.x - sq.x) * (b.x - sq.x) + (b.y - sq.y) * (b.y - sq.y)) = w at *
      have hw : w ≠ 0 := by
        intro e
        rw [e] at hs
        simp only [mul_zero] at hs
        rw [← hs] at hpos
        exact lt_irrefl _ hpos
      apply le_of_eq
      dsimp only
      field_simp
      linear_combination (minD * minD) * hs
    · exact not_lt.mp hl

theorem not_in_square_of_far (m : Libm K) (hm : m.Exact) (sq : Square K) (px py : K)
    (hfar : 2 * (sq.half * sq.half) < (px - sq.x) * (px - sq.x) + (py - sq.y) * (py - sq.y)) :
    PointInRotatedSquare m px py sq = false := by
  have hcs := hm.cos_sq_add_sin_sq (sq.angle * (PI_F K / 180))
  simp only [PointInRotatedSquare, InvRotateCS]
  generalize m.cosf (sq.angle * (PI_F K / 180)) = c at *
  generalize m.sinf (sq.angle * (PI_F K / 180)) = s at *
  by_contra hin
  simp only [Bool.not_eq_false, Bool.and_eq_true, decide_eq_true_eq] at hin
  obtain ⟨hx, hy⟩ := hin
  rw [abs_le] at hx hy
  have hx2 : (c * (px - sq.x) + s * (py - sq.y)) * (c * (px - sq.x) + s * (py - sq.y))
      ≤ sq.half * sq.half := by nlinarith
  have hy2 : (-s * (px - sq.x) + c * (py - sq.y)) * (-s * (px - sq.x) + c * (py - sq.y))
      ≤ sq.half * sq.half := by nlinarith
  have hsum : (c * (px - sq.x) + s * (py - sq.y)) * (c * (px - sq.x) + s * (py - sq.y))
      + (-s * (px - sq.x) + c * (py - sq.y)) * (-s * (px - sq.x) + c * (py - sq.y))
      = (px - sq.x) * (px - sq.x) + (py - sq.y) * (py - sq.y) := by
    linear_combination ((px - sq.x) * (px - sq.x) + (py - sq.y) * (py - sq.y)) * hcs
  linarith

theorem exact_sqrt_ge (m : Libm K) (hm : m.Exact) (x y : K) (hxy : y * y ≤ x) :
    y ≤ m.sqrtf x := by
  have hx : 0 ≤ x := le_trans (mul_self_nonneg y) hxy
  have hn := hm.sqrt_nonneg x
  have hs := hm.sqrt_mul_self x hx
  by_contra hc
  have hlt := mul_self_lt_mul_self hn (not_le.mp hc)
  linarith

/-- C21: with exact `cosf`, `sinf` and `sqrtf`, for every square with half in
[5, 300] at any angle, every probe radius `r ≥ 0` and every point, after
`PushOutsideSquareHull` the point's distance from the square's centre is at least
`half * 1.41421356237 + r + SPAWN_MARGIN` (stated for the squared distance and for its
`sqrtf`), so `PointInRotatedSquare` is false for it; and a point that is already at
that distance is left unchanged. -/
theorem push_outside_hull_clears_square (m : Libm K) (hm : m.Exact) (sq : Square K) (r : K)
    (b : Vector2 K) (hlo : 5 ≤ sq.half) (hhi : sq.half ≤ 300) (hr : 0 ≤ r) :
    (sq.half * 1.41421356237 + r + SPAWN_MARGIN K)
        * (sq.half * 1.41421356237 + r + SPAWN_MARGIN K)
      ≤ ((PushOutsideSquareHull m sq r b).x - sq.x) * ((PushOutsideSquareHull m sq r b).x - sq.x)
        + ((PushOutsideSquareHull m sq r b).y - sq.y)
          * ((PushOutsideSquareHull m sq r b).y - sq.y) ∧
    sq.half * 1.41421356237 + r + SPAWN_MARGIN K
      ≤ m.sqrtf (((PushOutsideSquareHull m sq r b).x - sq.x)
            * ((PushOutsideSquareHull m sq r b).x - sq.x)
          + ((PushOutsideSquareHull m sq r b).y - sq.y)
            * ((PushOutsideSquareHull m sq r b).y - sq.y)) ∧
    PointInRotatedSquare m (PushOutsideSquareHull m sq r b).x (PushOutsideSquareHull m sq r b).y
      sq = false ∧
    ((sq.half * 1.41421356237 + r + SPAWN_MARGIN K)
        * (sq.half * 1.41421356237 + r + SPAWN_MARGIN K)
      ≤ (b.x - sq.x) * (b.x - sq.x) + (b.y - sq.y) * (b.y - sq.y) →
      PushOutsideSquareHull m sq r b = b) := by
  have hmg : SPAWN_MARGIN K = 6 := by simp only [SPAWN_MARGIN]; norm_num
  have h1 : 1 < sq.half * 1.41421356237 + r + SPAWN_MARGIN K := by
    rw [hmg]
    nlinarith
  have hd := push_hull_dist m hm sq r b h1
  refine ⟨hd, exact_sqrt_ge m hm _ _ hd, ?_, ?_⟩
  · apply not_in_square_of_far m hm
    refine lt_of_lt_of_le ?_ hd
    rw [hmg]
    have hk : (2 : K) - 1.41421356237 * 1.41421356237 ≤ 1 / 100000000000 := by norm_num
    have hh2 : sq.half * sq.half ≤ 300 * 300 := by nlinarith
    have hh0 : 0 ≤ sq.half * sq.half := mul_self_nonneg _
    have e : (sq.half * 1.41421356237 + r + 6) * (sq.half * 1.41421356237 + r + 6)
        - 2 * (sq.half * sq.half)
        = 2 * (sq.half * 1.41421356237) * (r + 6) + (r + 6) * (r + 6)
          - (2 - 1.41421356237 * 1.41421356237) * (sq.half * sq.half) := by ring
    have hprod : (2 - 1.41421356237 * 1.41421356237) * (sq.half * sq.half)
        ≤ 1 / 100000000000 * (300 * 300) := by
      by_cases hneg : (2 : K) - 1.41421356237 * 1.41421356237 ≤ 0
      · have := mul_nonpos_of_nonpos_of_nonneg hneg hh0
        linarith
      · exact mul_le_mul hk hh2 hh0 (by norm_num)
    have hpos1 : 0 ≤ 2 * (sq.half * 1.41421356237) * (r + 6) := by positivity
    have hpos2 : 36 ≤ (r + 6) * (r + 6) := by nlinarith
    have hsmall : (1 : K) / 100000000000 * (300 * 300) < 36 := by norm_num
    linarith
  · intro hfar
    simp only [PushOutsideSquareHull]
    have hbig : ¬ ((b.x - sq.x) * (b.x - sq.x) + (b.y - sq.y) * (b.y - sq.y) < 1e-8) := by
      intro hlt
      have : (1 : K) < (sq.half * 1.41421356237 + r + SPAWN_MARGIN K)
          * (sq.half * 1.41421356237 + r + SPAWN_MARGIN K) := by nlinarith
      have h8 : (1e-8 : K) < 1 := by norm_num
      linarith
    simp only [if_neg hbig]
    rw [if_neg (not_lt.mpr hfar)]

/-- Witness for C21: square of half-extent 50 at the origin, probe radius 10, and the
point (3, 4) near its centre. -/
theorem push_outside_hull_clears_square_witness :
    PointInRotatedSquare (⟨Real.sqrt, Real.cos, Real.sin, fun y x => Complex.arg ⟨x, y⟩,
        fun x y => Real.sqrt (x * x + y * y)⟩ : Libm ℝ)
      (PushOutsideSquareHull (⟨Real.sqrt, Real.cos, Real.sin, fun y x => Complex.arg ⟨x, y⟩,
        fun x y => Real.sqrt (x * x + y * y)⟩ : Libm ℝ) ⟨0, 0, 50, 0⟩ 10 ⟨3, 4⟩).x
      (PushOutsideSquareHull (⟨Real.sqrt, Real.cos, Real.sin, fun y x => Complex.arg ⟨x, y⟩,
        fun x y => Real.sqrt (x * x + y * y)⟩ : Libm ℝ) ⟨0, 0, 50, 0⟩ 10 ⟨3, 4⟩).y
      ⟨0, 0, 50, 0⟩ = false :=
  (push_outside_hull_clears_square _ realLibm_exact ⟨0, 0, 50, 0⟩ 10 ⟨3, 4⟩
    (by norm_num) (by norm_num) (by norm_num)).2.2.1

/-! ### A triangle inequality without square roots -/

theorem norm_add_sq_le (ax ay bx bY A B : K) (hA : 0 ≤ A) (hB : 0 ≤ B)
    (ha : ax * ax + ay * ay ≤ A * A) (hb : bx * bx + bY * bY ≤ B * B) :
    (ax + bx) * (ax + bx) + (ay + bY) * (ay + bY) ≤ (A + B) * (A + B) := by
  have hdot : ax * bx + ay * bY ≤ A * B := by
    by_contra h
    have hlt := mul_self_lt_mul_self (mul_nonneg hA hB) (not_le.mp h)
    have hcs : (ax * bx + ay * bY) * (ax * bx + ay * bY)
        ≤ (ax * ax + ay * ay) * (bx * bx + bY * bY) := by
      nlinarith [mul_self_nonneg (ax * bY - ay * bx)]
    have hprod : (ax * ax + ay * ay) * (bx * bx + bY * bY) ≤ (A * A) * (B * B) :=
      mul_le_mul ha hb (add_nonneg (mul_self_nonneg _) (mul_self_nonneg _))
        (mul_self_nonneg _)
    nlinarith
  nlinarith

/-! ### C22: a mouse press outside every square -/

theorem TopSquareAt_none (m : Libm K) (px py : K) (sqs : List (Square K)) (count : Nat)
    (h : ∀ i : Nat, i < count → PointInRotatedSquare m px py (sqs.getD i default) = false) :
    TopSquareAt m px py sqs count = -1 := by
  induction count with
  | zero => rfl
  | succ n ih =>
    simp only [TopSquareAt]
    rw [h n (Nat.lt_succ_self n)]
    simp only [Bool.false_eq_true, if_false]
    exact ih (fun i hi => h i (Nat.lt_succ_of_lt hi))

theorem mouse_no_target_keeps_squares [FloorRing K] (m : Libm K) (s : MainState K)
    (g : Frame K) (hg0 : g.touches = []) (hgw : g.wheel = 0) (hgl : g.leftPressed = false)
    (hgr : g.rightPressed = false) (hd : s.dragMouseSquare = -1)
    (hrot : s.rotateMouseSquare = -1) :
    (inputStep m s g).squares = s.squares ∧ (inputStep m s g).dragMouseSquare = -1 ∧
    (inputStep m s g).rotateMouseSquare = -1 ∧
    (inputStep m s g).taps.filter isTapIn = [] := by
  cases hlr : g.leftReleased <;> cases hrr : g.rightReleased <;>
    simp [inputStep, hg0, mouseBranch, mouseLeftPress, mouseLeftRelease, mouseLeftDrag,
      mouseRightPress, mouseRightRelease, mouseRightDrag, mouseWheel, resetTouchState,
      PlayTapOutForSide, logIdx, hgw, hgl, hgr, hd, hrot, hlr, hrr, isTapIn]

theorem mouse_press_outside [FloorRing K] (m : Libm K) (s : MainState K) (f : Frame K)
    (hf0 : f.touches = []) (hfw : f.wheel = 0) (hfl : f.leftPressed = true)
    (hfr : f.rightPressed = false) (hrot : s.rotateMouseSquare = -1)
    (hout : TopSquareAt m f.mpos.x f.mpos.y s.squares NUM_SQUARES = -1) :
    (inputStep m s f).taps.filter isTapIn = [Tap.tapIn (SQUARE_SIZE_DEFAULT K)] ∧
    (inputStep m s f).dragMouseSquare = -1 ∧ (inputStep m s f).rotateMouseSquare = -1 ∧
    (inputStep m s f).squares = s.squares := by
  cases hlr : f.leftReleased <;> cases hrr : f.rightReleased <;>
    simp [inputStep, hf0, mouseBranch, mouseLeftPress, mouseLeftRelease, mouseLeftDrag,
      mouseRightPress, mouseRightRelease, mouseRightDrag, mouseWheel, resetTouchState,
      PlayTapOutForSide, PlayTapInForSide, logIdx, hfw, hfl, hfr, hrot, hlr, hrr, hout, isTapIn]

/-- C22: on a frame with no touch points, no wheel movement, no right-button press and
no rotate target (`rotateMouseSquare = -1`), a left mouse press at a point that no
square contains makes exactly one call of `PlayTapInForSide`, for the side
`SQUARE_SIZE_DEFAULT = 80`, sets `dragMouseSquare = -1` and leaves the squares as
they were; and from every later state with the same (empty) drag and rotate targets,
the input step of a frame in which the button is held and the mouse moves (no touch
points, no wheel movement, no new press) leaves the squares as they were too. -/
theorem mouse_press_outside_squares_taps_default [FloorRing K] (m : Libm K) (s : MainState K)
    (f : Frame K)
    (hf0 : f.touches = []) (hfw : f.wheel = 0) (hfl : f.leftPressed = true)
    (hfr : f.rightPressed = false) (hrot : s.rotateMouseSquare = -1)
    (hout : ∀ i : Nat, i < NUM_SQUARES →
      PointInRotatedSquare m f.mpos.x f.mpos.y (s.squares.getD i default) = false) :
    (inputStep m s f).taps.filter isTapIn = [Tap.tapIn (SQUARE_SIZE_DEFAULT K)] ∧
    SQUARE_SIZE_DEFAULT K = 80 ∧
    (inputStep m s f).dragMouseSquare = -1 ∧
    (inputStep m s f).squares = s.squares ∧
    ∀ (s2 : MainState K) (g : Frame K),
      s2.dragMouseSquare = (inputStep m s f).dragMouseSquare →
      s2.rotateMouseSquare = (inputStep m s f).rotateMouseSquare →
      g.touches = [] → g.wheel = 0 → g.leftPressed = false → g.rightPressed = false →
      (inputStep m s2 g).squares = s2.squares ∧ (inputStep m s2 g).dragMouseSquare = -1 := by
  obtain ⟨h1, h2, h3, h4⟩ := mouse_press_outside m s f hf0 hfw hfl hfr hrot
    (TopSquareAt_none m _ _ _ _ hout)
  refine ⟨h1, rfl, h2, h4, ?_⟩
  intro s2 g hd hr hg0 hgw hgl hgr
  rw [h2] at hd
  rw [h3] at hr
  obtain ⟨k1, k2, _, _⟩ := mouse_no_target_keeps_squares m s2 g hg0 hgw hgl hgr hd hr
  exact ⟨k1, k2⟩

/-- Witness for C22: the initial state in a 1024 × 600 window and a left press at
(10, 10), which lies in none of the three squares. -/
theorem mouse_press_outside_squares_taps_default_witness :
    (inputStep (⟨Real.sqrt, Real.cos, Real.sin, fun y x => Complex.arg ⟨x, y⟩,
        fun x y => Real.sqrt (x * x + y * y)⟩ : Libm ℝ)
      (initState ℝ 1024 600)
      (mouseFrame ℝ ⟨10, 10⟩ ⟨0, 0⟩ true true false false)).taps.filter isTapIn
      = [Tap.tapIn (SQUARE_SIZE_DEFAULT ℝ)] :=
  (mouse_press_outside_squares_taps_default
    (⟨Real.sqrt, Real.cos, Real.sin, fun y x => Complex.arg ⟨x, y⟩,
        fun x y => Real.sqrt (x * x + y * y)⟩ : Libm ℝ)
    (initState ℝ 1024 600) (mouseFrame ℝ ⟨10, 10⟩ ⟨0, 0⟩ true true false false)
    rfl rfl rfl rfl rfl
    (by
      intro i hi
      have h3 : i < 3 := hi
      interval_cases i <;>
        simp only [initState, mouseFrame, idleFrame, List.getD_cons_zero, List.getD_cons_succ,
          pointIn_angle_zero _ realLibm_exact, SQUARE_SIZE_DEFAULT] <;>
        norm_num [abs_le])).1

/-! ### C27: which slots are occupied -/

theorem fillTrackedTouches_order (ts : List (TrackedTouch K)) :
    ∀ t0 t1 : TrackedTouch K, (t1.id ≠ -1 → t0.id ≠ -1) →
      ((fillTrackedTouches ts (t0, t1)).2.id ≠ -1 → (fillTrackedTouches ts (t0, t1)).1.id ≠ -1) ∧
      ((fillTrackedTouches ts (t0, t1)).2.id = -1 →
        ∀ t ∈ ts, t.id = (fillTrackedTouches ts (t0, t1)).1.id ∨ t.id = -1) ∧
      ((fillTrackedTouches ts (t0, t1)).1.id = t0.id ∨
        (fillTrackedTouches ts (t0, t1)).1.id ∈ ts.map (fun u => u.id)) ∧
      ((fillTrackedTouches ts (t0, t1)).2.id = t1.id ∨
        (fillTrackedTouches ts (t0, t1)).2.id ∈ ts.map (fun u => u.id)) := by
  induction ts with
  | nil =>
    intro t0 t1 h
    exact ⟨h, fun _ t ht => absurd ht (List.not_mem_nil t), Or.inl rfl, Or.inl rfl⟩
  | cons t ts ih =>
    intro t0 t1 h
    simp only [fillTrackedTouches]
    by_cases hfull : t0.id = -1 ∨ t1.id = -1
    · rw [if_pos hfull]
      have h1 : t1.id = -1 := by
        rcases hfull with e | e
        · by_contra hne
          exact h hne e
        · exact e
      by_cases hdup : t.id = t0.id ∨ t.id = t1.id
      · rw [if_pos hdup]
        obtain ⟨a1, a2, a3, a4⟩ := ih t0 t1 h
        refine ⟨a1, ?_, ?_, ?_⟩
        · intro he u hu
          rcases List.mem_cons.mp hu with rfl | hu
          · rcases hdup with e | e
            · by_cases h0 : t0.id = -1
              · exact Or.inr (e.trans h0)
              · left
                rw [fillTrackedTouches_keeps_fst ts t0 t1 h0]
                exact e
            · exact Or.inr (e.trans h1)
          · exact a2 he u hu
        · rcases a3 with e | e
          · exact Or.inl e
          · exact Or.inr (List.mem_cons_of_mem _ e)
        · rcases a4 with e | e
          · exact Or.inl e
          · exact Or.inr (List.mem_cons_of_mem _ e)
      · rw [if_neg hdup]
        have hnew : t.id ≠ -1 := fun e => hdup (Or.inr (e.trans h1.symm))
        by_cases h0 : t0.id = -1
        · rw [if_pos h0]
          obtain ⟨a1, a2, a3, a4⟩ := ih ⟨t.id, t.pos⟩ t1 (fun hne => absurd h1 hne)
          have hk := fillTrackedTouches_keeps_fst ts ⟨t.id, t.pos⟩ t1 hnew
          refine ⟨a1, ?_, ?_, ?_⟩
          · intro he u hu
            rcases List.mem_cons.mp hu with rfl | hu
            · left
              rw [hk]
            · exact a2 he u hu
          · right
            rw [hk]
            exact List.mem_cons_self _ _
          · rcases a4 with e | e
            · exact Or.inl e
            · exact Or.inr (List.mem_cons_of_mem _ e)
        · rw [if_neg h0]
          have hk0 := fillTrackedTouches_keeps_fst ts t0 ⟨t.id, t.pos⟩ h0
          have hk1 := fillTrackedTouches_keeps_snd ts t0 ⟨t.id, t.pos⟩ hnew
          refine ⟨?_, ?_, ?_, ?_⟩
          · intro _
            rw [hk0]
            exact h0
          · intro he
            rw [hk1] at he
            exact absurd he hnew
          · left
            rw [hk0]
          · right
            rw [hk1]
            exact List.mem_cons_self _ _
    · rw [if_neg hfull]
      push_neg at hfull
      exact ⟨fun _ => hfull.1, fun he => absurd he hfull.2, Or.inl rfl, Or.inl rfl⟩

theorem fillTrackedTouches_order_pair (ts : List (TrackedTouch K))
    (s : TrackedTouch K × TrackedTouch K) (h : s.2.id ≠ -1 → s.1.id ≠ -1) :
    ((fillTrackedTouches ts s).2.id ≠ -1 → (fillTrackedTouches ts s).1.id ≠ -1) ∧
    ((fillTrackedTouches ts s).2.id = -1 →
      ∀ t ∈ ts, t.id = (fillTrackedTouches ts s).1.id ∨ t.id = -1) ∧
    ((fillTrackedTouches ts s).1.id = s.1.id ∨
      (fillTrackedTouches ts s).1.id ∈ ts.map (fun u => u.id)) ∧
    ((fillTrackedTouches ts s).2.id = s.2.id ∨
      (fillTrackedTouches ts s).2.id ∈ ts.map (fun u => u.id)) :=
  fillTrackedTouches_order ts s.1 s.2 h

theorem UpdateTrackedTouches_as_fill (touches : List (TrackedTouch K)) (t0 t1 : TrackedTouch K)
    (hne : touches ≠ []) :
    ∃ s : TrackedTouch K × TrackedTouch K,
      UpdateTrackedTouches touches t0 t1 = fillTrackedTouches touches s ∧
      (s.2.id ≠ -1 → s.1.id ≠ -1) ∧
      (s.1.id = -1 ∨ s.1.id ∈ touches.map (fun u => u.id)) ∧
      (s.2.id = -1 ∨ s.2.id ∈ touches.map (fun u => u.id)) := by
  have hlen : ¬ ((touches.length : Int) ≤ 0) := by
    cases touches with
    | nil => exact absurd rfl hne
    | cons t ts => simp only [List.length_cons]; omega
  simp only [UpdateTrackedTouches, if_neg hlen]
  refine ⟨_, rfl, ?_⟩
  have m0 : ∀ p, FindTouchById touches t0.id = some p → t0.id ∈ touches.map (fun u => u.id) :=
    fun p hp => (FindTouchById_isSome touches t0.id).mp ⟨p, hp⟩
  have m1 : ∀ p, FindTouchById touches t1.id = some p → t1.id ∈ touches.map (fun u => u.id) :=
    fun p hp => (FindTouchById_isSome touches t1.id).mp ⟨p, hp⟩
  by_cases h0 : t0.id = -1 <;> by_cases h1 : t1.id = -1 <;>
    cases hf0 : FindTouchById touches t0.id <;>
    cases hf1 : FindTouchById touches t1.id <;>
    simp [h0, h1] <;>
    first
      | exact List.mem_map.mp (m0 _ hf0)
      | exact List.mem_map.mp (m1 _ hf1)
      | exact ⟨List.mem_map.mp (m0 _ hf0), List.mem_map.mp (m1 _ hf1)⟩

theorem dedup_length_pos (l : List Int) (a : Int) (ha : a ∈ l) : 1 ≤ l.dedup.length :=
  List.length_pos_of_mem (List.mem_dedup.mpr ha)

theorem dedup_length_two (l : List Int) (a b : Int) (ha : a ∈ l) (hb : b ∈ l) (hab : a ≠ b) :
    2 ≤ l.dedup.length := by
  rw [← List.card_toFinset]
  exact Finset.one_lt_card.mpr ⟨a, List.mem_toFinset.mpr ha, b, List.mem_toFinset.mpr hb, hab⟩

theorem dedup_length_le_one (l : List Int) (a : Int) (h : ∀ x ∈ l, x = a) :
    l.dedup.length ≤ 1 := by
  rw [← List.card_toFinset]
  refine Finset.card_le_one.mpr ?_
  intro x hx y hy
  rw [h x (List.mem_toFinset.mp hx), h y (List.mem_toFinset.mp hy)]

/-- C27: after `UpdateTrackedTouches` on a current touch list whose ids all differ
from -1, starting from slots that are empty or hold distinct ids, slot 0 is occupied
exactly when the list holds at least one distinct id and slot 1 exactly when it holds
at least two (`D` being the number of distinct ids, the occupied slots are the first
`min(2, D)`); so slot 1 is occupied only if slot 0 is, and both slots are empty when
the list is empty. -/
theorem occupied_slots_are_first_min_two (touches : List (TrackedTouch K))
    (t0 t1 : TrackedTouch K) (hids : ∀ t ∈ touches, t.id ≠ -1)
    (hprev : t0.id = -1 ∨ t1.id = -1 ∨ t0.id ≠ t1.id) :
    ((UpdateTrackedTouches touches t0 t1).1.id ≠ -1 ↔
      1 ≤ (touches.map (fun u => u.id)).dedup.length) ∧
    ((UpdateTrackedTouches touches t0 t1).2.id ≠ -1 ↔
      2 ≤ (touches.map (fun u => u.id)).dedup.length) ∧
    ((UpdateTrackedTouches touches t0 t1).2.id ≠ -1 →
      (UpdateTrackedTouches touches t0 t1).1.id ≠ -1) ∧
    (touches = [] → (UpdateTrackedTouches touches t0 t1).1.id = -1 ∧
      (UpdateTrackedTouches touches t0 t1).2.id = -1) := by
  by_cases hne : touches = []
  · subst hne
    have e : UpdateTrackedTouches ([] : List (TrackedTouch K)) t0 t1
        = ({ t0 with id := -1 }, { t1 with id := -1 }) := rfl
    rw [e]
    simp
  · have hdist := UpdateTrackedTouches_distinct touches t0 t1 (by
      intro e
      rcases hprev with h | h | h
      · exact h
      · exact e.trans h
      · exact absurd e h)
    obtain ⟨s, hs, p1, p2, p3⟩ := UpdateTrackedTouches_as_fill touches t0 t1 hne
    obtain ⟨a1, a2, a3, a4⟩ := fillTrackedTouches_order_pair touches s p1
    rw [← hs] at a1 a2 a3 a4
    have mem1 : (UpdateTrackedTouches touches t0 t1).1.id ≠ -1 →
        (UpdateTrackedTouches touches t0 t1).1.id ∈ touches.map (fun u => u.id) := by
      intro h
      rcases a3 with e | e
      · rcases p2 with q | q
        · exact absurd (e.trans q) h
        · rw [e]; exact q
      · exact e
    have mem2 : (UpdateTrackedTouches touches t0 t1).2.id ≠ -1 →
        (UpdateTrackedTouches touches t0 t1).2.id ∈ touches.map (fun u => u.id) := by
      intro h
      rcases a4 with e | e
      · rcases p3 with q | q
        · exact absurd (e.trans q) h
        · rw [e]; exact q
      · exact e
    have all_eq : (UpdateTrackedTouches touches t0 t1).2.id = -1 →
        ∀ x ∈ touches.map (fun u => u.id), x = (UpdateTrackedTouches touches t0 t1).1.id := by
      intro he x hx
      obtain ⟨t, ht, rfl⟩ := List.mem_map.mp hx
      rcases a2 he t ht with e | e
      · exact e
      · exact absurd e (hids t ht)
    refine ⟨⟨fun h => dedup_length_pos _ _ (mem1 h), ?_⟩, ⟨?_, ?_⟩, a1,
      fun e => absurd e hne⟩
    · intro _ h0
      have h2 : (UpdateTrackedTouches touches t0 t1).2.id = -1 := by
        by_contra hc
        exact a1 hc h0
      obtain ⟨t, ts, rfl⟩ := List.exists_cons_of_ne_nil hne
      have := all_eq h2 t.id (List.mem_map_of_mem _ (List.mem_cons_self t ts))
      exact hids t (List.mem_cons_self t ts) (this.trans h0)
    · intro h
      exact dedup_length_two _ _ _ (mem1 (a1 h)) (mem2 h) (fun e => a1 h (hdist e))
    · intro hD hc
      have := dedup_length_le_one _ _ (all_eq hc)
      omega

/-- Witness for C27: slots 3 and 7, and a touch list with the two distinct ids 7
and 9 (id 9 reported twice): both slots are occupied. -/
theorem occupied_slots_are_first_min_two_witness :
    (UpdateTrackedTouches ([⟨9, ⟨5, 5⟩⟩, ⟨7, ⟨1, 2⟩⟩, ⟨9, ⟨4, 6⟩⟩] : List (TrackedTouch ℚ))
      ⟨3, ⟨0, 0⟩⟩ ⟨7, ⟨0, 0⟩⟩).2.id ≠ -1 :=
  (occupied_slots_are_first_min_two
    ([⟨9, ⟨5, 5⟩⟩, ⟨7, ⟨1, 2⟩⟩, ⟨9, ⟨4, 6⟩⟩] : List (TrackedTouch ℚ))
    ⟨3, ⟨0, 0⟩⟩ ⟨7, ⟨0, 0⟩⟩
    (by simp) (Or.inr (Or.inr (by decide)))).2.1.mpr (by decide)

/-! ### C28: indices used by the input code -/

theorem top_range3 (m : Libm K) (px py : K) (sqs : List (Square K)) :
    -1 ≤ TopSquareAt m px py sqs NUM_SQUARES ∧ TopSquareAt m px py sqs NUM_SQUARES < 3 := by
  have h := TopSquareAt_range m px py sqs NUM_SQUARES
  have h3 : ((NUM_SQUARES : Nat) : Int) = 3 := rfl
  rw [h3] at h
  exact ⟨h.1, by omega⟩

theorem used_append_safe (used : List Int) (i : Int)
    (hu : ∀ j ∈ used, 0 ≤ j ∧ j < 3) (h0 : 0 ≤ i) (h3 : i < 3) :
    ∀ j ∈ used ++ [i], 0 ≤ j ∧ j < 3 := by
  intro j hj
  rcases List.mem_append.mp hj with hj | hj
  · exact hu j hj
  · rw [List.mem_singleton.mp hj]
    exact ⟨h0, h3⟩

theorem mouseLeftPress_safe (m : Libm K) (s : MainState K) (f : Frame K) (h : IndexSafe s) :
    IndexSafe (mouseLeftPress m s f) := by
  have ht := top_range3 m f.mpos.x f.mpos.y s.squares
  have h3 : ((NUM_SQUARES : Nat) : Int) = 3 := rfl
  simp only [IndexSafe, mouseLeftPress, PlayTapInForSide, logIdx, h3] at *
  generalize TopSquareAt m f.mpos.x f.mpos.y s.squares NUM_SQUARES = d at *
  obtain ⟨h1, h2, h4, h5, hu⟩ := h
  split_ifs <;> refine ⟨?_, ?_, ?_, ?_, ?_⟩ <;> (try dsimp only) <;>
    first
      | assumption
      | omega
      | (refine used_append_safe _ _ hu ?_ ?_ <;> omega)

theorem mouseLeftRelease_safe (m : Libm K) (s : MainState K) (f : Frame K) (h : IndexSafe s) :
    IndexSafe (mouseLeftRelease m s f) := by
  have ht := top_range3 m f.mpos.x f.mpos.y s.squares
  have h3 : ((NUM_SQUARES : Nat) : Int) = 3 := rfl
  simp only [IndexSafe, mouseLeftRelease, PlayTapOutForSide, logIdx, h3] at *
  generalize TopSquareAt m f.mpos.x f.mpos.y s.squares NUM_SQUARES = d at *
  obtain ⟨h1, h2, h4, h5, hu⟩ := h
  split_ifs <;> refine ⟨?_, ?_, ?_, ?_, ?_⟩ <;> (try dsimp only) <;>
    first
      | assumption
      | omega
      | (refine used_append_safe _ _ hu ?_ ?_ <;> omega)

theorem mouseLeftDrag_safe (s : MainState K) (f : Frame K) (h : IndexSafe s) :
    IndexSafe (mouseLeftDrag s f) := by
  have h3 : ((NUM_SQUARES : Nat) : Int) = 3 := rfl
  simp only [IndexSafe, mouseLeftDrag, logIdx, h3] at *
  obtain ⟨h1, h2, h4, h5, hu⟩ := h
  split_ifs with ha hb <;> refine ⟨?_, ?_, ?_, ?_, ?_⟩ <;> (try dsimp only) <;>
    first
      | assumption
      | omega
      | (refine used_append_safe _ _ hu ?_ ?_ <;> omega)

theorem mouseRightPress_safe (m : Libm K) (s : MainState K) (f : Frame K) (h : IndexSafe s) :
    IndexSafe (mouseRightPress m s f) := by
  have ht := top_range3 m f.mpos.x f.mpos.y s.squares
  have h3 : ((NUM_SQUARES : Nat) : Int) = 3 := rfl
  simp only [IndexSafe, mouseRightPress, PlayTapInForSide, logIdx, h3] at *
  generalize TopSquareAt m f.mpos.x f.mpos.y s.squares NUM_SQUARES = d at *
  obtain ⟨h1, h2, h4, h5, hu⟩ := h
  split_ifs <;> refine ⟨?_, ?_, ?_, ?_, ?_⟩ <;> (try dsimp only) <;>
    first
      | assumption
      | omega
      | (refine used_append_safe _ _ hu ?_ ?_ <;> omega)

theorem mouseRightRelease_safe (m : Libm K) (s : MainState K) (f : Frame K) (h : IndexSafe s) :
    IndexSafe (mouseRightRelease m s f) := by
  have ht := top_range3 m f.mpos.x f.mpos.y s.squares
  have h3 : ((NUM_SQUARES : Nat) : Int) = 3 := rfl
  simp only [IndexSafe, mouseRightRelease, PlayTapOutForSide, logIdx, h3] at *
  generalize TopSquareAt m f.mpos.x f.mpos.y s.squares NUM_SQUARES = d at *
  obtain ⟨h1, h2, h4, h5, hu⟩ := h
  split_ifs <;> refine ⟨?_, ?_, ?_, ?_, ?_⟩ <;> (try dsimp only) <;>
    first
      | assumption
      | omega
      | (refine used_append_safe _ _ hu ?_ ?_ <;> omega)

theorem mouseRightDrag_safe (s : MainState K) (f : Frame K) (h : IndexSafe s) :
    IndexSafe (mouseRightDrag s f) := by
  have h3 : ((NUM_SQUARES : Nat) : Int) = 3 := rfl
  simp only [IndexSafe, mouseRightDrag, logIdx, h3] at *
  obtain ⟨h1, h2, h4, h5, hu⟩ := h
  split_ifs with ha hb <;> refine ⟨?_, ?_, ?_, ?_, ?_⟩ <;> (try dsimp only) <;>
    first
      | assumption
      | omega
      | (refine used_append_safe _ _ hu ?_ ?_ <;> omega)

theorem mouseWheel_safe (m : Libm K) (s : MainState K) (f : Frame K) (h : IndexSafe s) :
    IndexSafe (mouseWheel m s f) := by
  have ht := top_range3 m f.mpos.x f.mpos.y s.squares
  have h3 : ((NUM_SQUARES : Nat) : Int) = 3 := rfl
  simp only [IndexSafe, mouseWheel, logIdx, h3] at *
  generalize TopSquareAt m f.mpos.x f.mpos.y s.squares NUM_SQUARES = d at *
  obtain ⟨h1, h2, h4, h5, hu⟩ := h
  split_ifs <;> refine ⟨?_, ?_, ?_, ?_, ?_⟩ <;> (try dsimp only) <;>
    first
      | assumption
      | omega
      | (refine used_append_safe _ _ hu ?_ ?_ <;> omega)

theorem resetTouchState_safe (s : MainState K) (h : IndexSafe s) :
    IndexSafe (resetTouchState s) := by
  have h3 : ((NUM_SQUARES : Nat) : Int) = 3 := rfl
  simp only [IndexSafe, resetTouchState, h3] at *
  obtain ⟨h1, h2, h4, h5, hu⟩ := h
  exact ⟨h1, h2, by omega, by omega, hu⟩

theorem mouseBranch_safe (m : Libm K) (s : MainState K) (f : Frame K) (h : IndexSafe s) :
    IndexSafe (mouseBranch m s f) := by
  simp only [mouseBranch]
  exact resetTouchState_safe _ (mouseWheel_safe m _ f (mouseRightDrag_safe _ f
    (mouseRightRelease_safe m _ f (mouseRightPress_safe m _ f (mouseLeftDrag_safe _ f
      (mouseLeftRelease_safe m _ f (mouseLeftPress_safe m s f h)))))))

theorem touchPress_safe (m : Libm K) (s : MainState K) (a : TrackedTouch K) (h : IndexSafe s) :
    IndexSafe (touchPress m s a) := by
  have ht := top_range3 m a.pos.x a.pos.y s.squares
  have h3 : ((NUM_SQUARES : Nat) : Int) = 3 := rfl
  simp only [IndexSafe, touchPress, PlayTapInForSide, logIdx, h3] at *
  generalize TopSquareAt m a.pos.x a.pos.y s.squares NUM_SQUARES = d at *
  obtain ⟨h1, h2, h4, h5, hu⟩ := h
  split_ifs <;> refine ⟨?_, ?_, ?_, ?_, ?_⟩ <;> (try dsimp only) <;>
    first
      | assumption
      | omega
      | (refine used_append_safe _ _ hu ?_ ?_ <;> omega)

theorem touchDrag_safe (s : MainState K) (a prev0 prev1 : TrackedTouch K) (h : IndexSafe s) :
    IndexSafe (touchDrag s a prev0 prev1) := by
  have h3 : ((NUM_SQUARES : Nat) : Int) = 3 := rfl
  simp only [IndexSafe, touchDrag, logIdx, h3] at *
  obtain ⟨h1, h2, h4, h5, hu⟩ := h
  split_ifs <;> refine ⟨?_, ?_, ?_, ?_, ?_⟩ <;> (try dsimp only) <;>
    first
      | assumption
      | omega
      | (refine used_append_safe _ _ hu ?_ ?_ <;> omega)

theorem touchSingle_safe (m : Libm K) (s : MainState K) (prev0 prev1 : TrackedTouch K)
    (h : IndexSafe s) : IndexSafe (touchSingle m s prev0 prev1) := by
  have hd := touchDrag_safe (touchPress m s (if s.t0.id ≠ -1 then s.t0 else s.t1))
    (if s.t0.id ≠ -1 then s.t0 else s.t1) prev0 prev1 (touchPress_safe m s _ h)
  have h3 : ((NUM_SQUARES : Nat) : Int) = 3 := rfl
  simp only [touchSingle]
  simp only [IndexSafe, h3] at hd ⊢
  obtain ⟨h1, h2, h4, _, hu⟩ := hd
  exact ⟨h1, h2, h4, by omega, hu⟩

theorem pinchStart_safe (m : Libm K) (s : MainState K) (h : IndexSafe s) :
    IndexSafe (pinchStart m s) := by
  have hc := top_range3 m ((s.t0.pos.x + s.t1.pos.x) * 0.5) ((s.t0.pos.y + s.t1.pos.y) * 0.5)
    s.squares
  have ha := top_range3 m s.t0.pos.x s.t0.pos.y s.squares
  have hb := top_range3 m s.t1.pos.x s.t1.pos.y s.squares
  have h3 : ((NUM_SQUARES : Nat) : Int) = 3 := rfl
  simp only [IndexSafe, pinchStart, PlayTapInForSide, logIdx, h3] at *
  generalize TopSquareAt m ((s.t0.pos.x + s.t1.pos.x) * 0.5) ((s.t0.pos.y + s.t1.pos.y) * 0.5)
    s.squares NUM_SQUARES = c at *
  generalize TopSquareAt m s.t0.pos.x s.t0.pos.y s.squares NUM_SQUARES = a at *
  generalize TopSquareAt m s.t1.pos.x s.t1.pos.y s.squares NUM_SQUARES = b at *
  obtain ⟨h1, h2, h4, h5, hu⟩ := h
  split_ifs <;> refine ⟨?_, ?_, ?_, ?_, ?_⟩ <;> (try dsimp only) <;>
    first
      | assumption
      | omega
      | (refine used_append_safe _ _ hu ?_ ?_ <;> omega)

theorem pinchTranslate_safe (s : MainState K) (prev0 prev1 : TrackedTouch K)
    (h : IndexSafe s) : IndexSafe (pinchTranslate s prev0 prev1) := by
  simp only [IndexSafe, pinchTranslate] at *
  split_ifs <;> exact h

theorem pinchSeed_safe (s : MainState K) (currDist currAngDeg : K) (h : IndexSafe s) :
    IndexSafe (pinchSeed s currDist currAngDeg) := by
  simp only [IndexSafe, pinchSeed] at *
  exact h

theorem pinchScale_safe (s : MainState K) (currDist : K) (h : IndexSafe s) :
    IndexSafe (pinchScale s currDist) := by
  simp only [IndexSafe, pinchScale] at *
  split_ifs <;> exact h

theorem pinchRotate_safe [FloorRing K] (s : MainState K) (currAngDeg : K) (h : IndexSafe s) :
    IndexSafe (pinchRotate s currAngDeg) := by
  simp only [IndexSafe, pinchRotate] at *
  exact h

theorem logIdx_safe (s : MainState K) (i : Int) (h : IndexSafe s) (h0 : 0 ≤ i) (h3 : i < 3) :
    IndexSafe (logIdx s i) := by
  have e3 : ((NUM_SQUARES : Nat) : Int) = 3 := rfl
  simp only [IndexSafe, logIdx, e3] at *
  obtain ⟨h1, h2, h4, h5, hu⟩ := h
  exact ⟨h1, h2, h4, h5, used_append_safe _ _ hu h0 h3⟩

theorem pinchUpdate_safe [FloorRing K] (m : Libm K) (s : MainState K)
    (prev0 prev1 : TrackedTouch K) (h : IndexSafe s) :
    IndexSafe (pinchUpdate m s prev0 prev1) := by
  have e3 : ((NUM_SQUARES : Nat) : Int) = 3 := rfl
  simp only [pinchUpdate]
  by_cases hp : s.pinchSquare ≠ -1
  · rw [if_pos hp]
    have hr : -1 ≤ s.pinchSquare ∧ s.pinchSquare < 3 := by
      have := h.2.2.2.1
      rw [e3] at this
      exact this
    have ht := pinchTranslate_safe _ prev0 prev1
      (logIdx_safe s s.pinchSquare h (by omega) (by omega))
    split_ifs
    · exact pinchSeed_safe _ _ _ ht
    · exact pinchRotate_safe _ _ (pinchScale_safe _ _ ht)
    · exact ht
  · rw [if_neg hp]
    exact h

theorem touchRelease_safe (s : MainState K) (h : IndexSafe s) : IndexSafe (touchRelease s) := by
  have h3 : ((NUM_SQUARES : Nat) : Int) = 3 := rfl
  simp only [IndexSafe, touchRelease, PlayTapOutForSide, logIdx, h3] at *
  obtain ⟨h1, h2, h4, h5, hu⟩ := h
  split_ifs <;> refine ⟨?_, ?_, ?_, ?_, ?_⟩ <;> (try dsimp only) <;>
    first
      | assumption
      | omega
      | (refine used_append_safe _ _ hu ?_ ?_ <;> omega)

theorem touchCancelPinch_safe (s : MainState K) (ec : Int) (h : IndexSafe s) :
    IndexSafe (touchCancelPinch s ec) := by
  have h3 : ((NUM_SQUARES : Nat) : Int) = 3 := rfl
  simp only [IndexSafe, touchCancelPinch, h3] at *
  obtain ⟨h1, h2, h4, h5, hu⟩ := h
  split_ifs <;> refine ⟨?_, ?_, ?_, ?_, ?_⟩ <;> (try dsimp only) <;>
    first
      | assumption
      | omega

theorem touchGesture_safe [FloorRing K] (m : Libm K) (s : MainState K) (ec : Int)
    (prev0 prev1 : TrackedTouch K) (h : IndexSafe s) :
    IndexSafe (touchGesture m s ec prev0 prev1) := by
  simp only [touchGesture]
  split_ifs
  · exact touchSingle_safe m s prev0 prev1 h
  · exact pinchUpdate_safe m _ prev0 prev1 (pinchStart_safe m s h)
  · exact h

theorem touchTapOut_safe (s : MainState K) (ec : Int) (h : IndexSafe s) :
    IndexSafe (touchTapOut s ec) := by
  simp only [touchTapOut]
  split_ifs
  · exact touchRelease_safe s h
  · exact h

theorem touch_core_safe [FloorRing K] (m : Libm K) (s : MainState K) (ec : Int)
    (q0 q1 : TrackedTouch K) (h : IndexSafe s) :
    IndexSafe (touchTapOut (touchGesture m (touchCancelPinch s ec) ec q0 q1) ec) :=
  touchTapOut_safe _ ec (touchGesture_safe m _ ec q0 q1 (touchCancelPinch_safe s ec h))

theorem IndexSafe_prevTouchCount (s : MainState K) (c : Int) (h : IndexSafe s) :
    IndexSafe { s with prevTouchCount := c } := h

theorem IndexSafe_slots (s : MainState K) (a b : TrackedTouch K) (h : IndexSafe s) :
    IndexSafe { s with t0 := a, t1 := b } := h

theorem touchBranch_safe [FloorRing K] (m : Libm K) (s : MainState K) (f : Frame K)
    (h : IndexSafe s) : IndexSafe (touchBranch m s f) := by
  simp only [touchBranch]
  apply IndexSafe_prevTouchCount
  apply touch_core_safe
  exact IndexSafe_slots s _ _ h

theorem inputStep_safe [FloorRing K] (m : Libm K) (s : MainState K) (f : Frame K)
    (h : IndexSafe { s with used := [] }) : IndexSafe (inputStep m s f) := by
  have h0 : IndexSafe ({ s with taps := [], used := [] } : MainState K) := h
  simp only [inputStep]
  split_ifs
  · exact mouseBranch_safe m _ f h0
  · exact touchBranch_safe m _ f h0

theorem frameStep_safe [FloorRing K] (m : Libm K) (s : MainState K) (f : Frame K)
    (h : IndexSafe { s with used := [] }) : IndexSafe (frameStep m s f) :=
  inputStep_safe m s f h

theorem IndexSafe_forget (s : MainState K) (h : IndexSafe s) :
    IndexSafe { s with used := [] } := by
  simp only [IndexSafe] at *
  obtain ⟨h1, h2, h4, h5, _⟩ := h
  exact ⟨h1, h2, h4, h5, fun i hi => absurd hi (List.not_mem_nil i)⟩

theorem runFrames_safe [FloorRing K] (m : Libm K) (fs : List (Frame K)) :
    ∀ s : MainState K, IndexSafe s → IndexSafe (runFrames m s fs) := by
  induction fs with
  | nil => intro s h; exact h
  | cons f fs ih =>
    intro s h
    exact ih (frameStep m s f) (frameStep_safe m s f (IndexSafe_forget s h))

theorem initState_safe (swInit shInit : Int) : IndexSafe (initState K swInit shInit) := by
  simp only [IndexSafe, initState, NUM_SQUARES]
  refine ⟨by decide, by decide, by decide, by decide, ?_⟩
  intro i hi
  exact absurd hi (List.not_mem_nil i)

/-- C28: in every state reached from the initial state by a run of frames (input code
and clamp), the four gesture targets are -1 or an index in `[0, NUM_SQUARES)`, and
for every frame input whatever, every index the input code of the next frame uses to
read or write `squares[]` and the per-square pinch arrays (drag, rotate, wheel and
pinch targets, tap-out fallbacks) lies in `[0, NUM_SQUARES)`: -1 is never used as an
index. -/
theorem input_indices_in_range [FloorRing K] (m : Libm K) (swInit shInit : Int)
    (fs : List (Frame K)) (f : Frame K) :
    IndexSafe (runFrames m (initState K swInit shInit) fs) ∧
    ∀ i ∈ (inputStep m (runFrames m (initState K swInit shInit) fs) f).used,
      0 ≤ i ∧ i < (NUM_SQUARES : Int) := by
  have h := runFrames_safe m fs _ (initState_safe (K := K) swInit shInit)
  exact ⟨h, (inputStep_safe m _ f (IndexSafe_forget _ h)).2.2.2.2⟩

/-! ### C5: the tap-out on touch release -/

theorem c5_after_wheel :
    frameStep (⟨Real.sqrt, Real.cos, Real.sin, fun y x => Complex.arg ⟨x, y⟩,
        fun x y => Real.sqrt (x * x + y * y)⟩ : Libm ℝ)
      (initState ℝ 1024 600) { idleFrame ℝ with mpos := ⟨665.6, 300⟩, wheel := -1 }
    = { initState ℝ 1024 600 with
        squares := [⟨358.4, 300, 40, 0⟩, ⟨665.6, 300, 36, 0⟩, ⟨512, 300, 40, 0⟩],
        used := [1] } := by
  simp only [frameStep, inputStep, idleFrame, initState, mouseBranch,
    mouseLeftPress, mouseLeftRelease, mouseLeftDrag, mouseRightPress, mouseRightRelease,
    mouseRightDrag, mouseWheel, resetTouchState, TopSquareAt, NUM_SQUARES,
    PlayTapInForSide, logIdx, readSq, updSq, ClampSquares, clampSquare, List.map, clampSide,
    SQUARE_SIZE_DEFAULT, SQUARE_MIN_SIDE, SQUARE_MAX_SIDE, TOUCH_DELTA_DEADZONE,
    List.getD_cons_zero, List.getD_cons_succ]
  norm_num [pointIn_angle_zero _ realLibm_exact, abs_le, lt_abs, toNat_two, toNat_one]

theorem c5_after_touch_press :
    frameStep (⟨Real.sqrt, Real.cos, Real.sin, fun y x => Complex.arg ⟨x, y⟩,
        fun x y => Real.sqrt (x * x + y * y)⟩ : Libm ℝ)
      { initState ℝ 1024 600 with
        squares := [⟨358.4, 300, 40, 0⟩, ⟨665.6, 300, 36, 0⟩, ⟨512, 300, 40, 0⟩],
        used := [1] }
      (touchFrame ℝ [⟨0, ⟨665.6, 300⟩⟩])
    = { initState ℝ 1024 600 with
        squares := [⟨358.4, 300, 40, 0⟩, ⟨665.6, 300, 36, 0⟩, ⟨512, 300, 40, 0⟩],
        t0 := ⟨0, ⟨665.6, 300⟩⟩, prevTouchCount := 1, dragTouchSquare := 1,
        taps := [Tap.tapIn 72], used := [1] } := by
  simp only [frameStep, inputStep, touchFrame, idleFrame, initState, touchBranch,
    UpdateTrackedTouches, FindTouchById, fillTrackedTouches, effectiveCount, touchCancelPinch,
    touchRebase, touchGesture, touchSingle, touchPress, touchDrag, touchTapOut, TopSquareAt,
    NUM_SQUARES, PlayTapInForSide, logIdx, readSq, updSq, ClampSquares, clampSquare, List.map,
    SQUARE_SIZE_DEFAULT, TOUCH_DELTA_DEADZONE, List.getD_cons_zero, List.getD_cons_succ]
  norm_num [pointIn_angle_zero _ realLibm_exact, abs_le, lt_abs, toNat_two, toNat_one]

theorem c5_after_touch_drag :
    frameStep (⟨Real.sqrt, Real.cos, Real.sin, fun y x => Complex.arg ⟨x, y⟩,
        fun x y => Real.sqrt (x * x + y * y)⟩ : Libm ℝ)
      { initState ℝ 1024 600 with
        squares := [⟨358.4, 300, 40, 0⟩, ⟨665.6, 300, 36, 0⟩, ⟨512, 300, 40, 0⟩],
        t0 := ⟨0, ⟨665.6, 300⟩⟩, prevTouchCount := 1, dragTouchSquare := 1,
        taps := [Tap.tapIn 72], used := [1] }
      (touchFrame ℝ [⟨0, ⟨512, 300⟩⟩])
    = dragUnderTopExample ℝ := by
  simp only [frameStep, inputStep, touchFrame, idleFrame, initState, touchBranch,
    UpdateTrackedTouches, FindTouchById, fillTrackedTouches, effectiveCount, touchCancelPinch,
    touchRebase, touchGesture, touchSingle, touchPress, touchDrag, touchTapOut, TopSquareAt,
    NUM_SQUARES, PlayTapInForSide, logIdx, readSq, updSq, ClampSquares, clampSquare, List.map,
    SQUARE_SIZE_DEFAULT, TOUCH_DELTA_DEADZONE, List.getD_cons_zero, List.getD_cons_succ,
    dragUnderTopExample]
  norm_num [pointIn_angle_zero _ realLibm_exact, abs_le, lt_abs, toNat_two, toNat_one]

theorem c5_reach :
    runFrames (⟨Real.sqrt, Real.cos, Real.sin, fun y x => Complex.arg ⟨x, y⟩,
        fun x y => Real.sqrt (x * x + y * y)⟩ : Libm ℝ)
      (initState ℝ 1024 600)
      [{ idleFrame ℝ with mpos := ⟨665.6, 300⟩, wheel := -1 },
       touchFrame ℝ [⟨0, ⟨665.6, 300⟩⟩], touchFrame ℝ [⟨0, ⟨512, 300⟩⟩]]
    = dragUnderTopExample ℝ := by
  simp only [runFrames, List.foldl]
  rw [c5_after_wheel, c5_after_touch_press, c5_after_touch_drag]

theorem c5_release_side (px py : ℝ) :
    (readSq (dragUnderTopExample ℝ).squares
      (if TopSquareAt (⟨Real.sqrt, Real.cos, Real.sin, fun y x => Complex.arg ⟨x, y⟩,
            fun x y => Real.sqrt (x * x + y * y)⟩ : Libm ℝ) px py
          (dragUnderTopExample ℝ).squares NUM_SQUARES < 0 then 0
       else TopSquareAt (⟨Real.sqrt, Real.cos, Real.sin, fun y x => Complex.arg ⟨x, y⟩,
            fun x y => Real.sqrt (x * x + y * y)⟩ : Libm ℝ) px py
          (dragUnderTopExample ℝ).squares NUM_SQUARES)).half * 2 = 80 := by
  simp only [dragUnderTopExample, initState, TopSquareAt, NUM_SQUARES, List.getD_cons_zero,
    List.getD_cons_succ, pointIn_angle_zero _ realLibm_exact, readSq]
  by_cases h2 : |px - 512| ≤ 40 ∧ |py - 300| ≤ 40
  · simp [h2.1, h2.2]
    norm_num
  · have h1 : ¬ (|px - 512| ≤ 36 ∧ |py - 300| ≤ 36) := by
      rintro ⟨a, b⟩
      exact h2 ⟨le_trans a (by norm_num), le_trans b (by norm_num)⟩
    by_cases h0 : |px - 358.4| ≤ 40 ∧ |py - 300| ≤ 40
    · rw [not_and_or] at h2 h1
      rcases h2 with h2 | h2 <;> rcases h1 with h1 | h1 <;> simp [h2, h1, h0.1, h0.2] <;>
        norm_num
    · rw [not_and_or] at h2 h1 h0
      rcases h2 with h2 | h2 <;> rcases h1 with h1 | h1 <;> rcases h0 with h0 | h0 <;>
        simp [h2, h1, h0] <;> norm_num

theorem mouse_release_taps [FloorRing K] (m : Libm K) (s : MainState K) (g : Frame K)
    (hg0 : g.touches = []) (hgl : g.leftPressed = false) (hgr : g.rightPressed = false)
    (hd : s.dragMouseSquare = -1) (hrot : s.rotateMouseSquare = -1) :
    (inputStep m s g).taps
      = (if g.leftReleased = true then
          [Tap.tapOut ((readSq s.squares
            (if TopSquareAt m g.mpos.x g.mpos.y s.squares NUM_SQUARES < 0 then 0
             else TopSquareAt m g.mpos.x g.mpos.y s.squares NUM_SQUARES)).half * 2)]
         else [])
        ++ (if g.rightReleased = true then
          [Tap.tapOut ((readSq s.squares
            (if TopSquareAt m g.mpos.x g.mpos.y s.squares NUM_SQUARES < 0 then 0
             else TopSquareAt m g.mpos.x g.mpos.y s.squares NUM_SQUARES)).half * 2)]
         else []) := by
  by_cases hw : g.wheel = 0 <;>
  cases hlr : g.leftReleased <;> cases hrr : g.rightReleased <;>
    simp [inputStep, hg0, mouseBranch, mouseLeftPress, mouseLeftRelease, mouseLeftDrag,
      mouseRightPress, mouseRightRelease, mouseRightDrag, mouseWheel, resetTouchState,
      PlayTapOutForSide, logIdx, hgl, hgr, hd, hrot, hlr, hrr, hw]

/-- C5 (the code at the failing input): in a 1024 × 600 window, one wheel step shrinks
square 1 to side 72; a finger (id 0) then lands on square 1 and drags it to (512, 300),
under square 2, so that `prevTouchCount = 1` and `dragTouchSquare = 1`. On the next
frame, which reports no touch point and no button press, whatever the mouse position
and whether or not a button release is reported, every sound the input code plays is
a tap-out for side 80: the square last targeted by the touch has side 72 and no
tap-out for it is played. When the release of the left button is reported on that
frame a tap-out for side 80 is played, and when no release is reported no sound is
played. The two sides map to different frequencies. -/
theorem touch_release_tap_out_misses_touch_target (g : Frame ℝ) (hg0 : g.touches = [])
    (hgl : g.leftPressed = false) (hgr : g.rightPressed = false) :
    runFrames (⟨Real.sqrt, Real.cos, Real.sin, fun y x => Complex.arg ⟨x, y⟩,
        fun x y => Real.sqrt (x * x + y * y)⟩ : Libm ℝ)
      (initState ℝ 1024 600)
      [{ idleFrame ℝ with mpos := ⟨665.6, 300⟩, wheel := -1 },
       touchFrame ℝ [⟨0, ⟨665.6, 300⟩⟩], touchFrame ℝ [⟨0, ⟨512, 300⟩⟩]]
      = dragUnderTopExample ℝ ∧
    (dragUnderTopExample ℝ).prevTouchCount = 1 ∧
    (dragUnderTopExample ℝ).dragTouchSquare = 1 ∧
    (readSq (dragUnderTopExample ℝ).squares (dragUnderTopExample ℝ).dragTouchSquare).half * 2
      = 72 ∧
    (∀ t ∈ (inputStep (⟨Real.sqrt, Real.cos, Real.sin, fun y x => Complex.arg ⟨x, y⟩,
        fun x y => Real.sqrt (x * x + y * y)⟩ : Libm ℝ) (dragUnderTopExample ℝ) g).taps,
      t = Tap.tapOut 80) ∧
    (g.leftReleased = true →
      Tap.tapOut 80 ∈ (inputStep (⟨Real.sqrt, Real.cos, Real.sin,
        fun y x => Complex.arg ⟨x, y⟩, fun x y => Real.sqrt (x * x + y * y)⟩ : Libm ℝ)
        (dragUnderTopExample ℝ) g).taps) ∧
    (g.leftReleased = false → g.rightReleased = false →
      (inputStep (⟨Real.sqrt, Real.cos, Real.sin, fun y x => Complex.arg ⟨x, y⟩,
        fun x y => Real.sqrt (x * x + y * y)⟩ : Libm ℝ) (dragUnderTopExample ℝ) g).taps
        = []) ∧
    SizeToFreq (72 : ℝ) ≠ SizeToFreq (80 : ℝ) := by
  have ht := mouse_release_taps (⟨Real.sqrt, Real.cos, Real.sin,
    fun y x => Complex.arg ⟨x, y⟩, fun x y => Real.sqrt (x * x + y * y)⟩ : Libm ℝ)
    (dragUnderTopExample ℝ) g hg0 hgl hgr rfl rfl
  rw [c5_release_side g.mpos.x g.mpos.y] at ht
  refine ⟨c5_reach, rfl, rfl, ?_, ?_, ?_, ?_, ?_⟩
  rotate_left 4
  · rw [SizeToFreq_eq, SizeToFreq_eq]
    norm_num
  · norm_num [dragUnderTopExample, readSq, toNat_one]
  · intro t htm
    rw [ht] at htm
    rcases List.mem_append.mp htm with h | h
    · split_ifs at h
      · exact List.mem_singleton.mp h
      · exact absurd h (List.not_mem_nil t)
    · split_ifs at h
      · exact List.mem_singleton.mp h
      · exact absurd h (List.not_mem_nil t)
  · intro hl
    rw [ht, if_pos hl]
    exact List.mem_append_left _ (List.mem_singleton.mpr rfl)
  · intro hl hr
    rw [ht, hl, hr]
    simp

/-- Witness for C5: the frame on which the finger is lifted at (512, 300) and the
release of the left button is reported. -/
theorem touch_release_tap_out_misses_touch_target_witness :
    Tap.tapOut 80 ∈ (inputStep (⟨Real.sqrt, Real.cos, Real.sin,
        fun y x => Complex.arg ⟨x, y⟩, fun x y => Real.sqrt (x * x + y * y)⟩ : Libm ℝ)
      (dragUnderTopExample ℝ)
      { idleFrame ℝ with mpos := ⟨512, 300⟩, leftReleased := true }).taps :=
  (touch_release_tap_out_misses_touch_target
    { idleFrame ℝ with mpos := ⟨512, 300⟩, leftReleased := true } rfl rfl rfl).2.2.2.2.2.1 rfl

/-! ### C26: what the broad-phase test covers -/

theorem center_dist_le (m : Libm K) (hm : m.Exact) (sq : Square K) (r : K)
    (p v : Vector2 K) (k B : K) (hk0 : 0 ≤ k) (hk : 2 ≤ k * k) (hh : 0 ≤ sq.half)
    (hB : 0 ≤ B) (hpen : (ResolveContact m sq r p v).dist2 ≤ B * B) :
    (p.x - sq.x) * (p.x - sq.x) + (p.y - sq.y) * (p.y - sq.y)
      ≤ (sq.half * k + B) * (sq.half * k + B) := by
  have hcs := hm.cos_sq_add_sin_sq (sq.angle * (PI_F K / 180))
  rw [contact_dist2_eq] at hpen
  generalize m.cosf (sq.angle * (PI_F K / 180)) = c at *
  generalize m.sinf (sq.angle * (PI_F K / 180)) = s at *
  have hbox := closest_in_box (InvRotateCS ⟨p.x - sq.x, p.y - sq.y⟩ c s) sq.half hh
  have hnorm : dot (InvRotateCS ⟨p.x - sq.x, p.y - sq.y⟩ c s)
      (InvRotateCS ⟨p.x - sq.x, p.y - sq.y⟩ c s)
      = (p.x - sq.x) * (p.x - sq.x) + (p.y - sq.y) * (p.y - sq.y) := by
    simp only [dot, InvRotateCS]
    linear_combination ((p.x - sq.x) * (p.x - sq.x) + (p.y - sq.y) * (p.y - sq.y)) * hcs
  generalize InvRotateCS ⟨p.x - sq.x, p.y - sq.y⟩ c s = pL at *
  generalize ClosestPointOnSquare pL sq.half = qL at *
  obtain ⟨hqx, hqy⟩ := hbox
  rw [abs_le] at hqx hqy
  have hq : qL.x * qL.x + qL.y * qL.y ≤ (sq.half * k) * (sq.half * k) := by
    have h1 : qL.x * qL.x ≤ sq.half * sq.half := by nlinarith
    have h2 : qL.y * qL.y ≤ sq.half * sq.half := by nlinarith
    have h3 : (sq.half * k) * (sq.half * k) = (sq.half * sq.half) * (k * k) := by ring
    have h4 : (sq.half * sq.half) * 2 ≤ (sq.half * sq.half) * (k * k) :=
      mul_le_mul_of_nonneg_left hk (mul_self_nonneg _)
    linarith
  have h := norm_add_sq_le qL.x qL.y (pL.x - qL.x) (pL.y - qL.y) (sq.half * k) B
    (mul_nonneg hh hk0) hB hq hpen
  simp only [dot] at hnorm
  rw [← hnorm]
  have e1 : qL.x + (pL.x - qL.x) = pL.x := by ring
  have e2 : qL.y + (pL.y - qL.y) = pL.y := by ring
  rw [e1, e2] at h
  exact h

/-- C26 (as the code has it): with exact `cosf` and `sinf`, for every square
(half ≥ 0, any angle), ball radius `r ≥ 0` and ball position, if
`ResolveCircleVsSquare` would detect penetration (`dist2 ≤ r^2`), then the centre is
within one millionth of the radius `maxR = half * 1.41421356237 + r` of the guard:
`dx^2 + dy^2 ≤ (maxR * 1.000001)^2`; and the guard `dx^2 + dy^2 ≤ maxR^2` itself is
satisfied whenever the ball overlaps the box by at least `maxR / 1000000`
(`dist2 ≤ (r - maxR / 1000000)^2` with `maxR / 1000000 ≤ r`). Shallower contacts at a
corner can fail the guard, since 1.41421356237 is below the square root of 2. -/
theorem broad_phase_covers_deep_contacts (m : Libm K) (hm : m.Exact) (sq : Square K)
    (r : K) (p v : Vector2 K) (hh : 0 ≤ sq.half) (hr : 0 ≤ r)
    (hpen : (ResolveContact m sq r p v).dist2 ≤ r * r) :
    (p.x - sq.x) * (p.x - sq.x) + (p.y - sq.y) * (p.y - sq.y)
      ≤ ((sq.half * 1.41421356237 + r) * 1.000001)
          * ((sq.half * 1.41421356237 + r) * 1.000001) ∧
    ((sq.half * 1.41421356237 + r) / 1000000 ≤ r →
      (ResolveContact m sq r p v).dist2
        ≤ (r - (sq.half * 1.41421356237 + r) / 1000000)
            * (r - (sq.half * 1.41421356237 + r) / 1000000) →
      (p.x - sq.x) * (p.x - sq.x) + (p.y - sq.y) * (p.y - sq.y)
        ≤ (sq.half * 1.41421356237 + r) * (sq.half * 1.41421356237 + r)) ∧
    (1.41421356237 : K) * 1.41421356237 < 2 := by
  have hk0 : (0 : K) ≤ 1.41421356237 * 1.000001 := by norm_num
  have hk : (2 : K) ≤ (1.41421356237 * 1.000001) * (1.41421356237 * 1.000001) := by norm_num
  refine ⟨?_, ?_, by norm_num⟩
  · have h := center_dist_le m hm sq r p v _ r hk0 hk hh hr hpen
    refine le_trans h ?_
    have h0 : 0 ≤ sq.half * (1.41421356237 * 1.000001) + r :=
      add_nonneg (mul_nonneg hh hk0) hr
    have hle : sq.half * (1.41421356237 * 1.000001) + r
        ≤ (sq.half * 1.41421356237 + r) * 1.000001 := by nlinarith
    exact mul_self_le_mul_self h0 hle
  · intro he hdeep
    have hB : 0 ≤ r - (sq.half * 1.41421356237 + r) / 1000000 := by linarith
    have h := center_dist_le m hm sq r p v _ _ hk0 hk hh hB hdeep
    refine le_trans h ?_
    have h0 : 0 ≤ sq.half * (1.41421356237 * 1.000001)
        + (r - (sq.half * 1.41421356237 + r) / 1000000) :=
      add_nonneg (mul_nonneg hh hk0) hB
    have hle : sq.half * (1.41421356237 * 1.000001)
        + (r - (sq.half * 1.41421356237 + r) / 1000000)
        ≤ sq.half * 1.41421356237 + r := by
      have e : sq.half * (1.41421356237 * 1.000001)
          + (r - (sq.half * 1.41421356237 + r) / 1000000)
          = sq.half * 1.41421356237 + r - r / 1000000 := by ring
      rw [e]
      have : 0 ≤ r / 1000000 := by positivity
      linarith
    exact mul_self_le_mul_self h0 hle

/-- Witness for C26 (as the code has it): square of half-extent 50 at the origin, ball
of radius 10 at (0, -55), which overlaps the box by 5: the guard is satisfied. -/
theorem broad_phase_covers_deep_contacts_witness :
    ((0 : ℝ) - 0) * (0 - 0) + ((-55 : ℝ) - 0) * (-55 - 0)
      ≤ (50 * 1.41421356237 + 10) * (50 * 1.41421356237 + 10) :=
  (broad_phase_covers_deep_contacts _ realLibm_exact ⟨0, 0, 50, 0⟩ 10 ⟨0, -55⟩ ⟨0, 10⟩
    (by norm_num) (by norm_num)
    (by rw [contact_example_outside]; norm_num)).2.1
    (by norm_num) (by rw [contact_example_outside]; norm_num)

/-- Counterexample to C26 as stated: square of half-extent 40 at (40, 40), angle 0,
and a ball of radius 3.0132312774658203125 at (82.13067626953125, 82.13067626953125),
beyond the corner (80, 80); all these values are single-precision floats. The squared
distance from the centre to the corner is at most the squared radius, so
`ResolveCircleVsSquare` would detect penetration; but `dx^2 + dy^2` exceeds
`(40 * 1.41421356237 + r)^2`, the broad-phase test fails and the loop over the squares
leaves the ball as it is. -/
theorem broad_phase_skips_grazing_corner_contact :
    (ResolveContact (⟨Real.sqrt, Real.cos, Real.sin, fun y x => Complex.arg ⟨x, y⟩,
        fun x y => Real.sqrt (x * x + y * y)⟩ : Libm ℝ)
      ⟨40, 40, 40, 0⟩ 3.0132312774658203125
      ⟨82.13067626953125, 82.13067626953125⟩ ⟨-10, -10⟩).dist2
      ≤ 3.0132312774658203125 * 3.0132312774658203125 ∧
    ¬ (((82.13067626953125 : ℝ) - 40) * (82.13067626953125 - 40)
        + ((82.13067626953125 : ℝ) - 40) * (82.13067626953125 - 40)
      ≤ (40 * 1.41421356237 + 3.0132312774658203125)
          * (40 * 1.41421356237 + 3.0132312774658203125)) ∧
    collideSquares (⟨Real.sqrt, Real.cos, Real.sin, fun y x => Complex.arg ⟨x, y⟩,
        fun x y => Real.sqrt (x * x + y * y)⟩ : Libm ℝ)
      [⟨40, 40, 40, 0⟩]
      (⟨82.13067626953125, 82.13067626953125, -10, -10, 3.0132312774658203125, 0, WHITE⟩ :
        Ball ℝ)
      = ⟨82.13067626953125, 82.13067626953125, -10, -10, 3.0132312774658203125, 0, WHITE⟩ := by
  refine ⟨?_, by norm_num, ?_⟩
  · rw [contact_dist2_eq]
    simp only [InvRotateCS, ClosestPointOnSquare, zero_mul, Real.cos_zero, Real.sin_zero]
    norm_num
  · simp only [collideSquares, List.foldl]
    rw [if_neg (by norm_num)]

end Theorems

end RaylibWeb
